import Mathlib

/-!
# RedSuns: dual point-light shadow-mapping viewer (`src/main.cpp`)

A shallow embedding of `main.cpp` and a verification of its specification.

* Scalars.  The program computes in `float`.  The embedding is polymorphic in a
  linearly ordered field `K` (exact arithmetic); the transcendental functions of
  the C math library are collected in `FloatOps K` and passed explicitly, and
  the text conversions of the iostream library in `FloatText K`.  Where the
  rounding of `float` decides a statement, the functions are repeated in
  single precision (`F32`), a `float` being the rational number it denotes.
* glm.  `radians`, `normalize`, `cross`, `dot`, `lookAt`, `perspective`,
  `translate`, `rotate`, `scale` and the matrix products follow glm's
  right-handed, column-major definitions.
* OpenGL.  The render loop is embedded as the list of commands it issues, in
  issue order; the part of the OpenGL context state the program depends on is
  an explicit state machine (`GLState`, `exec`).
* iostream.  Files are lists of characters and an input stream is the unread
  suffix with its fail bit.
* GLFW.  The key callback is a function on the globals it writes; the statements
  of `main` that acquire and release resources are a list in source order.
* Shaders.  The shader sources are not part of `src`; what the lit stage does
  with the flag `shadows` is modelled from the specification.
-/

namespace RedSuns

/-! ## Vectors and matrices (glm) -/

/-- The type `glm::vec3`. -/
structure Vec3 (K : Type) where
  x : K
  y : K
  z : K
deriving DecidableEq, Repr

/-- The type `glm::vec4`. -/
structure Vec4 (K : Type) where
  x : K
  y : K
  z : K
  w : K
deriving DecidableEq, Repr

/-- The type `glm::mat4`: four columns, `c0 .. c3` being `m[0] .. m[3]`. -/
structure Mat4 (K : Type) where
  c0 : Vec4 K
  c1 : Vec4 K
  c2 : Vec4 K
  c3 : Vec4 K
deriving DecidableEq, Repr

/-- The functions of the C math library the program reaches through glm. -/
structure FloatOps (K : Type) where
  sqrt : K → K
  tan : K → K
  sin : K → K
  cos : K → K
  pi : K

section Glm

variable {K : Type} [LinearOrderedField K]

namespace Vec3

/-- Componentwise sum, `a + b`. -/
def add (a b : Vec3 K) : Vec3 K := ⟨a.x + b.x, a.y + b.y, a.z + b.z⟩

/-- Componentwise difference, `a - b`. -/
def sub (a b : Vec3 K) : Vec3 K := ⟨a.x - b.x, a.y - b.y, a.z - b.z⟩

/-- Product with a scalar, `v * k`. -/
def smul (v : Vec3 K) (k : K) : Vec3 K := ⟨v.x * k, v.y * k, v.z * k⟩

/-- The vector `glm::vec3(k)`. -/
def splat (k : K) : Vec3 K := ⟨k, k, k⟩

end Vec3

namespace Vec4

/-- Componentwise sum, `a + b`. -/
def add (a b : Vec4 K) : Vec4 K := ⟨a.x + b.x, a.y + b.y, a.z + b.z, a.w + b.w⟩

/-- Product with a scalar, `v * k`. -/
def smul (v : Vec4 K) (k : K) : Vec4 K := ⟨v.x * k, v.y * k, v.z * k, v.w * k⟩

/-- The vector `glm::vec4(v, w)`. -/
def ofVec3 (v : Vec3 K) (w : K) : Vec4 K := ⟨v.x, v.y, v.z, w⟩

/-- The first three components. -/
def xyz (v : Vec4 K) : Vec3 K := ⟨v.x, v.y, v.z⟩

end Vec4

/-- The function `glm::dot` on `vec3`. -/
def dot (a b : Vec3 K) : K := a.x * b.x + a.y * b.y + a.z * b.z

/-- The function `glm::cross`. -/
def cross (a b : Vec3 K) : Vec3 K :=
  ⟨a.y * b.z - b.y * a.z, a.z * b.x - b.z * a.x, a.x * b.y - b.x * a.y⟩

/-- The function `glm::inversesqrt`. -/
def inversesqrt (ops : FloatOps K) (a : K) : K := 1 / ops.sqrt a

/-- The function `glm::normalize`: `v * inversesqrt(dot(v, v))`. -/
def normalize (ops : FloatOps K) (v : Vec3 K) : Vec3 K :=
  v.smul (inversesqrt ops (dot v v))

/-- The function `glm::radians`. -/
def radians (ops : FloatOps K) (degrees : K) : K := degrees * (ops.pi / 180)

namespace Mat4

/-- The matrix `glm::mat4(d)`: `d` on the diagonal. -/
def diag (d : K) : Mat4 K :=
  ⟨⟨d, 0, 0, 0⟩, ⟨0, d, 0, 0⟩, ⟨0, 0, d, 0⟩, ⟨0, 0, 0, d⟩⟩

/-- The matrix `glm::mat4(1.0f)`. -/
def identity : Mat4 K := diag 1

/-- Matrix times column vector, `m * v`. -/
def mulVec (m : Mat4 K) (v : Vec4 K) : Vec4 K :=
  ((m.c0.smul v.x).add (m.c1.smul v.y)).add ((m.c2.smul v.z).add (m.c3.smul v.w))

/-- Matrix product, `a * b`: column `j` of the result is `a * b[j]`. -/
def mul (a b : Mat4 K) : Mat4 K :=
  ⟨a.mulVec b.c0, a.mulVec b.c1, a.mulVec b.c2, a.mulVec b.c3⟩

end Mat4

/-- The function `glm::lookAt` (right-handed). -/
def lookAt (ops : FloatOps K) (eye center up : Vec3 K) : Mat4 K :=
  let f := normalize ops (center.sub eye)
  let s := normalize ops (cross f up)
  let u := cross s f
  ⟨⟨s.x, u.x, -f.x, 0⟩,
   ⟨s.y, u.y, -f.y, 0⟩,
   ⟨s.z, u.z, -f.z, 0⟩,
   ⟨-dot s eye, -dot u eye, dot f eye, 1⟩⟩

/-- The function `glm::perspective` (right-handed, clip depth `-1 .. 1`). -/
def perspective (ops : FloatOps K) (fovy aspect zNear zFar : K) : Mat4 K :=
  let tanHalfFovy := ops.tan (fovy / 2)
  ⟨⟨1 / (aspect * tanHalfFovy), 0, 0, 0⟩,
   ⟨0, 1 / tanHalfFovy, 0, 0⟩,
   ⟨0, 0, -(zFar + zNear) / (zFar - zNear), -1⟩,
   ⟨0, 0, -(2 * zFar * zNear) / (zFar - zNear), 0⟩⟩

/-- The function `glm::translate(m, v)`. -/
def translate (m : Mat4 K) (v : Vec3 K) : Mat4 K :=
  ⟨m.c0, m.c1, m.c2,
   (((m.c0.smul v.x).add (m.c1.smul v.y)).add (m.c2.smul v.z)).add m.c3⟩

/-- The function `glm::scale(m, v)`. -/
def scale (m : Mat4 K) (v : Vec3 K) : Mat4 K :=
  ⟨m.c0.smul v.x, m.c1.smul v.y, m.c2.smul v.z, m.c3⟩

/-- The function `glm::rotate(m, angle, v)`. -/
def rotate (ops : FloatOps K) (m : Mat4 K) (angle : K) (v : Vec3 K) : Mat4 K :=
  let c := ops.cos angle
  let s := ops.sin angle
  let axis := normalize ops v
  let temp := axis.smul (1 - c)
  let r00 := c + temp.x * axis.x
  let r01 := temp.x * axis.y + s * axis.z
  let r02 := temp.x * axis.z - s * axis.y
  let r10 := temp.y * axis.x - s * axis.z
  let r11 := c + temp.y * axis.y
  let r12 := temp.y * axis.z + s * axis.x
  let r20 := temp.z * axis.x + s * axis.y
  let r21 := temp.z * axis.y - s * axis.x
  let r22 := c + temp.z * axis.z
  ⟨((m.c0.smul r00).add (m.c1.smul r01)).add (m.c2.smul r02),
   ((m.c0.smul r10).add (m.c1.smul r11)).add (m.c2.smul r12),
   ((m.c0.smul r20).add (m.c1.smul r21)).add (m.c2.smul r22),
   m.c3⟩

end Glm

/-! ## Program state (`main.cpp`, lines 34-106) -/

/-- The constant `SCR_WIDTH`. -/
def SCR_WIDTH : Nat := 800

/-- The constant `SCR_HEIGHT`. -/
def SCR_HEIGHT : Nat := 600

/-- The struct `DirectionLight`. -/
structure DirectionLight (K : Type) where
  direction : Vec3 K
  ambient : Vec3 K
  diffuse : Vec3 K
  specular : Vec3 K
deriving DecidableEq, Repr

/-- The fields of the class `Camera` (`learnopengl/camera.h`) the program reads. -/
structure Camera (K : Type) where
  Position : Vec3 K
  Front : Vec3 K
  Up : Vec3 K
  Zoom : K
deriving DecidableEq, Repr

/-- The three models the program loads; `ProgramState` holds a pointer to each. -/
inductive Model where
  | AE86
  | lamps
  | dumpster
deriving DecidableEq, Repr

/-- The struct `ProgramState`.  The pointers `AE86`, `lamps`, `dumpster` are
set once in `main` to the three models and are represented by `Model`. -/
structure ProgramState (K : Type) where
  ImGuiEnabled : Bool
  camera : Camera K
  CameraMouseMovementUpdateEnabled : Bool
  directionLight : DirectionLight K
  shadows : Bool
  ae86pos : Vec3 K
  ae86angle : K
deriving DecidableEq, Repr

section State

variable {K : Type} [LinearOrderedField K]

/-- The constructor `Camera(glm::vec3 position)` with its default arguments:
front `(0, 0, -1)`, up `(0, 1, 0)`, zoom `45`. -/
def Camera.ofPosition (position : Vec3 K) : Camera K :=
  ⟨position, ⟨0, 0, -1⟩, ⟨0, 1, 0⟩, 45⟩

/-- The method `Camera::GetViewMatrix`. -/
def Camera.GetViewMatrix (ops : FloatOps K) (c : Camera K) : Mat4 K :=
  lookAt ops c.Position (c.Position.add c.Front) c.Up

/-- The constructor `ProgramState()` with the default member initialisers.  The
member `directionLight` has no initialiser; `main` assigns it at lines 183-186
and `dl` stands for its content. -/
def ProgramState.init (dl : DirectionLight K) : ProgramState K :=
  { ImGuiEnabled := false
    camera := Camera.ofPosition ⟨0.0, 0.0, 3.0⟩
    CameraMouseMovementUpdateEnabled := true
    directionLight := dl
    shadows := true
    ae86pos := ⟨0.0, 0.11, 0.0⟩
    ae86angle := 205.0 }

end State

/-! ## OpenGL objects and commands -/

/-- The framebuffer objects: `default` is the window's framebuffer (name `0`);
the other two are the names `glGenFramebuffers` returned at lines 333 and 353. -/
inductive Framebuffer where
  | default
  | depthMap1FBO
  | depthMap2FBO
deriving DecidableEq, Repr

/-- The texture objects: `zero` is the name `0`; the others are the names
returned by `loadCubemap`, `glGenTextures` (lines 336, 356) and `loadTexture`. -/
inductive Texture where
  | zero
  | cubemapTexture
  | depthCubemap1
  | depthCubemap2
  | roadTex
deriving DecidableEq, Repr

/-- The vertex array objects: `zero` is the name `0`. -/
inductive VertexArray where
  | zero
  | skyboxVAO
  | VAO
deriving DecidableEq, Repr

/-- The three `Shader` objects of `main`. -/
inductive Shader where
  | ourShader
  | skyboxShader
  | depthShader
deriving DecidableEq, Repr

/-- The texture targets the frame binds. -/
inductive TexTarget where
  | GL_TEXTURE_2D
  | GL_TEXTURE_CUBE_MAP
deriving DecidableEq, Repr

/-- The depth comparison functions the program selects. -/
inductive DepthFunc where
  | GL_LESS
  | GL_LEQUAL
deriving DecidableEq, Repr

/-- The commands a frame issues, one constructor per call in the loop body. -/
inductive Cmd (K : Type) where
  /-- The call `glClearColor(r, g, b, a)`. -/
  | clearColor (r g b a : K)
  /-- The call `glClear(mask)`: which of the colour and depth bits are set. -/
  | clear (color depth : Bool)
  /-- The call `glViewport(x, y, w, h)`. -/
  | viewport (x y w h : Nat)
  /-- The call `glBindFramebuffer(GL_FRAMEBUFFER, f)`. -/
  | bindFramebuffer (f : Framebuffer)
  /-- The call `shader.use()`. -/
  | use (sh : Shader)
  /-- The call `shader.setMat4(name, m)`. -/
  | setMat4 (sh : Shader) (name : String) (m : Mat4 K)
  /-- The call `shader.setVec3(name, v)`. -/
  | setVec3 (sh : Shader) (name : String) (v : Vec3 K)
  /-- The call `shader.setFloat(name, x)`. -/
  | setFloat (sh : Shader) (name : String) (x : K)
  /-- The call `shader.setInt(name, i)`. -/
  | setInt (sh : Shader) (name : String) (i : Int)
  /-- The call `shader.setBool(name, b)`. -/
  | setBool (sh : Shader) (name : String) (b : Bool)
  /-- The call `glActiveTexture(GL_TEXTURE0 + unit)`. -/
  | activeTexture (unit : Nat)
  /-- The call `glBindTexture(target, t)`. -/
  | bindTexture (target : TexTarget) (t : Texture)
  /-- The call `glBindVertexArray(v)`. -/
  | bindVertexArray (v : VertexArray)
  /-- The call `glDrawArrays(GL_TRIANGLES, first, count)`. -/
  | drawArrays (first count : Nat)
  /-- The call `model->Draw(shader)`. -/
  | drawModel (m : Model) (sh : Shader)
  /-- The call `glDepthFunc(f)`. -/
  | depthFunc (f : DepthFunc)
  /-- The call `DrawImGui(programState)`. -/
  | drawImGui
  /-- The call `glfwSwapBuffers(window)`. -/
  | swapBuffers
  /-- The call `glfwPollEvents()`. -/
  | pollEvents
  /-- The call `glFramebufferTexture(GL_FRAMEBUFFER, GL_DEPTH_ATTACHMENT, t, 0)`. -/
  | framebufferTexture (t : Texture)
  /-- A call that writes none of the context components of `GLState`
  (object creation, storage and parameter setting, capability switches). -/
  | other (call : String)
deriving DecidableEq, Repr

section Frame

variable {K : Type} [LinearOrderedField K]

/-- The function `renderScene(Shader &ourShader)` (lines 594-636): the commands
it issues on the shader `sh`, for the car placement of `ps`. -/
def renderScene (ops : FloatOps K) (ps : ProgramState K) (sh : Shader) : List (Cmd K) :=
  -- car
  let model2 : Mat4 K := Mat4.identity
  let model2 := translate model2 ps.ae86pos
  let model2 := rotate ops model2 (radians ops ps.ae86angle) ⟨0.0, 1.0, 0.0⟩
  let model2 := scale model2 (Vec3.splat 0.2)
  -- lamps
  let model3 : Mat4 K := Mat4.identity
  let model3 := translate model3 ⟨0.0, 0.11, 0.0⟩
  let model3 := scale model3 (Vec3.splat 0.2)
  -- dumpsters
  let model4 : Mat4 K := Mat4.identity
  let model4 := translate model4 ⟨2.6, 0.0, 0.9⟩
  let model4 := rotate ops model4 (radians ops (-90.0)) ⟨0.0, 1.0, 0.0⟩
  let model4a := scale model4 (Vec3.splat 0.25)
  let model4 := translate model4a ⟨-2.1, 0.0, 0.0⟩
  let model4b := rotate ops model4 (radians ops (-10.0)) ⟨0.0, 1.0, 0.0⟩
  let model4 := rotate ops model4b (radians ops 10.0) ⟨0.0, 1.0, 0.0⟩
  let model4 := translate model4 ⟨-4.5, 0.0, 0.0⟩
  let model4c := rotate ops model4 (radians ops 10.0) ⟨0.0, 1.0, 0.0⟩
  [ Cmd.setMat4 sh "model" model2,
    Cmd.setFloat sh "material.shininess" 128.0,
    Cmd.drawModel Model.AE86 sh,
    Cmd.setMat4 sh "model" model3,
    Cmd.drawModel Model.lamps sh,
    Cmd.setMat4 sh "model" model4a,
    Cmd.drawModel Model.dumpster sh,
    Cmd.setMat4 sh "model" model4b,
    Cmd.drawModel Model.dumpster sh,
    Cmd.setMat4 sh "model" model4c,
    Cmd.drawModel Model.dumpster sh ]

/-- The constant `SHADOW_WIDTH` (line 331). -/
def SHADOW_WIDTH : Nat := 1024

/-- The constant `SHADOW_HEIGHT` (line 331). -/
def SHADOW_HEIGHT : Nat := 1024

/-- The array `lightPos` (line 422). -/
def lightPos (i : Fin 2) : Vec3 K :=
  match i with
  | 0 => ⟨-1.74, 1.48, -0.12⟩
  | 1 => ⟨1.74, 1.48, 0.12⟩

/-- The local `near_plane` (line 442). -/
def near_plane : K := 1.0

/-- The local `far_plane` (line 443). -/
def far_plane : K := 25.0

/-- The local `shadowProj` (line 444). -/
def shadowProj (ops : FloatOps K) : Mat4 K :=
  perspective ops (radians ops 90.0) ((SHADOW_WIDTH : K) / (SHADOW_HEIGHT : K))
    near_plane far_plane

/-- The arguments `(eye, center, up)` of the six `glm::lookAt` calls that fill
`shadowTransforms1` (lines 446-451) and `shadowTransforms2` (lines 454-459),
for the light at `L`, in `push_back` order. -/
def shadowLookAtArgs (L : Vec3 K) : List (Vec3 K × Vec3 K × Vec3 K) :=
  [ (L, L.add ⟨1.0, 0.0, 0.0⟩, ⟨0.0, -1.0, 0.0⟩),
    (L, L.add ⟨-1.0, 0.0, 0.0⟩, ⟨0.0, -1.0, 0.0⟩),
    (L, L.add ⟨0.0, 1.0, 0.0⟩, ⟨0.0, 0.0, 1.0⟩),
    (L, L.add ⟨0.0, -1.0, 0.0⟩, ⟨0.0, 0.0, -1.0⟩),
    (L, L.add ⟨0.0, 0.0, 1.0⟩, ⟨0.0, -1.0, 0.0⟩),
    (L, L.add ⟨0.0, 0.0, -1.0⟩, ⟨0.0, -1.0, 0.0⟩) ]

/-- The six face view matrices `glm::lookAt(eye, center, up)` of the light at `L`. -/
def shadowViews (ops : FloatOps K) (L : Vec3 K) : List (Mat4 K) :=
  (shadowLookAtArgs L).map fun a => lookAt ops a.1 a.2.1 a.2.2

/-- The six products `shadowProj * glm::lookAt(...)` pushed for the light at `L`. -/
def shadowTransforms (ops : FloatOps K) (L : Vec3 K) : List (Mat4 K) :=
  (shadowViews ops L).map fun v => (shadowProj ops).mul v

/-- The six view directions, target minus eye, of the light at `L`. -/
def viewDirections (L : Vec3 K) : List (Vec3 K) :=
  (shadowLookAtArgs L).map fun a => a.2.1.sub a.1

/-- The vector `shadowTransforms1`. -/
def shadowTransforms1 (ops : FloatOps K) : List (Mat4 K) := shadowTransforms ops (lightPos 0)

/-- The vector `shadowTransforms2`. -/
def shadowTransforms2 (ops : FloatOps K) : List (Mat4 K) := shadowTransforms ops (lightPos 1)

/-- The string `"shadowMatrices[" + std::to_string(i) + "]"`. -/
def shadowMatricesName (i : Nat) : String :=
  "shadowMatrices[" ++ toString i ++ "]"

/-- The loop `for (i = 0; i < 6; ++i) depthShader.setMat4(..., transforms[i])`
(lines 467-468 and 479-480). -/
def uploadShadowMatrices (transforms : List (Mat4 K)) : List (Cmd K) :=
  (List.range 6).filterMap fun i =>
    (transforms.get? i).map fun m => Cmd.setMat4 Shader.depthShader (shadowMatricesName i) m

/-! ### The face matrices as the specification words them -/

/-- The view direction of cube-map face `i` in the canonical face order of the
specification: `+X, -X, +Y, -Y, +Z, -Z`. -/
def specFaceDirection : Fin 6 → Vec3 K
  | 0 => ⟨1, 0, 0⟩
  | 1 => ⟨-1, 0, 0⟩
  | 2 => ⟨0, 1, 0⟩
  | 3 => ⟨0, -1, 0⟩
  | 4 => ⟨0, 0, 1⟩
  | 5 => ⟨0, 0, -1⟩

/-- The up vector of cube-map face `i` as the specification gives it: `-Y` for
the `±X` and `±Z` faces, `+Z` for the `+Y` face and `-Z` for the `-Y` face. -/
def specFaceUp : Fin 6 → Vec3 K
  | 0 => ⟨0, -1, 0⟩
  | 1 => ⟨0, -1, 0⟩
  | 2 => ⟨0, 0, 1⟩
  | 3 => ⟨0, 0, -1⟩
  | 4 => ⟨0, -1, 0⟩
  | 5 => ⟨0, -1, 0⟩

/-- The face view-projection matrix of the specification for the light at `L`:
`perspective(90°, aspect = 1, near = 1, far = 25) * lookAt(L, L + d_i, u_i)`. -/
def specShadowMatrix (ops : FloatOps K) (L : Vec3 K) (i : Fin 6) : Mat4 K :=
  (perspective ops (radians ops 90) 1 1 25).mul
    (lookAt ops L (L.add (specFaceDirection i)) (specFaceUp i))

/-- The conversion of a `bool` argument to `int`. -/
def boolToInt (b : Bool) : Int := if b then 1 else 0

/-- The block `// render scene to depth cubemap1` (lines 461-472). -/
def depthPass1 (ops : FloatOps K) (ps : ProgramState K) : List (Cmd K) :=
  [ Cmd.viewport 0 0 SHADOW_WIDTH SHADOW_HEIGHT,
    Cmd.bindFramebuffer Framebuffer.depthMap1FBO,
    Cmd.clear false true,
    Cmd.use Shader.depthShader ]
  ++ uploadShadowMatrices (shadowTransforms1 ops)
  ++ [ Cmd.setFloat Shader.depthShader "far_plane" far_plane,
       Cmd.setVec3 Shader.depthShader "lightPos" (lightPos 0) ]
  ++ renderScene ops ps Shader.depthShader
  ++ [ Cmd.bindFramebuffer Framebuffer.default ]

/-- The block `// render scene to depth cubemap2` (lines 474-484). -/
def depthPass2 (ops : FloatOps K) (ps : ProgramState K) : List (Cmd K) :=
  [ Cmd.bindFramebuffer Framebuffer.depthMap2FBO,
    Cmd.clear false true,
    Cmd.use Shader.depthShader ]
  ++ uploadShadowMatrices (shadowTransforms2 ops)
  ++ [ Cmd.setFloat Shader.depthShader "far_plane" far_plane,
       Cmd.setVec3 Shader.depthShader "lightPos" (lightPos 1) ]
  ++ renderScene ops ps Shader.depthShader
  ++ [ Cmd.bindFramebuffer Framebuffer.default ]

/-- The local `projection` (line 493). -/
def projection (ops : FloatOps K) (ps : ProgramState K) : Mat4 K :=
  perspective ops (radians ops ps.camera.Zoom) ((SCR_WIDTH : K) / (SCR_HEIGHT : K)) 0.1 100.0

/-- The block `//rendering scene with shadows` (lines 487-543). -/
def litPass (ops : FloatOps K) (ps : ProgramState K) (spotSwitch : Bool) : List (Cmd K) :=
  let view : Mat4 K := ps.camera.GetViewMatrix ops
  [ Cmd.viewport 0 0 SCR_WIDTH SCR_HEIGHT,
    Cmd.clear true true,
    Cmd.use Shader.ourShader,
    Cmd.setMat4 Shader.ourShader "projection" (projection ops ps),
    Cmd.setMat4 Shader.ourShader "view" view,
    Cmd.setVec3 Shader.ourShader "viewPosition" ps.camera.Position,
    Cmd.setInt Shader.ourShader "shadows" (boolToInt ps.shadows),
    Cmd.setFloat Shader.ourShader "far_plane" far_plane,
    -- point light 1
    Cmd.setVec3 Shader.ourShader "pointLight[0].position" (lightPos 0),
    Cmd.setVec3 Shader.ourShader "pointLight[0].ambient" ⟨0.05, 0.05, 0.05⟩,
    Cmd.setVec3 Shader.ourShader "pointLight[0].diffuse" ⟨0.4, 0.4, 0.4⟩,
    Cmd.setVec3 Shader.ourShader "pointLight[0].specular" ⟨1.0, 1.0, 1.0⟩,
    Cmd.setFloat Shader.ourShader "pointLight[0].constant" 1.0,
    Cmd.setFloat Shader.ourShader "pointLight[0].linear" 0.09,
    Cmd.setFloat Shader.ourShader "pointLight[0].quadratic" 0.032,
    -- point light 2
    Cmd.setVec3 Shader.ourShader "pointLight[1].position" (lightPos 1),
    Cmd.setVec3 Shader.ourShader "pointLight[1].ambient" ⟨0.05, 0.05, 0.05⟩,
    Cmd.setVec3 Shader.ourShader "pointLight[1].diffuse" ⟨0.4, 0.4, 0.4⟩,
    Cmd.setVec3 Shader.ourShader "pointLight[1].specular" ⟨1.0, 1.0, 1.0⟩,
    Cmd.setFloat Shader.ourShader "pointLight[1].constant" 1.0,
    Cmd.setFloat Shader.ourShader "pointLight[1].linear" 0.09,
    Cmd.setFloat Shader.ourShader "pointLight[1].quadratic" 0.032,
    -- spotlight
    Cmd.setVec3 Shader.ourShader "spotLight.ambient" ⟨0.1, 0.1, 0.1⟩,
    Cmd.setVec3 Shader.ourShader "spotLight.diffuse" ⟨0.5, 0.5, 0.5⟩,
    Cmd.setVec3 Shader.ourShader "spotLight.specular" ⟨1.0, 1.0, 1.0⟩,
    Cmd.setVec3 Shader.ourShader "spotLight.direction" ps.camera.Front,
    Cmd.setVec3 Shader.ourShader "spotLight.position" ps.camera.Position,
    Cmd.setFloat Shader.ourShader "spotLight.cutOff" (ops.cos (radians ops 12.5)),
    Cmd.setFloat Shader.ourShader "spotLight.outerCutOff" (ops.cos (radians ops 17.5)),
    Cmd.setFloat Shader.ourShader "spotLight.constant" 1.0,
    Cmd.setFloat Shader.ourShader "spotLight.linear" 0.09,
    Cmd.setFloat Shader.ourShader "spotLight.quadratic" 0.032,
    Cmd.setBool Shader.ourShader "spotLight.spotSwitch" spotSwitch,
    -- direction light
    Cmd.setVec3 Shader.ourShader "directionLight.ambient" ps.directionLight.ambient,
    Cmd.setVec3 Shader.ourShader "directionLight.diffuse" ps.directionLight.diffuse,
    Cmd.setVec3 Shader.ourShader "directionLight.specular" ps.directionLight.specular,
    Cmd.setVec3 Shader.ourShader "directionLight.direction" ps.directionLight.direction,
    Cmd.activeTexture 0,
    Cmd.bindTexture TexTarget.GL_TEXTURE_2D Texture.roadTex,
    Cmd.activeTexture 1,
    Cmd.bindTexture TexTarget.GL_TEXTURE_CUBE_MAP Texture.depthCubemap1,
    Cmd.activeTexture 2,
    Cmd.bindTexture TexTarget.GL_TEXTURE_CUBE_MAP Texture.depthCubemap2 ]
  ++ renderScene ops ps Shader.ourShader

/-- The block `//rendering terrain` (lines 545-556). -/
def terrainPass (ops : FloatOps K) : List (Cmd K) :=
  let model : Mat4 K := Mat4.identity
  let model := scale model (Vec3.splat 3.0)
  let model := rotate ops model (radians ops 180.0) ⟨1.0, 0.0, 0.0⟩
  [ Cmd.use Shader.ourShader,
    Cmd.setMat4 Shader.ourShader "model" model,
    Cmd.setFloat Shader.ourShader "material.shininess" 32.0,
    Cmd.bindVertexArray VertexArray.VAO,
    Cmd.activeTexture 0,
    Cmd.bindTexture TexTarget.GL_TEXTURE_2D Texture.roadTex,
    Cmd.drawArrays 0 6,
    Cmd.bindTexture TexTarget.GL_TEXTURE_2D Texture.zero ]

/-- The block `//skybox rendering` (lines 559-571).  The view matrix is
`glm::mat4(glm::mat3(camera.GetViewMatrix()))`. -/
def skyboxPass (ops : FloatOps K) (ps : ProgramState K) : List (Cmd K) :=
  let v : Mat4 K := ps.camera.GetViewMatrix ops
  let view : Mat4 K :=
    ⟨⟨v.c0.x, v.c0.y, v.c0.z, 0⟩, ⟨v.c1.x, v.c1.y, v.c1.z, 0⟩, ⟨v.c2.x, v.c2.y, v.c2.z, 0⟩,
     ⟨0, 0, 0, 1⟩⟩
  [ Cmd.depthFunc DepthFunc.GL_LEQUAL,
    Cmd.use Shader.skyboxShader,
    Cmd.setMat4 Shader.skyboxShader "view" view,
    Cmd.setMat4 Shader.skyboxShader "projection" (projection ops ps),
    Cmd.bindVertexArray VertexArray.skyboxVAO,
    Cmd.activeTexture 0,
    Cmd.bindTexture TexTarget.GL_TEXTURE_CUBE_MAP Texture.cubemapTexture,
    Cmd.drawArrays 0 36,
    Cmd.bindVertexArray VertexArray.zero,
    Cmd.depthFunc DepthFunc.GL_LESS ]

/-- One iteration of the render loop, from `glClearColor` (line 437) to
`glfwPollEvents` (line 581): the commands issued, in issue order.  The state
`ps` and the flag `spotSwitch` are the globals as `processInput` (line 435)
left them; no statement between lines 437 and 573 writes them. -/
def renderFrame (ops : FloatOps K) (ps : ProgramState K) (spotSwitch : Bool) : List (Cmd K) :=
  [ Cmd.clearColor 0.1 0.1 0.1 1.0,
    Cmd.clear true true ]
  ++ depthPass1 ops ps
  ++ depthPass2 ops ps
  ++ litPass ops ps spotSwitch
  ++ terrainPass ops
  ++ skyboxPass ops ps
  ++ (if ps.ImGuiEnabled then [Cmd.drawImGui] else [])
  ++ [ Cmd.swapBuffers,
       Cmd.pollEvents ]

/-- The callback `framebuffer_size_callback` (lines 656-660). -/
def framebuffer_size_callback (width height : Nat) : List (Cmd K) :=
  [ Cmd.viewport 0 0 width height ]

/-- What one loop iteration depends on: the program state and the spotlight
flag as `processInput` left them, and the framebuffer-size events that
`glfwPollEvents` (line 581) delivers at the end of the iteration. -/
structure FrameInput (K : Type) where
  ps : ProgramState K
  spotSwitch : Bool
  resizes : List (Nat × Nat)

/-- The commands of one loop iteration, callbacks included. -/
def loopIteration (ops : FloatOps K) (inp : FrameInput K) : List (Cmd K) :=
  renderFrame ops inp.ps inp.spotSwitch
  ++ inp.resizes.flatMap fun wh => framebuffer_size_callback wh.1 wh.2

/-- The commands of the render loop `while (!glfwWindowShouldClose(window))`
over the successive iterations `inputs`. -/
def renderLoop (ops : FloatOps K) (inputs : List (FrameInput K)) : List (Cmd K) :=
  inputs.flatMap (loopIteration ops)

/-- The function `loadCubemap` (lines 774-804), all six images loading. -/
def loadCubemap : List (Cmd K) :=
  [ Cmd.other "glGenTextures(1, &textureID)",
    Cmd.bindTexture TexTarget.GL_TEXTURE_CUBE_MAP Texture.cubemapTexture ]
  ++ List.replicate 6 (Cmd.other "glTexImage2D(GL_TEXTURE_CUBE_MAP_POSITIVE_X + i, ...)")
  ++ List.replicate 5 (Cmd.other "glTexParameteri(GL_TEXTURE_CUBE_MAP, ...)")

/-- The function `loadTexture` (lines 738-773), the image loading. -/
def loadTexture : List (Cmd K) :=
  [ Cmd.other "glGenTextures(1, &textureID)",
    Cmd.bindTexture TexTarget.GL_TEXTURE_2D Texture.roadTex,
    Cmd.other "glTexImage2D(GL_TEXTURE_2D, ...)",
    Cmd.other "glGenerateMipmap(GL_TEXTURE_2D)" ]
  ++ List.replicate 4 (Cmd.other "glTexParameteri(GL_TEXTURE_2D, ...)")

/-- The creation of one depth cube-map and its framebuffer (lines 332-350 for
`depthMap1FBO`, 352-370 for `depthMap2FBO`). -/
def createDepthMap (fbo : Framebuffer) (cubemap : Texture) : List (Cmd K) :=
  [ Cmd.other "glGenFramebuffers(1, &depthMapFBO)",
    Cmd.other "glGenTextures(1, &depthCubemap)",
    Cmd.bindTexture TexTarget.GL_TEXTURE_CUBE_MAP cubemap ]
  ++ List.replicate 6 (Cmd.other "glTexImage2D(GL_TEXTURE_CUBE_MAP_POSITIVE_X + i, ...)")
  ++ List.replicate 5 (Cmd.other "glTexParameteri(GL_TEXTURE_CUBE_MAP, ...)")
  ++ [ Cmd.bindFramebuffer fbo,
       Cmd.framebufferTexture cubemap,
       Cmd.other "glDrawBuffer(GL_NONE)",
       Cmd.other "glReadBuffer(GL_NONE)",
       Cmd.bindFramebuffer Framebuffer.default ]

/-- The OpenGL calls of `main` before the render loop (lines 168-416).  The
model constructors (`learnopengl/model.h`) create and fill their own textures
and buffers and leave vertex array 0 bound. -/
def setup : List (Cmd K) :=
  [ Cmd.other "glEnable(GL_DEPTH_TEST)",
    Cmd.other "glEnable(GL_BLEND)",
    Cmd.other "glBlendFunc(GL_SRC_ALPHA, GL_ONE_MINUS_SRC_ALPHA)",
    Cmd.other "glEnable(GL_DEPTH_TEST)",
    Cmd.other "Model AE86",
    Cmd.other "Model lamps",
    Cmd.other "Model dumpster",
    Cmd.other "glEnable(GL_CULL_FACE)",
    Cmd.other "glCullFace(GL_BACK)",
    Cmd.other "glFrontFace(GL_CCW)",
    -- skyboxVAO
    Cmd.other "glGenVertexArrays(1, &skyboxVAO)",
    Cmd.other "glGenBuffers(1, &skyboxVBO)",
    Cmd.bindVertexArray VertexArray.skyboxVAO,
    Cmd.other "glBindBuffer(GL_ARRAY_BUFFER, skyboxVBO)",
    Cmd.other "glBufferData(GL_ARRAY_BUFFER, ...)",
    Cmd.other "glEnableVertexAttribArray(0)",
    Cmd.other "glVertexAttribPointer(0, ...)" ]
  ++ loadCubemap
  ++ createDepthMap Framebuffer.depthMap1FBO Texture.depthCubemap1
  ++ createDepthMap Framebuffer.depthMap2FBO Texture.depthCubemap2
  -- shader configuration
  ++ [ Cmd.use Shader.ourShader,
       Cmd.setInt Shader.ourShader "material.texture_diffuse1" 0,
       Cmd.setInt Shader.ourShader "depthMap1" 1,
       Cmd.setInt Shader.ourShader "depthMap2" 2,
       Cmd.use Shader.skyboxShader,
       Cmd.setInt Shader.skyboxShader "texture1" 0,
       Cmd.other "glGenBuffers(1, &VBO)",
       Cmd.other "glGenVertexArrays(1, &VAO)",
       Cmd.bindVertexArray VertexArray.VAO,
       Cmd.other "glBindBuffer(GL_ARRAY_BUFFER, VBO)",
       Cmd.other "glBufferData(GL_ARRAY_BUFFER, ...)",
       Cmd.other "glVertexAttribPointer(0, ...)",
       Cmd.other "glEnableVertexAttribArray(0)",
       Cmd.other "glVertexAttribPointer(1, ...)",
       Cmd.other "glEnableVertexAttribArray(1)",
       Cmd.other "glVertexAttribPointer(2, ...)",
       Cmd.other "glEnableVertexAttribArray(2)" ]
  ++ loadTexture

end Frame

/-! ## The OpenGL context as a state machine -/

/-- The part of the OpenGL context the frame's commands read and write: the
bound draw framebuffer, the program in use, the depth comparison function, the
viewport, the active texture unit, the cube-map texture bound on each unit, the
bound vertex array, the depth attachment of each framebuffer object, and the
uniform values of each program. -/
structure GLState (K : Type) where
  framebuffer : Framebuffer
  program : Option Shader
  depthFunc : DepthFunc
  viewport : Nat × Nat × Nat × Nat
  activeTexture : Nat
  textureCubeMap : Nat → Texture
  vertexArray : VertexArray
  depthAttachment : Framebuffer → Option Texture
  mat4 : Shader → String → Option (Mat4 K)
  vec3 : Shader → String → Option (Vec3 K)
  float : Shader → String → Option K
  int : Shader → String → Option Int

section Exec

variable {K : Type}

/-- Update of a uniform table at one program and name. -/
def setUniform {α : Type} (tbl : Shader → String → Option α) (sh : Shader) (name : String)
    (v : α) : Shader → String → Option α :=
  fun sh2 name2 => if sh2 = sh ∧ name2 = name then some v else tbl sh2 name2

/-- The effect of one command on the context.  `glUniform*` writes to the
program in use, so a `Shader` setter takes effect when that shader is in use,
as `Shader::use` precedes every setter in the program.  `Model::Draw`
(`learnopengl/model.h`) binds 2D textures only and leaves unit 0 active and
vertex array 0 bound; the material samplers it sets (`texture_diffuseN`,
`texture_specularN`, `texture_normalN`, `texture_heightN`) are not tracked.
`DrawImGui` restores the state it changes.  `glFramebufferTexture` attaches to
the bound framebuffer object and is an error on the default framebuffer. -/
def exec (σ : GLState K) : Cmd K → GLState K
  | Cmd.clearColor _ _ _ _ => σ
  | Cmd.clear _ _ => σ
  | Cmd.viewport x y w h => { σ with viewport := (x, y, w, h) }
  | Cmd.bindFramebuffer f => { σ with framebuffer := f }
  | Cmd.use sh => { σ with program := some sh }
  | Cmd.setMat4 sh name m =>
      if σ.program = some sh then { σ with mat4 := setUniform σ.mat4 sh name m } else σ
  | Cmd.setVec3 sh name v =>
      if σ.program = some sh then { σ with vec3 := setUniform σ.vec3 sh name v } else σ
  | Cmd.setFloat sh name x =>
      if σ.program = some sh then { σ with float := setUniform σ.float sh name x } else σ
  | Cmd.setInt sh name i =>
      if σ.program = some sh then { σ with int := setUniform σ.int sh name i } else σ
  | Cmd.setBool sh name b =>
      if σ.program = some sh then { σ with int := setUniform σ.int sh name (boolToInt b) } else σ
  | Cmd.activeTexture unit => { σ with activeTexture := unit }
  | Cmd.bindTexture TexTarget.GL_TEXTURE_2D _ => σ
  | Cmd.bindTexture TexTarget.GL_TEXTURE_CUBE_MAP t =>
      { σ with textureCubeMap := fun u => if u = σ.activeTexture then t else σ.textureCubeMap u }
  | Cmd.bindVertexArray v => { σ with vertexArray := v }
  | Cmd.drawArrays _ _ => σ
  | Cmd.drawModel _ _ => { σ with activeTexture := 0, vertexArray := VertexArray.zero }
  | Cmd.depthFunc f => { σ with depthFunc := f }
  | Cmd.drawImGui => σ
  | Cmd.swapBuffers => σ
  | Cmd.pollEvents => σ
  | Cmd.framebufferTexture t =>
      { σ with
        depthAttachment := fun f =>
          if f = σ.framebuffer ∧ f ≠ Framebuffer.default then some t else σ.depthAttachment f }
  | Cmd.other _ => σ

/-- The context after a list of commands. -/
def run (σ : GLState K) (cmds : List (Cmd K)) : GLState K := cmds.foldl exec σ

/-- Each command of a list paired with the context in which it is issued. -/
def trace (σ : GLState K) : List (Cmd K) → List (GLState K × Cmd K)
  | [] => []
  | c :: cs => (σ, c) :: trace (exec σ c) cs

/-- Holds of the commands that rasterise geometry: `glDrawArrays`, `Model::Draw`. -/
def Cmd.isDraw : Cmd K → Bool
  | Cmd.drawArrays _ _ => true
  | Cmd.drawModel _ _ => true
  | _ => false

/-- The passes of a frame, in the order of the frame state machine
`DepthPass(light0), DepthPass(light1), LightingPass, SkyboxPass, UIOverlay, Present`. -/
inductive Phase where
  | depthPass0
  | depthPass1
  | lightingPass
  | skyboxPass
  | uiOverlay
  | present
deriving DecidableEq, Repr

/-- The position of a pass in the frame state machine. -/
def Phase.rank : Phase → Nat
  | Phase.depthPass0 => 0
  | Phase.depthPass1 => 1
  | Phase.lightingPass => 2
  | Phase.skyboxPass => 3
  | Phase.uiOverlay => 4
  | Phase.present => 5

/-- The pass a rendering command belongs to, read from the context in which it
is issued: a draw into `depthMap1FBO` or `depthMap2FBO` is a depth write for
light 0 or light 1; a draw into the default framebuffer belongs to the lit pass
when `ourShader` is in use and to the skybox pass when `skyboxShader` is;
`DrawImGui` is the overlay and `glfwSwapBuffers` presents the frame. -/
def phaseOf (e : GLState K × Cmd K) : Option Phase :=
  match e.2 with
  | Cmd.drawImGui => some Phase.uiOverlay
  | Cmd.swapBuffers => some Phase.present
  | c =>
    if c.isDraw then
      match e.1.framebuffer, e.1.program with
      | Framebuffer.depthMap1FBO, _ => some Phase.depthPass0
      | Framebuffer.depthMap2FBO, _ => some Phase.depthPass1
      | Framebuffer.default, some Shader.ourShader => some Phase.lightingPass
      | Framebuffer.default, some Shader.skyboxShader => some Phase.skyboxPass
      | Framebuffer.default, _ => none
    else none

/-- The framebuffer a `glBindFramebuffer` command binds. -/
def Cmd.boundFramebuffer : Cmd K → Option Framebuffer
  | Cmd.bindFramebuffer f => some f
  | _ => none

/-- What a command does to the bound framebuffer's content: a clear of the
colour and/or depth buffer, or a draw with the program in use. -/
inductive TargetWrite where
  | clear (color depth : Bool)
  | draw (program : Option Shader)
deriving DecidableEq, Repr

/-- The framebuffer written and the kind of write, for clears and draws. -/
def targetWrite (e : GLState K × Cmd K) : Option (Framebuffer × TargetWrite) :=
  match e.2 with
  | Cmd.clear c d => some (e.1.framebuffer, TargetWrite.clear c d)
  | c => if c.isDraw then some (e.1.framebuffer, TargetWrite.draw e.1.program) else none

/-- The commands of a trace that are issued while the framebuffer `f` is bound. -/
def issuedInto (f : Framebuffer) (t : List (GLState K × Cmd K)) : List (Cmd K) :=
  t.filterMap fun e => if e.1.framebuffer = f then some e.2 else none

/-- The framebuffer bound after a list of commands, when `fb` is bound before. -/
def boundAfter (fb : Framebuffer) (cmds : List (Cmd K)) : Framebuffer :=
  cmds.foldl (fun b c => c.boundFramebuffer.getD b) fb

/-- The commands of a list that are issued while the framebuffer `f` is
bound, when `fb` is bound at the start of the list. -/
def issuedWhileBound (f : Framebuffer) : Framebuffer → List (Cmd K) → List (Cmd K)
  | _, [] => []
  | fb, c :: cs =>
      (if fb = f then [c] else []) ++ issuedWhileBound f (c.boundFramebuffer.getD fb) cs

/-- The depth-function switches and the rendering commands of a command list,
with the depth function in effect at each rendering command. -/
inductive DepthEvent where
  | switch (f : DepthFunc)
  | render (p : Option Phase) (f : DepthFunc)
deriving DecidableEq, Repr

/-- The depth event of a command, if it is a `glDepthFunc`, a draw or `DrawImGui`. -/
def depthEvent (e : GLState K × Cmd K) : Option DepthEvent :=
  match e.2 with
  | Cmd.depthFunc f => some (DepthEvent.switch f)
  | Cmd.drawImGui => some (DepthEvent.render (phaseOf e) e.1.depthFunc)
  | c => if c.isDraw then some (DepthEvent.render (phaseOf e) e.1.depthFunc) else none

/-- Holds of a depth event when it is a switch, or a rendering command whose
depth function is `GL_LEQUAL` in the skybox pass and `GL_LESS` in any other. -/
def DepthEvent.skyboxOnly : DepthEvent → Bool
  | DepthEvent.switch _ => true
  | DepthEvent.render p f =>
      decide ((f = DepthFunc.GL_LEQUAL ↔ p = some Phase.skyboxPass)
        ∧ (f = DepthFunc.GL_LESS ↔ p ≠ some Phase.skyboxPass))

/-- The framebuffer object the depth pass of light `i` renders into. -/
def depthMapFBO : Fin 2 → Framebuffer
  | 0 => Framebuffer.depthMap1FBO
  | 1 => Framebuffer.depthMap2FBO

/-- The context of a freshly created OpenGL context whose window framebuffer
has the size `w` by `h`: default framebuffer bound, no program in use, depth
function `GL_LESS`, viewport the whole window, unit 0 active, no texture or
vertex array bound, no attachment on the framebuffer objects, no uniform set. -/
def glInitial (K : Type) (w h : Nat) : GLState K :=
  { framebuffer := Framebuffer.default
    program := none
    depthFunc := DepthFunc.GL_LESS
    viewport := (0, 0, w, h)
    activeTexture := 0
    textureCubeMap := fun _ => Texture.zero
    vertexArray := VertexArray.zero
    depthAttachment := fun _ => none
    mat4 := fun _ _ => none
    vec3 := fun _ _ => none
    float := fun _ _ => none
    int := fun _ _ => none }

end Exec

section Loop

variable {K : Type} [LinearOrderedField K]

/-- The context when the render loop is entered: the initial context of the
`SCR_WIDTH` by `SCR_HEIGHT` window after the calls of `setup`. -/
def loopEntry (K : Type) [LinearOrderedField K] : GLState K :=
  run (glInitial K SCR_WIDTH SCR_HEIGHT) setup

end Loop

/-! ## Erasure of payloads

The components `framebuffer`, `program` and `depthFunc` of the context evolve
independently of the numeric payloads of the commands.  Erasing the payloads
turns a frame into a closed list of commands over `Unit`, on which the state
machine can be evaluated. -/

section Erase

variable {K : Type}

/-- The only vector over `Unit`. -/
def unitVec3 : Vec3 Unit := ⟨(), (), ()⟩

/-- The only matrix over `Unit`. -/
def unitMat4 : Mat4 Unit :=
  ⟨⟨(), (), (), ()⟩, ⟨(), (), (), ()⟩, ⟨(), (), (), ()⟩, ⟨(), (), (), ()⟩⟩

/-- A command with the uniform values and colours erased. -/
def Cmd.erase : Cmd K → Cmd Unit
  | Cmd.clearColor _ _ _ _ => Cmd.clearColor () () () ()
  | Cmd.clear c d => Cmd.clear c d
  | Cmd.viewport x y w h => Cmd.viewport x y w h
  | Cmd.bindFramebuffer f => Cmd.bindFramebuffer f
  | Cmd.use sh => Cmd.use sh
  | Cmd.setMat4 sh name _ => Cmd.setMat4 sh name unitMat4
  | Cmd.setVec3 sh name _ => Cmd.setVec3 sh name unitVec3
  | Cmd.setFloat sh name _ => Cmd.setFloat sh name ()
  | Cmd.setInt sh name _ => Cmd.setInt sh name 0
  | Cmd.setBool sh name _ => Cmd.setBool sh name false
  | Cmd.activeTexture unit => Cmd.activeTexture unit
  | Cmd.bindTexture target t => Cmd.bindTexture target t
  | Cmd.bindVertexArray v => Cmd.bindVertexArray v
  | Cmd.drawArrays first count => Cmd.drawArrays first count
  | Cmd.drawModel m sh => Cmd.drawModel m sh
  | Cmd.depthFunc f => Cmd.depthFunc f
  | Cmd.drawImGui => Cmd.drawImGui
  | Cmd.swapBuffers => Cmd.swapBuffers
  | Cmd.pollEvents => Cmd.pollEvents
  | Cmd.framebufferTexture t => Cmd.framebufferTexture t
  | Cmd.other call => Cmd.other call

/-- The context over `Unit` with the given framebuffer, program and depth
function, and initial values elsewhere. -/
def coreState (fb : Framebuffer) (prog : Option Shader) (df : DepthFunc) : GLState Unit :=
  { glInitial Unit 0 0 with framebuffer := fb, program := prog, depthFunc := df }

/-- Two contexts agree on framebuffer, program and depth function. -/
def CoreEq (σ : GLState K) (τ : GLState Unit) : Prop :=
  σ.framebuffer = τ.framebuffer ∧ σ.program = τ.program ∧ σ.depthFunc = τ.depthFunc

end Erase

/-! ## Rational sample data

Closed inputs over `ℚ` on which the embedding is evaluated. -/

/-- Math functions over `ℚ`: `sqrt` is `Rat.sqrt`, exact on squares; `cos` and
`sin` are the rational parametrisation of the unit circle with half-angle
tangent `θ / 2`, `tan` their quotient, and `pi` is `22 / 7`. -/
def ratOps : FloatOps ℚ :=
  { sqrt := Rat.sqrt
    tan := fun θ => (2 * (θ / 2)) / (1 - (θ / 2) ^ 2)
    sin := fun θ => (2 * (θ / 2)) / (1 + (θ / 2) ^ 2)
    cos := fun θ => (1 - (θ / 2) ^ 2) / (1 + (θ / 2) ^ 2)
    pi := 22 / 7 }

/-- The direction light `main` assigns at lines 183-186. -/
def mainDirectionLight : DirectionLight ℚ :=
  { direction := ⟨0.0, -1.0, 1.0⟩
    ambient := ⟨0.1, 0.1, 0.1⟩
    diffuse := ⟨0.3, 0.3, 0.12⟩
    specular := ⟨0.1, 0.1, 0.1⟩ }

/-- The program state `main` starts from when no settings file exists. -/
def defaultState : ProgramState ℚ := ProgramState.init mainDirectionLight

/-- The erased commands of a frame; they depend on `ImGuiEnabled` only. -/
def frameSkeleton (ui : Bool) : List (Cmd Unit) :=
  (renderFrame ratOps { defaultState with ImGuiEnabled := ui } false).map Cmd.erase


/-! ## The settings file (`ProgramState::SaveToFile`, `ProgramState::LoadFromFile`)

A file is the list of its characters.  The formatted input functions follow
the C++ standard library in the "C" locale (`std::num_get`, stages 2 and 3, as
libstdc++ implements them): leading white space is skipped; at end of file the
extraction fails and the target is left unchanged; otherwise the longest
numeric field is accumulated and converted, a field that does not convert
stores zero and sets the fail bit, and a set fail bit turns every later
extraction into a no-op. -/

/-- The function `std::isspace` in the "C" locale. -/
def isSpace (c : Char) : Bool :=
  c = ' ' || c = '\t' || c = '\n' || c = '\x0b' || c = '\x0c' || c = '\r'

/-- An input stream: the characters not read yet, and the fail bit. -/
structure IStream where
  buf : List Char
  fail : Bool
deriving DecidableEq, Repr

/-- The value of a decimal digit character. -/
def digitValue (c : Char) : Nat := c.toNat - 48

/-- The number a list of digit characters denotes, most significant first. -/
def digitsValue (ds : List Char) : Nat :=
  ds.foldl (fun acc c => 10 * acc + digitValue c) 0

/-- The accumulation loop of `num_get::_M_extract_float` ("C" locale) after
the sign and the leading zeros: digits are taken; one decimal point is taken
before any exponent; one `e` or `E` is taken (as `e`) once a mantissa digit
has been seen, and a sign is taken directly after it (`afterE`); any other
character ends the field.  The result is the field and the unread rest. -/
def scanFloatLoop (foundMantissa foundDec foundSci afterE : Bool) :
    List Char → List Char × List Char
  | [] => ([], [])
  | c :: cs =>
    if afterE && (c = '+' || c = '-') then
      let r := scanFloatLoop foundMantissa foundDec foundSci false cs
      (c :: r.1, r.2)
    else if c.isDigit then
      let r := scanFloatLoop true foundDec foundSci false cs
      (c :: r.1, r.2)
    else if c = '.' && !foundDec && !foundSci then
      let r := scanFloatLoop foundMantissa true foundSci false cs
      ('.' :: r.1, r.2)
    else if (c = 'e' || c = 'E') && !foundSci && foundMantissa then
      let r := scanFloatLoop foundMantissa foundDec true true cs
      ('e' :: r.1, r.2)
    else ([], c :: cs)

/-- An optional sign at the head of a buffer: the sign taken and the rest. -/
def takeSign : List Char → List Char × List Char
  | [] => ([], [])
  | c :: cs => if c = '+' ∨ c = '-' then ([c], cs) else ([], c :: cs)

/-- An optional decimal point and the digits after it: the digits and the rest. -/
def takeFraction : List Char → List Char × List Char
  | [] => ([], [])
  | c :: cs =>
    if c = '.' then (cs.takeWhile Char.isDigit, cs.dropWhile Char.isDigit) else ([], c :: cs)

/-- Stage 2 of the extraction of a `float`, `num_get::_M_extract_float`: an
optional sign, the leading zeros (kept as a single `0`), then the loop above. -/
def scanFloat (buf : List Char) : List Char × List Char :=
  let sign := takeSign buf
  let zeros := sign.2.takeWhile (· = '0')
  let afterZeros := sign.2.dropWhile (· = '0')
  let r := scanFloatLoop (!zeros.isEmpty) false false false afterZeros
  (sign.1 ++ (if zeros.isEmpty then [] else ['0']) ++ r.1, r.2)

/-- The exponent of a decimal literal after its `e`: `none` when no digits
follow the optional sign or something follows the digits. -/
def exponentValue (cs : List Char) : Option ℤ :=
  let es := takeSign cs
  if es.2.isEmpty || !es.2.all Char.isDigit then none
  else some (if es.1 = ['-'] then -(digitsValue es.2 : ℤ) else (digitsValue es.2 : ℤ))

/-- The function `strtof` on an accumulated field, before rounding: the exact
value of the decimal literal `[sign] digits [. digits] [e [sign] digits]` when
the whole field is such a literal with at least one mantissa digit, and `none`
when `strtof` would stop before the end of the field. -/
def decimalValue (field : List Char) : Option ℚ :=
  let sign := takeSign field
  let intPart := sign.2.takeWhile Char.isDigit
  let fr := takeFraction (sign.2.dropWhile Char.isDigit)
  if intPart.isEmpty && fr.1.isEmpty then none
  else
    let mantissa : ℚ := (digitsValue (intPart ++ fr.1) : ℚ) / 10 ^ fr.1.length
    let signed : ℚ := if sign.1 = ['-'] then -mantissa else mantissa
    match fr.2 with
    | [] => some signed
    | c :: cs =>
      if c = 'e' then (exponentValue cs).map fun e => signed * 10 ^ e
      else none

/-- The text conversions of `float` in the iostream library: `put` is the
text `operator<<` writes, and `round` is the rounding `strtof` applies to the
exact value of a decimal literal, with the flag `false` when the value is out
of range (the stored value is then the largest finite one, signed). -/
structure FloatText (K : Type) where
  put : K → List Char
  round : ℚ → K × Bool

section Settings

variable {K : Type} [LinearOrderedField K]

/-- The extraction `in >> x` for a `float`: a no-op on a failed stream; fails
and leaves `x` at end of file; otherwise the field is taken from the stream and
converted, and a field that is no literal stores `0` and sets the fail bit. -/
def extractFloat (io : FloatText K) (s : IStream) (old : K) : IStream × K :=
  if s.fail then (s, old)
  else
    match s.buf.dropWhile isSpace with
    | [] => (⟨[], true⟩, old)
    | buf =>
      let r := scanFloat buf
      match decimalValue r.1 with
      | none => (⟨r.2, true⟩, 0)
      | some q => (⟨r.2, !(io.round q).2⟩, (io.round q).1)

/-- The extraction `in >> b` for a `bool` (without `boolalpha`): the field is
read as a `long` (optional sign, decimal digits); `0` stores `false` and `1`
stores `true`; a field without digits stores `false` and sets the fail bit;
any other number stores `true` and sets the fail bit. -/
def extractBool (s : IStream) (old : Bool) : IStream × Bool :=
  if s.fail then (s, old)
  else
    match s.buf.dropWhile isSpace with
    | [] => (⟨[], true⟩, old)
    | buf =>
      let sign := takeSign buf
      let ds := sign.2.takeWhile Char.isDigit
      let rest := sign.2.dropWhile Char.isDigit
      if ds.isEmpty then (⟨rest, true⟩, false)
      else if digitsValue ds = 0 then (⟨rest, false⟩, false)
      else if digitsValue ds = 1 && sign.1 != ['-'] then (⟨rest, false⟩, true)
      else (⟨rest, true⟩, true)

/-- The insertion `out << b` for a `bool` (without `boolalpha`). -/
def putBool (b : Bool) : List Char := if b then ['1'] else ['0']

/-- The method `ProgramState::SaveToFile` (lines 77-89): the content of the
file it writes. -/
def SaveToFile (io : FloatText K) (s : ProgramState K) : List Char :=
  putBool s.ImGuiEnabled ++ ['\n']
  ++ io.put s.camera.Position.x ++ ['\n']
  ++ io.put s.camera.Position.y ++ ['\n']
  ++ io.put s.camera.Position.z ++ ['\n']
  ++ io.put s.camera.Front.x ++ ['\n']
  ++ io.put s.camera.Front.y ++ ['\n']
  ++ io.put s.camera.Front.z ++ ['\n']
  ++ io.put s.ae86pos.x ++ ['\n']
  ++ io.put s.ae86pos.z ++ ['\n']

/-- The method `ProgramState::LoadFromFile` (lines 91-104).  The argument
`file` is the content of the named file, `none` when it cannot be opened. -/
def LoadFromFile (io : FloatText K) (file : Option (List Char)) (s : ProgramState K) :
    ProgramState K :=
  match file with
  | none => s
  | some text =>
    let in0 : IStream := ⟨text, false⟩
    let r1 := extractBool in0 s.ImGuiEnabled
    let r2 := extractFloat io r1.1 s.camera.Position.x
    let r3 := extractFloat io r2.1 s.camera.Position.y
    let r4 := extractFloat io r3.1 s.camera.Position.z
    let r5 := extractFloat io r4.1 s.camera.Front.x
    let r6 := extractFloat io r5.1 s.camera.Front.y
    let r7 := extractFloat io r6.1 s.camera.Front.z
    let r8 := extractFloat io r7.1 s.ae86pos.x
    let r9 := extractFloat io r8.1 s.ae86pos.z
    { s with
      ImGuiEnabled := r1.2
      camera := { s.camera with Position := ⟨r2.2, r3.2, r4.2⟩, Front := ⟨r5.2, r6.2, r7.2⟩ }
      ae86pos := ⟨r8.2, s.ae86pos.y, r9.2⟩ }

/-- The eight `float` members the settings file holds, in file order. -/
def persistedFloats (s : ProgramState K) : List K :=
  [ s.camera.Position.x, s.camera.Position.y, s.camera.Position.z,
    s.camera.Front.x, s.camera.Front.y, s.camera.Front.z,
    s.ae86pos.x, s.ae86pos.z ]

/-- A chain of extractions `in >> x1 >> x2 >> ...` into `float` variables with
the old values `olds`: the stream left and the new values. -/
def extractFloats (io : FloatText K) : IStream → List K → IStream × List K
  | s, [] => (s, [])
  | s, x :: xs =>
    let r := extractFloat io s x
    let rs := extractFloats io r.1 xs
    (rs.1, r.2 :: rs.2)

end Settings

/-! ### The conversions of `float` over `ℚ`

A finite `float` is a rational number.  `operator<<` prints it like `printf`
with `%g` and precision 6; `strtof` rounds a decimal literal to the nearest
`float`, ties to even. -/

/-- Rounding to the nearest integer, ties to even. -/
def roundHalfEven (q : ℚ) : ℤ :=
  let f := ⌊q⌋
  if q - f < 1 / 2 then f
  else if 1 / 2 < q - f then f + 1
  else if f % 2 = 0 then f else f + 1

/-- The decimal exponent `X` and the six-digit mantissa `m` with which `%g`
prints `a > 0`: `a` rounded to six significant digits is `m * 10 ^ (X - 5)`,
with `10 ^ 5 ≤ m < 10 ^ 6`. -/
def sixDigits (a : ℚ) : ℕ × ℤ :=
  let e := Int.log 10 a
  let m := (roundHalfEven (a / 10 ^ (e - 5))).toNat
  if m = 10 ^ 6 then (10 ^ 5, e + 1) else (m, e)

/-- The `w` decimal digits of `m`, most significant first. -/
def fixedDigits (w m : Nat) : List Char :=
  (List.range w).reverse.map fun i => Nat.digitChar (m / 10 ^ i % 10)

/-- The decimal digits of `n` in front of `acc`, by at most `fuel` divisions. -/
def decimalDigitsAux : Nat → Nat → List Char → List Char
  | 0, _, acc => acc
  | fuel + 1, n, acc =>
    if n < 10 then Nat.digitChar n :: acc
    else decimalDigitsAux fuel (n / 10) (Nat.digitChar (n % 10) :: acc)

/-- The decimal digits of `n`, most significant first (`0` gives `"0"`). -/
def decimalDigits (n : Nat) : List Char := decimalDigitsAux (n + 1) n []

/-- A digit string without its trailing zeros. -/
def stripTrailingZeros (ds : List Char) : List Char :=
  (ds.reverse.dropWhile (· = '0')).reverse

/-- A decimal numeral as `printf` lays it out: sign, integer digits, fraction
digits (no point is printed when there are none), and an optional exponent
with its sign and digits. -/
structure Numeral where
  neg : Bool
  int : List Char
  frac : List Char
  exp : Option (Bool × List Char)
deriving DecidableEq, Repr

/-- The fraction of a numeral as text: nothing when there are no digits,
otherwise the decimal point and the digits. -/
def fractionText (frac : List Char) : List Char :=
  if frac.isEmpty then [] else '.' :: frac

/-- The exponent of a numeral as text: `e`, the sign, the digits. -/
def exponentText : Option (Bool × List Char) → List Char
  | none => []
  | some (eneg, ds) => 'e' :: (if eneg then '-' else '+') :: ds

/-- The text of a numeral. -/
def Numeral.render (n : Numeral) : List Char :=
  (if n.neg then ['-'] else []) ++ n.int ++ fractionText n.frac ++ exponentText n.exp

/-- The value of a numeral. -/
def Numeral.value (n : Numeral) : ℚ :=
  let mantissa : ℚ := (digitsValue (n.int ++ n.frac) : ℚ) / 10 ^ n.frac.length
  let signed : ℚ := if n.neg then -mantissa else mantissa
  match n.exp with
  | none => signed
  | some (eneg, ds) =>
    signed * 10 ^ (if eneg then -(digitsValue ds : ℤ) else (digitsValue ds : ℤ))

/-- A numeral as `printf` produces them: digits only, a non-empty integer part
that is `0` or starts with a non-zero digit, and a non-empty exponent if any. -/
def Numeral.WellFormed (n : Numeral) : Prop :=
  (∀ c ∈ n.int, c.isDigit = true) ∧ n.int ≠ []
  ∧ (n.int.head? ≠ some '0' ∨ n.int = ['0'])
  ∧ (∀ c ∈ n.frac, c.isDigit = true)
  ∧ (∀ eneg ds, n.exp = some (eneg, ds) → (∀ c ∈ ds, c.isDigit = true) ∧ ds ≠ [])

/-- The numeral `printf("%g", x)` prints with precision 6 for `x ≠ 0`: with the
decimal exponent `X` and the six digits of `sixDigits |x|`, scientific style
`d.ddddde±XX` when `X < -4` or `X ≥ 6` and fixed style otherwise, trailing
zeros of the fraction removed. -/
def numeralG (x : ℚ) : Numeral :=
  let me := sixDigits |x|
  let ds := fixedDigits 6 me.1
  if me.2 < -4 ∨ 6 ≤ me.2 then
    { neg := decide (x < 0)
      int := ds.take 1
      frac := stripTrailingZeros (ds.drop 1)
      exp := some (decide (me.2 < 0),
        if me.2.natAbs < 10 then '0' :: decimalDigits me.2.natAbs
        else decimalDigits me.2.natAbs) }
  else if me.2 < 0 then
    { neg := decide (x < 0)
      int := ['0']
      frac := List.replicate (-me.2 - 1).toNat '0' ++ stripTrailingZeros ds
      exp := none }
  else
    { neg := decide (x < 0)
      int := ds.take (me.2.toNat + 1)
      frac := stripTrailingZeros (ds.drop (me.2.toNat + 1))
      exp := none }

/-- The numeral `printf("%g", x)` prints with precision 6: `0` for zero. -/
def numeralOf (x : ℚ) : Numeral :=
  if x = 0 then { neg := false, int := ['0'], frac := [], exp := none } else numeralG x

/-- The text of `printf("%g", x)` with precision 6, which is what
`operator<<` writes for a `float` under the default stream flags. -/
def formatG (x : ℚ) : List Char := (numeralOf x).render

/-- The largest finite `float`, `FLT_MAX`. -/
def FLT_MAX : ℚ := (2 ^ 24 - 1) * 2 ^ 104

/-- The rounding of `strtof`: the nearest `float`, ties to even, on the grid
of spacing `2 ^ (e - 23)` for `2 ^ e ≤ |q| < 2 ^ (e + 1)` and `2 ^ (-149)`
below `2 ^ (-126)`; a result beyond `FLT_MAX` is out of range. -/
def roundFloat (q : ℚ) : ℚ × Bool :=
  if q = 0 then (0, true)
  else
    let e := max (Int.log 2 |q|) (-126)
    let ulp : ℚ := 2 ^ (e - 23)
    let r : ℚ := roundHalfEven (q / ulp) * ulp
    if FLT_MAX < |r| then (if q < 0 then -FLT_MAX else FLT_MAX, false) else (r, true)

/-- The conversions of `float`. -/
def floatText : FloatText ℚ :=
  { put := formatG
    round := roundFloat }

/-- The value `x` rounded to six significant decimal digits, which is the
value of the text `formatG x`. -/
def sixValue (x : ℚ) : ℚ :=
  if x = 0 then 0
  else (if x < 0 then -1 else 1) * ((sixDigits |x|).1 : ℚ) * 10 ^ ((sixDigits |x|).2 - 5)

/-- The `float` read back from the text written for `x`. -/
def readBack (x : ℚ) : ℚ := (roundFloat (sixValue x)).1

/-! ## Input callbacks (`key_callback`, lines 723-737) -/

/-- The key code `GLFW_KEY_F1` (`GLFW/glfw3.h`). -/
def GLFW_KEY_F1 : Int := 290

/-- The key code `GLFW_KEY_Y` (`GLFW/glfw3.h`). -/
def GLFW_KEY_Y : Int := 89

/-- The action `GLFW_RELEASE` (`GLFW/glfw3.h`): the key was released. -/
def GLFW_RELEASE : Int := 0

/-- The action `GLFW_PRESS` (`GLFW/glfw3.h`): the key was pressed. -/
def GLFW_PRESS : Int := 1

/-- The action `GLFW_REPEAT` (`GLFW/glfw3.h`): the key is held down. -/
def GLFW_REPEAT : Int := 2

/-- The cursor modes `key_callback` selects with `glfwSetInputMode`. -/
inductive CursorMode where
  | GLFW_CURSOR_NORMAL
  | GLFW_CURSOR_DISABLED
deriving DecidableEq, Repr

/-- The globals `key_callback` reads and writes: `*programState`, `spotSwitch`,
and the cursor mode of the window. -/
structure InputState (K : Type) where
  ps : ProgramState K
  spotSwitch : Bool
  cursor : CursorMode

/-- The callback `key_callback(window, key, scancode, action, mods)`
(lines 723-737). -/
def key_callback {K : Type} (s : InputState K) (key scancode action mods : Int) :
    InputState K :=
  let s1 : InputState K :=
    if key = GLFW_KEY_F1 ∧ action = GLFW_PRESS then
      let ui := !s.ps.ImGuiEnabled
      if ui then
        { s with
          ps := { s.ps with ImGuiEnabled := ui, CameraMouseMovementUpdateEnabled := false }
          cursor := CursorMode.GLFW_CURSOR_NORMAL }
      else
        { s with
          ps := { s.ps with ImGuiEnabled := ui, CameraMouseMovementUpdateEnabled := true }
          cursor := CursorMode.GLFW_CURSOR_DISABLED }
    else s
  if key = GLFW_KEY_Y ∧ action = GLFW_PRESS then { s1 with spotSwitch := !s1.spotSwitch }
  else s1

/-! ## Start-up and shutdown of `main` -/

/-- What `main` acquires before the render loop. -/
inductive Resource where
  | glfw
  | window
  | programState
  | imguiContext
  | imguiGlfw
  | imguiOpenGL3
  | ourShader
  | skyboxShader
  | depthShader
  | AE86
  | lamps
  | dumpster
  | skyboxVAO
  | skyboxVBO
  | cubemapTexture
  | depthMap1FBO
  | depthCubemap1
  | depthMap2FBO
  | depthCubemap2
  | VBO
  | VAO
  | roadTex
deriving DecidableEq, Repr

/-- The statements of `main` that acquire or release a resource, read or write
the settings file, or are the render loop. -/
inductive Stmt where
  /-- A call that creates the resource. -/
  | acquire (r : Resource)
  /-- A call that releases the resource. -/
  | release (r : Resource)
  /-- The call `programState->LoadFromFile(...)`. -/
  | LoadFromFile
  /-- The call `programState->SaveToFile(...)`. -/
  | SaveToFile
  /-- The loop `while (!glfwWindowShouldClose(window))`. -/
  | renderLoop
  /-- The call `glfwTerminate()`: destroys the window with its OpenGL context
  and shuts the library down. -/
  | glfwTerminate
deriving DecidableEq, Repr

/-- The statements of `main` up to the render loop (lines 115-416), on the path
on which the window and the function pointers are obtained. -/
def startup : List Stmt :=
  [ Stmt.acquire Resource.glfw,            -- 115 glfwInit
    Stmt.acquire Resource.window,          -- 126 glfwCreateWindow
    Stmt.acquire Resource.programState,    -- 150 new ProgramState
    Stmt.LoadFromFile,                     -- 151
    Stmt.acquire Resource.imguiContext,    -- 157 ImGui::CreateContext
    Stmt.acquire Resource.imguiGlfw,       -- 163 ImGui_ImplGlfw_InitForOpenGL
    Stmt.acquire Resource.imguiOpenGL3,    -- 164 ImGui_ImplOpenGL3_Init
    Stmt.acquire Resource.ourShader,       -- 173
    Stmt.acquire Resource.skyboxShader,    -- 174
    Stmt.acquire Resource.depthShader,     -- 175
    Stmt.acquire Resource.AE86,            -- 194
    Stmt.acquire Resource.lamps,           -- 198
    Stmt.acquire Resource.dumpster,        -- 202
    Stmt.acquire Resource.skyboxVAO,       -- 259 glGenVertexArrays
    Stmt.acquire Resource.skyboxVBO,       -- 260 glGenBuffers
    Stmt.acquire Resource.cubemapTexture,  -- 326 loadCubemap
    Stmt.acquire Resource.depthMap1FBO,    -- 333 glGenFramebuffers
    Stmt.acquire Resource.depthCubemap1,   -- 336 glGenTextures
    Stmt.acquire Resource.depthMap2FBO,    -- 353 glGenFramebuffers
    Stmt.acquire Resource.depthCubemap2,   -- 356 glGenTextures
    Stmt.acquire Resource.VBO,             -- 398 glGenBuffers
    Stmt.acquire Resource.VAO,             -- 399 glGenVertexArrays
    Stmt.acquire Resource.roadTex ]        -- 416 loadTexture

/-- The statements of `main` after the render loop (lines 584-591). -/
def shutdown : List Stmt :=
  [ Stmt.SaveToFile,                       -- 584
    Stmt.release Resource.programState,    -- 585 delete programState
    Stmt.release Resource.imguiOpenGL3,    -- 586 ImGui_ImplOpenGL3_Shutdown
    Stmt.release Resource.imguiGlfw,       -- 587 ImGui_ImplGlfw_Shutdown
    Stmt.release Resource.imguiContext,    -- 588 ImGui::DestroyContext
    Stmt.glfwTerminate ]                   -- 591

/-- The statements of `main` on the path through the render loop. -/
def mainPath : List Stmt := startup ++ [Stmt.renderLoop] ++ shutdown

/-- The resources a list of statements acquires, in order. -/
def acquired (stmts : List Stmt) : List Resource :=
  stmts.filterMap fun s => match s with
    | Stmt.acquire r => some r
    | _ => none

/-- The resources a list of statements releases by a call of their own, in
order. -/
def released (stmts : List Stmt) : List Resource :=
  stmts.filterMap fun s => match s with
    | Stmt.release r => some r
    | _ => none

/-- The objects of the two shadow cube-maps and the geometry buffers. -/
def gpuObjects : List Resource :=
  [ Resource.depthMap1FBO, Resource.depthCubemap1, Resource.depthMap2FBO,
    Resource.depthCubemap2, Resource.skyboxVAO, Resource.skyboxVBO, Resource.VAO,
    Resource.VBO ]

/-! ## Model matrices -/

/-- The model matrix in effect at a draw of the model `m`: the uniform `model`
of the shader the model is drawn with. -/
def modelMatrixAt {K : Type} (m : Model) (e : GLState K × Cmd K) : Option (Mat4 K) :=
  match e.2 with
  | Cmd.drawModel m2 sh => if m2 = m then e.1.mat4 sh "model" else none
  | _ => none

/-! ## The components of the context that carry no number

The framebuffer, program, vertex array and texture bindings, the integer
uniforms and the framebuffer attachments evolve independently of the `float`
payloads of the commands.  `Cmd.shape` erases those payloads and keeps the
integer and Boolean arguments; `GLState.shape` reads the components the frame
depends on. -/

section ShapeDefs

variable {K : Type}

/-- A command with the `float` payloads erased. -/
def Cmd.shape : Cmd K → Cmd Unit
  | Cmd.clearColor _ _ _ _ => Cmd.clearColor () () () ()
  | Cmd.clear c d => Cmd.clear c d
  | Cmd.viewport x y w h => Cmd.viewport x y w h
  | Cmd.bindFramebuffer f => Cmd.bindFramebuffer f
  | Cmd.use sh => Cmd.use sh
  | Cmd.setMat4 sh name _ => Cmd.setMat4 sh name unitMat4
  | Cmd.setVec3 sh name _ => Cmd.setVec3 sh name unitVec3
  | Cmd.setFloat sh name _ => Cmd.setFloat sh name ()
  | Cmd.setInt sh name i => Cmd.setInt sh name i
  | Cmd.setBool sh name b => Cmd.setBool sh name b
  | Cmd.activeTexture unit => Cmd.activeTexture unit
  | Cmd.bindTexture target t => Cmd.bindTexture target t
  | Cmd.bindVertexArray v => Cmd.bindVertexArray v
  | Cmd.drawArrays first count => Cmd.drawArrays first count
  | Cmd.drawModel m sh => Cmd.drawModel m sh
  | Cmd.depthFunc f => Cmd.depthFunc f
  | Cmd.drawImGui => Cmd.drawImGui
  | Cmd.swapBuffers => Cmd.swapBuffers
  | Cmd.pollEvents => Cmd.pollEvents
  | Cmd.framebufferTexture t => Cmd.framebufferTexture t
  | Cmd.other call => Cmd.other call

/-- The components of the context read at the draws of a frame: the bound
framebuffer, the program in use, the bound vertex array, the active texture
unit, the cube maps bound on units 1 and 2, the values of the uniforms
`depthMap1`, `depthMap2` and `shadows` of `ourShader`, and the depth attachments
of the two framebuffer objects. -/
structure Shape where
  framebuffer : Framebuffer
  program : Option Shader
  vertexArray : VertexArray
  activeTexture : Nat
  cubeMap1 : Texture
  cubeMap2 : Texture
  depthMap1 : Option Int
  depthMap2 : Option Int
  shadows : Option Int
  attachment1 : Option Texture
  attachment2 : Option Texture
deriving DecidableEq, Repr

/-- The shape of a context. -/
def GLState.shape (σ : GLState K) : Shape :=
  { framebuffer := σ.framebuffer
    program := σ.program
    vertexArray := σ.vertexArray
    activeTexture := σ.activeTexture
    cubeMap1 := σ.textureCubeMap 1
    cubeMap2 := σ.textureCubeMap 2
    depthMap1 := σ.int Shader.ourShader "depthMap1"
    depthMap2 := σ.int Shader.ourShader "depthMap2"
    shadows := σ.int Shader.ourShader "shadows"
    attachment1 := σ.depthAttachment Framebuffer.depthMap1FBO
    attachment2 := σ.depthAttachment Framebuffer.depthMap2FBO }

/-- A context over `Unit` with the given shape. -/
def Shape.toState (s : Shape) : GLState Unit :=
  { framebuffer := s.framebuffer
    program := s.program
    depthFunc := DepthFunc.GL_LESS
    viewport := (0, 0, 0, 0)
    activeTexture := s.activeTexture
    textureCubeMap := fun u => if u = 1 then s.cubeMap1 else if u = 2 then s.cubeMap2
      else Texture.zero
    vertexArray := s.vertexArray
    depthAttachment := fun f =>
      match f with
      | Framebuffer.default => none
      | Framebuffer.depthMap1FBO => s.attachment1
      | Framebuffer.depthMap2FBO => s.attachment2
    mat4 := fun _ _ => none
    vec3 := fun _ _ => none
    float := fun _ _ => none
    int := fun sh name =>
      if sh = Shader.ourShader then
        if name = "depthMap1" then s.depthMap1
        else if name = "depthMap2" then s.depthMap2
        else if name = "shadows" then s.shadows
        else none
      else none }

end ShapeDefs

/-- The commands of a frame with the `float` payloads erased; they depend on
`ImGuiEnabled`, `shadows` and `spotSwitch` only. -/
def frameShapes (ui shadows spotSwitch : Bool) : List (Cmd Unit) :=
  (renderFrame ratOps { defaultState with ImGuiEnabled := ui, shadows := shadows }
    spotSwitch).map Cmd.shape

/-- The commands of `setup` with the `float` payloads erased. -/
def setupShapes : List (Cmd Unit) := (setup (K := ℚ)).map Cmd.shape

/-- The shape of the context when the render loop is entered. -/
def entryShape : Shape :=
  { framebuffer := Framebuffer.default
    program := some Shader.skyboxShader
    vertexArray := VertexArray.VAO
    activeTexture := 0
    cubeMap1 := Texture.zero
    cubeMap2 := Texture.zero
    depthMap1 := some 1
    depthMap2 := some 2
    shadows := none
    attachment1 := some Texture.depthCubemap1
    attachment2 := some Texture.depthCubemap2 }

/-- The shape of the context after a frame rendered with the flag `shadows`. -/
def frameEndShape (shadows : Bool) : Shape :=
  { framebuffer := Framebuffer.default
    program := some Shader.skyboxShader
    vertexArray := VertexArray.zero
    activeTexture := 0
    cubeMap1 := Texture.depthCubemap1
    cubeMap2 := Texture.depthCubemap2
    depthMap1 := some 1
    depthMap2 := some 2
    shadows := some (boolToInt shadows)
    attachment1 := some Texture.depthCubemap1
    attachment2 := some Texture.depthCubemap2 }

/-- Holds of a context whose shape is the one at loop entry or the one a frame
leaves. -/
def AtFrameStart {K : Type} (σ : GLState K) : Prop :=
  σ.shape = entryShape ∨ σ.shape = frameEndShape false ∨ σ.shape = frameEndShape true

/-- What a draw call draws: a model, or `count` vertices from `first` of the
bound vertex array.  `VAO` holds `roadVertices` (the ground quad, lines
389-411) and `skyboxVAO` holds `skyboxVertices` (lines 212-265). -/
inductive Drawn where
  | model (m : Model)
  | array (v : VertexArray) (first count : Nat)
deriving DecidableEq, Repr

section Observations

variable {K : Type}

/-- The framebuffer a draw call renders into and what it draws. -/
def drawn (e : GLState K × Cmd K) : Option (Framebuffer × Option Shader × Drawn) :=
  match e.2 with
  | Cmd.drawModel m _ => some (e.1.framebuffer, e.1.program, Drawn.model m)
  | Cmd.drawArrays first count =>
      some (e.1.framebuffer, e.1.program, Drawn.array e.1.vertexArray first count)
  | _ => none

/-- The pass of a draw call and the shape of the context in which it is issued. -/
def drawShape (e : GLState K × Cmd K) : Option (Option Phase × Shape) :=
  if e.2.isDraw then some (phaseOf e, e.1.shape) else none

/-- The texture unit, target and texture of a `glBindTexture` call. -/
def textureBind (e : GLState K × Cmd K) : Option (Nat × TexTarget × Texture) :=
  match e.2 with
  | Cmd.bindTexture target t => some (e.1.activeTexture, target, t)
  | _ => none

/-- The pass of a draw call and the viewport in effect. -/
def viewportAt (e : GLState K × Cmd K) : Option (Option Phase × Nat × Nat × Nat × Nat) :=
  if e.2.isDraw then some (phaseOf e, e.1.viewport) else none

/-- The viewport a `glViewport` call sets. -/
def Cmd.newViewport : Cmd K → Option (Nat × Nat × Nat × Nat)
  | Cmd.viewport x y w h => some (x, y, w, h)
  | _ => none

end Observations

/-- Holds of a draw in the depth pass of light `i` when the bound framebuffer is
that light's and its depth attachment is that light's cube map, and of a draw in
the lit pass when the samplers `depthMap1`, `depthMap2` hold the units 1 and 2,
the cube maps bound on these units are `depthCubemap1` and `depthCubemap2`, and
the uniform `shadows` holds the flag. -/
def drawBindingsOk (shadows : Bool) (x : Option Phase × Shape) : Bool :=
  match x.1 with
  | some Phase.depthPass0 =>
      decide (x.2.framebuffer = Framebuffer.depthMap1FBO
        ∧ x.2.attachment1 = some Texture.depthCubemap1)
  | some Phase.depthPass1 =>
      decide (x.2.framebuffer = Framebuffer.depthMap2FBO
        ∧ x.2.attachment2 = some Texture.depthCubemap2)
  | some Phase.lightingPass =>
      decide (x.2.depthMap1 = some 1 ∧ x.2.depthMap2 = some 2
        ∧ x.2.cubeMap1 = Texture.depthCubemap1 ∧ x.2.cubeMap2 = Texture.depthCubemap2
        ∧ x.2.attachment1 = some Texture.depthCubemap1
        ∧ x.2.attachment2 = some Texture.depthCubemap2
        ∧ x.2.shadows = some (boolToInt shadows))
  | _ => true

/-- The context over `Unit` with the given framebuffer, program, depth function
and viewport, and initial values elsewhere. -/
def viewState (fb : Framebuffer) (prog : Option Shader) (df : DepthFunc)
    (v : Nat × Nat × Nat × Nat) : GLState Unit :=
  { glInitial Unit 0 0 with framebuffer := fb, program := prog, depthFunc := df, viewport := v }

/-! ## The lit stage

The fragment shader of `ourShader` (`resources/shaders/2.model_lighting.fs`) is
not among the sources. -/

section LitStage

variable {K : Type} [LinearOrderedField K]

/-- Modelled from the spec: the shadow-occlusion test of the lit stage, whose
shader `resources/shaders/2.model_lighting.fs` is missing.  "Occlusion test per
fragment = (distance from fragment to light) > (sampled cube-map value ×
far_plane) + bias"; "if `shadowsEnabled` is false, the lit stage must skip the
shadow-occlusion test entirely and treat all fragments as unoccluded".  The flag
is the integer uniform `shadows`, false when `0`. -/
def occluded (shadows : Int) (distance sampled far_plane bias : K) : Bool :=
  if shadows = 0 then false else decide (distance > sampled * far_plane + bias)

/-- Modelled from the spec: the result of the lit stage for a fragment, as far
as the shadow test enters it (the shader is missing): a function `shade` of
whether the fragment is occluded from light 0 and from light 1, where
`distance i` is the distance from the fragment to light `i` and `sampled i` the
value read from that light's cube map. -/
def litFragment {α : Type} (shade : Bool → Bool → α) (shadows : Int) (far_plane bias : K)
    (distance sampled : Fin 2 → K) : α :=
  shade (occluded shadows (distance 0) (sampled 0) far_plane bias)
    (occluded shadows (distance 1) (sampled 1) far_plane bias)

end LitStage

/-- Two contexts agree on framebuffer, program, depth function and viewport. -/
def ViewEq {K : Type} (σ : GLState K) (τ : GLState Unit) : Prop :=
  CoreEq σ τ ∧ σ.viewport = τ.viewport

/-! ## Single-precision arithmetic

The program computes in `float` (IEEE 754 binary32, round to nearest, ties to
even).  A finite `float` is a rational number, and an arithmetic operation
returns the exact result rounded to the nearest `float`; no two operations are
fused.  The functions of this section are the glm functions of the first
section with every operation rounded, the operations taken in the order of the
glm source. -/

namespace F32

/-- The `float` nearest to `q`, ties to even.  A result beyond `FLT_MAX` is an
infinity in `float`, which has no value here (`FLT_MAX` stands in for it); the
computations below stay far from that bound. -/
def rnd (q : ℚ) : ℚ := (roundFloat q).1

/-- The functions `sqrtf` and `tanf` of the C math library, which
`glm::normalize` and `glm::perspective` reach in `float`. -/
structure Libm where
  sqrtf : ℚ → ℚ
  tanf : ℚ → ℚ

/-- Componentwise sum of `vec3`, `a + b`. -/
def add3 (a b : Vec3 ℚ) : Vec3 ℚ := ⟨rnd (a.x + b.x), rnd (a.y + b.y), rnd (a.z + b.z)⟩

/-- Componentwise difference of `vec3`, `a - b`. -/
def sub3 (a b : Vec3 ℚ) : Vec3 ℚ := ⟨rnd (a.x - b.x), rnd (a.y - b.y), rnd (a.z - b.z)⟩

/-- Product of a `vec3` with a scalar, `v * k`. -/
def smul3 (v : Vec3 ℚ) (k : ℚ) : Vec3 ℚ := ⟨rnd (v.x * k), rnd (v.y * k), rnd (v.z * k)⟩

/-- Componentwise sum of `vec4`, `a + b`. -/
def add4 (a b : Vec4 ℚ) : Vec4 ℚ :=
  ⟨rnd (a.x + b.x), rnd (a.y + b.y), rnd (a.z + b.z), rnd (a.w + b.w)⟩

/-- Product of a `vec4` with a scalar, `v * k`. -/
def smul4 (v : Vec4 ℚ) (k : ℚ) : Vec4 ℚ :=
  ⟨rnd (v.x * k), rnd (v.y * k), rnd (v.z * k), rnd (v.w * k)⟩

/-- The function `glm::dot` on `vec3`: `(a.x * b.x + a.y * b.y) + a.z * b.z`. -/
def dot (a b : Vec3 ℚ) : ℚ := rnd (rnd (rnd (a.x * b.x) + rnd (a.y * b.y)) + rnd (a.z * b.z))

/-- The function `glm::cross`. -/
def cross (a b : Vec3 ℚ) : Vec3 ℚ :=
  ⟨rnd (rnd (a.y * b.z) - rnd (b.y * a.z)),
   rnd (rnd (a.z * b.x) - rnd (b.z * a.x)),
   rnd (rnd (a.x * b.y) - rnd (b.x * a.y))⟩

/-- The function `glm::inversesqrt`: `1 / sqrt(a)`. -/
def inversesqrt (lm : Libm) (a : ℚ) : ℚ := rnd (1 / lm.sqrtf a)

/-- The function `glm::normalize`: `v * inversesqrt(dot(v, v))`. -/
def normalize (lm : Libm) (v : Vec3 ℚ) : Vec3 ℚ := smul3 v (inversesqrt lm (dot v v))

/-- The function `glm::radians`: the degrees times the `float` nearest to
`0.01745329251994329576923690768489`. -/
def radians (degrees : ℚ) : ℚ := rnd (degrees * rnd 0.01745329251994329576923690768489)

/-- Matrix times column vector, `m * v`:
`(m[0] * v.x + m[1] * v.y) + (m[2] * v.z + m[3] * v.w)`. -/
def mulVec (m : Mat4 ℚ) (v : Vec4 ℚ) : Vec4 ℚ :=
  add4 (add4 (smul4 m.c0 v.x) (smul4 m.c1 v.y)) (add4 (smul4 m.c2 v.z) (smul4 m.c3 v.w))

/-- One column of a matrix product, `a * b[j]` as `operator*` on two `mat4`
computes it: `((a[0] * c.x + a[1] * c.y) + a[2] * c.z) + a[3] * c.w`. -/
def mulColumn (a : Mat4 ℚ) (c : Vec4 ℚ) : Vec4 ℚ :=
  add4 (add4 (add4 (smul4 a.c0 c.x) (smul4 a.c1 c.y)) (smul4 a.c2 c.z)) (smul4 a.c3 c.w)

/-- Matrix product, `a * b`. -/
def mul (a b : Mat4 ℚ) : Mat4 ℚ :=
  ⟨mulColumn a b.c0, mulColumn a b.c1, mulColumn a b.c2, mulColumn a b.c3⟩

/-- The function `glm::lookAt` (right-handed). -/
def lookAt (lm : Libm) (eye center up : Vec3 ℚ) : Mat4 ℚ :=
  let f := normalize lm (sub3 center eye)
  let s := normalize lm (cross f up)
  let u := cross s f
  ⟨⟨s.x, u.x, -f.x, 0⟩,
   ⟨s.y, u.y, -f.y, 0⟩,
   ⟨s.z, u.z, -f.z, 0⟩,
   ⟨-dot s eye, -dot u eye, dot f eye, 1⟩⟩

/-- The function `glm::perspective` (right-handed, clip depth `-1 .. 1`). -/
def perspective (lm : Libm) (fovy aspect zNear zFar : ℚ) : Mat4 ℚ :=
  let tanHalfFovy := lm.tanf (rnd (fovy / 2))
  ⟨⟨rnd (1 / rnd (aspect * tanHalfFovy)), 0, 0, 0⟩,
   ⟨0, rnd (1 / tanHalfFovy), 0, 0⟩,
   ⟨0, 0, rnd (-rnd (zFar + zNear) / rnd (zFar - zNear)), -1⟩,
   ⟨0, 0, rnd (-rnd (rnd (2 * zFar) * zNear) / rnd (zFar - zNear)), 0⟩⟩

/-- The array `lightPos` (line 422): the `float` literals. -/
def lightPos (i : Fin 2) : Vec3 ℚ :=
  match i with
  | 0 => ⟨rnd (-1.74), rnd 1.48, rnd (-0.12)⟩
  | 1 => ⟨rnd 1.74, rnd 1.48, rnd 0.12⟩

/-- The local `shadowProj` (line 444). -/
def shadowProj (lm : Libm) : Mat4 ℚ :=
  perspective lm (radians 90.0) (rnd ((SHADOW_WIDTH : ℚ) / (SHADOW_HEIGHT : ℚ))) 1.0 25.0

/-- The arguments `(eye, center, up)` of the six `glm::lookAt` calls of a
light at `L` (lines 446-451 and 454-459), the centre `L + d` being a `float`
sum. -/
def shadowLookAtArgs (L : Vec3 ℚ) : List (Vec3 ℚ × Vec3 ℚ × Vec3 ℚ) :=
  [ (L, add3 L ⟨1.0, 0.0, 0.0⟩, ⟨0.0, -1.0, 0.0⟩),
    (L, add3 L ⟨-1.0, 0.0, 0.0⟩, ⟨0.0, -1.0, 0.0⟩),
    (L, add3 L ⟨0.0, 1.0, 0.0⟩, ⟨0.0, 0.0, 1.0⟩),
    (L, add3 L ⟨0.0, -1.0, 0.0⟩, ⟨0.0, 0.0, -1.0⟩),
    (L, add3 L ⟨0.0, 0.0, 1.0⟩, ⟨0.0, -1.0, 0.0⟩),
    (L, add3 L ⟨0.0, 0.0, -1.0⟩, ⟨0.0, -1.0, 0.0⟩) ]

/-- The six face view matrices `glm::lookAt(eye, center, up)` of the light at `L`. -/
def shadowViews (lm : Libm) (L : Vec3 ℚ) : List (Mat4 ℚ) :=
  (shadowLookAtArgs L).map fun a => lookAt lm a.1 a.2.1 a.2.2

/-- The six products `shadowProj * glm::lookAt(...)` pushed for the light at `L`. -/
def shadowTransforms (lm : Libm) (L : Vec3 ℚ) : List (Mat4 ℚ) :=
  (shadowViews lm L).map fun v => mul (shadowProj lm) v

/-- The integer square root by bisection: the largest `r + j` with `j < 2 ^ k`
whose square is at most `n`, for `r` a multiple of `2 ^ k` with `r ^ 2 ≤ n`. -/
def sqrtBits (n : ℕ) : ℕ → ℕ → ℕ
  | 0, r => r
  | k + 1, r => if (r + 2 ^ k) ^ 2 ≤ n then sqrtBits n k (r + 2 ^ k) else sqrtBits n k r

/-- The function `sqrtf`: the `float` nearest to the square root, ties to even
(IEEE 754 requires the square root to be correctly rounded).  For `x > 0` with
`4 ^ E ≤ x < 4 ^ (E + 1)` the root lies in `[2 ^ E, 2 ^ (E + 1))`, where the
`float`s are the multiples `m * 2 ^ (E - 23)` with `m < 2 ^ 24`.  The root of a
negative number is a NaN, which has no value here (`0` stands in for it). -/
def sqrtf (x : ℚ) : ℚ :=
  if x ≤ 0 then 0
  else
    let ulp : ℚ := 2 ^ (Int.log 2 x / 2 - 23)
    let m : ℕ := sqrtBits ⌊x / ulp ^ 2⌋.toNat 24 0
    let mid : ℚ := ((m : ℚ) + 1 / 2) ^ 2 * ulp ^ 2
    if x < mid then m * ulp
    else if mid < x then (m + 1) * ulp
    else if m % 2 = 0 then m * ulp else (m + 1) * ulp

/-- The tangent of `x` for `|x| ≤ 1`, to within `10 ^ (-12)`: Lambert's
continued fraction `x / (1 - x² / (3 - x² / (5 - ...)))` cut after `19`. -/
def tanFraction (x : ℚ) : ℚ :=
  x / (1 - x ^ 2 / (3 - x ^ 2 / (5 - x ^ 2 / (7 - x ^ 2 / (9 - x ^ 2 / (11 - x ^ 2 /
    (13 - x ^ 2 / (15 - x ^ 2 / (17 - x ^ 2 / 19)))))))))

/-- The function `tanf` for `|x| ≤ 1`, taken to return the `float` nearest to
the tangent. -/
def tanf (x : ℚ) : ℚ := rnd (tanFraction x)

/-- The C math library in `float`. -/
def libm : Libm := { sqrtf := sqrtf, tanf := tanf }

end F32

/-! # Part II: theorems -/

section GlmFacts

variable {K : Type} [LinearOrderedField K]

/-- A view matrix built by `lookAt` sends its eye point to the origin. -/
theorem lookAt_mulVec_eye (ops : FloatOps K) (eye center up : Vec3 K) :
    (lookAt ops eye center up).mulVec (Vec4.ofVec3 eye 1) = ⟨0, 0, 0, 1⟩ := by
  simp only [lookAt, Mat4.mulVec, Vec4.smul, Vec4.add, Vec4.ofVec3, dot, Vec4.mk.injEq]
  refine ⟨?_, ?_, ?_, ?_⟩ <;> ring

/-- The matrix product acts on vectors by composition. -/
theorem mul_mulVec (a b : Mat4 K) (v : Vec4 K) :
    (a.mul b).mulVec v = a.mulVec (b.mulVec v) := by
  simp only [Mat4.mul, Mat4.mulVec, Vec4.smul, Vec4.add, Vec4.mk.injEq]
  refine ⟨?_, ?_, ?_, ?_⟩ <;> ring

/-- C1 (as stated, refuted): in `float` the product `shadowProj * lookAt(...)`
is rounded entry by entry, and applied to `(L, 1)` it misses `shadowProj`
applied to `(0, 0, 0, 1)`.  For light 0, at `lightPos[0]` (the `float`s nearest
to `-1.74`, `1.48`, `-0.12`), `shadowProj` has the depth entries
`-9087659 / 2 ^ 23` and `-8738133 / 2 ^ 22`, and `shadowProj * (0, 0, 0, 1)` is
`(0, 0, -8738133 / 2 ^ 22, 0)`, while the six face matrices applied to `(L, 1)`
give the depth component `-8738132 / 2 ^ 22` for the faces `-X`, `+Y` and `-Z`,
one unit in the last place off (for light 1 the faces `+X`, `+Y` and `+Z` are
off); so not every face matrix satisfies the equality.  Applied without
rounding, each of the six `float` matrices of light 0 misses it as well. -/
theorem C1_float_product_misses_by_one_ulp :
    F32.lightPos 0 = ⟨-14596178 / 2 ^ 23, 12415140 / 2 ^ 23, -16106127 / 2 ^ 27⟩
    ∧ F32.shadowProj F32.libm
        = ⟨⟨1, 0, 0, 0⟩, ⟨0, 1, 0, 0⟩, ⟨0, 0, -9087659 / 2 ^ 23, -1⟩,
            ⟨0, 0, -8738133 / 2 ^ 22, 0⟩⟩
    ∧ F32.mulVec (F32.shadowProj F32.libm) ⟨0, 0, 0, 1⟩ = ⟨0, 0, -8738133 / 2 ^ 22, 0⟩
    ∧ (F32.shadowTransforms F32.libm (F32.lightPos 0)).map
          (fun M => F32.mulVec M (Vec4.ofVec3 (F32.lightPos 0) 1))
        = [ ⟨0, 0, -8738133 / 2 ^ 22, 0⟩, ⟨0, 0, -8738132 / 2 ^ 22, 0⟩,
            ⟨0, 0, -8738132 / 2 ^ 22, 0⟩, ⟨0, 0, -8738133 / 2 ^ 22, 0⟩,
            ⟨0, 0, -8738133 / 2 ^ 22, 0⟩, ⟨0, 0, -8738132 / 2 ^ 22, 0⟩ ]
    ∧ (F32.shadowTransforms F32.libm (F32.lightPos 1)).map
          (fun M => F32.mulVec M (Vec4.ofVec3 (F32.lightPos 1) 1))
        = [ ⟨0, 0, -8738132 / 2 ^ 22, 0⟩, ⟨0, 0, -8738133 / 2 ^ 22, 0⟩,
            ⟨0, 0, -8738132 / 2 ^ 22, 0⟩, ⟨0, 0, -8738133 / 2 ^ 22, 0⟩,
            ⟨0, 0, -8738132 / 2 ^ 22, 0⟩, ⟨0, 0, -8738133 / 2 ^ 22, 0⟩ ]
    ∧ ¬ (∀ M ∈ F32.shadowTransforms F32.libm (F32.lightPos 0),
          F32.mulVec M (Vec4.ofVec3 (F32.lightPos 0) 1)
            = F32.mulVec (F32.shadowProj F32.libm) ⟨0, 0, 0, 1⟩)
    ∧ (∀ M ∈ F32.shadowTransforms F32.libm (F32.lightPos 0),
          M.mulVec (Vec4.ofVec3 (F32.lightPos 0) 1)
            ≠ (F32.shadowProj F32.libm).mulVec ⟨0, 0, 0, 1⟩) := by
  decide!

/-- C1 (amended): in exact arithmetic, for every light position `L`, the six
face view matrices are `lookAt(L, L + dir_i, up_i)` for the six faces, each maps
`L` to the origin of its view space, and each face view-projection matrix
`shadowProj * lookAt(...)` applied to `(L, 1)` equals `shadowProj` applied to
`(0, 0, 0, 1)`; this holds for the matrix sets `shadowTransforms1` and
`shadowTransforms2` of the two lights, each of six matrices.  In `float`, at
the two light positions of the program, each of the six view matrices still
maps `L` to `(0, 0, 0, 1)` exactly, and each of the six face view-projection
matrices applied to `(L, 1)` agrees with `shadowProj` applied to `(0, 0, 0, 1)`
in the components `x`, `y` and `w` and differs from it in `z` by at most
`2 ^ (-22)`, one unit in the last place. -/
theorem C1_face_matrices_map_light_to_origin (ops : FloatOps K) (L : Vec3 K) :
    shadowViews ops L
        = [ lookAt ops L (L.add ⟨1, 0, 0⟩) ⟨0, -1, 0⟩,
            lookAt ops L (L.add ⟨-1, 0, 0⟩) ⟨0, -1, 0⟩,
            lookAt ops L (L.add ⟨0, 1, 0⟩) ⟨0, 0, 1⟩,
            lookAt ops L (L.add ⟨0, -1, 0⟩) ⟨0, 0, -1⟩,
            lookAt ops L (L.add ⟨0, 0, 1⟩) ⟨0, -1, 0⟩,
            lookAt ops L (L.add ⟨0, 0, -1⟩) ⟨0, -1, 0⟩ ]
    ∧ shadowTransforms ops L = (shadowViews ops L).map (fun V => (shadowProj ops).mul V)
    ∧ shadowTransforms1 ops = shadowTransforms ops (lightPos 0)
    ∧ shadowTransforms2 ops = shadowTransforms ops (lightPos 1)
    ∧ (shadowViews ops L).length = 6
    ∧ (shadowTransforms ops L).length = 6
    ∧ (shadowTransforms1 ops).length = 6
    ∧ (shadowTransforms2 ops).length = 6
    ∧ (∀ V ∈ shadowViews ops L, V.mulVec (Vec4.ofVec3 L 1) = ⟨0, 0, 0, 1⟩)
    ∧ (∀ M ∈ shadowTransforms ops L,
        M.mulVec (Vec4.ofVec3 L 1) = (shadowProj ops).mulVec ⟨0, 0, 0, 1⟩)
    ∧ (∀ M ∈ shadowTransforms1 ops,
        M.mulVec (Vec4.ofVec3 (lightPos 0) 1) = (shadowProj ops).mulVec ⟨0, 0, 0, 1⟩)
    ∧ (∀ M ∈ shadowTransforms2 ops,
        M.mulVec (Vec4.ofVec3 (lightPos 1) 1) = (shadowProj ops).mulVec ⟨0, 0, 0, 1⟩)
    ∧ (∀ i : Fin 2,
        (F32.shadowViews F32.libm (F32.lightPos i)).length = 6
        ∧ (F32.shadowTransforms F32.libm (F32.lightPos i)).length = 6
        ∧ (∀ V ∈ F32.shadowViews F32.libm (F32.lightPos i),
            F32.mulVec V (Vec4.ofVec3 (F32.lightPos i) 1) = ⟨0, 0, 0, 1⟩)
        ∧ (∀ M ∈ F32.shadowTransforms F32.libm (F32.lightPos i),
            (F32.mulVec M (Vec4.ofVec3 (F32.lightPos i) 1)).x
                = (F32.mulVec (F32.shadowProj F32.libm) ⟨0, 0, 0, 1⟩).x
            ∧ (F32.mulVec M (Vec4.ofVec3 (F32.lightPos i) 1)).y
                = (F32.mulVec (F32.shadowProj F32.libm) ⟨0, 0, 0, 1⟩).y
            ∧ (F32.mulVec M (Vec4.ofVec3 (F32.lightPos i) 1)).w
                = (F32.mulVec (F32.shadowProj F32.libm) ⟨0, 0, 0, 1⟩).w
            ∧ |(F32.mulVec M (Vec4.ofVec3 (F32.lightPos i) 1)).z
                - (F32.mulVec (F32.shadowProj F32.libm) ⟨0, 0, 0, 1⟩).z| ≤ 1 / 2 ^ 22)) := by
  have hV : ∀ (P : Vec3 K), ∀ V ∈ shadowViews ops P,
      V.mulVec (Vec4.ofVec3 P 1) = ⟨0, 0, 0, 1⟩ := by
    intro P V hV
    simp only [shadowViews, shadowLookAtArgs, List.map_cons, List.map_nil, List.mem_cons,
      List.mem_singleton, List.not_mem_nil, or_false] at hV
    rcases hV with h | h | h | h | h | h <;> subst h <;> exact lookAt_mulVec_eye ops _ _ _
  have hM : ∀ (P : Vec3 K), ∀ M ∈ shadowTransforms ops P,
      M.mulVec (Vec4.ofVec3 P 1) = (shadowProj ops).mulVec ⟨0, 0, 0, 1⟩ := by
    intro P M hM
    simp only [shadowTransforms, List.mem_map] at hM
    obtain ⟨V, hVmem, rfl⟩ := hM
    rw [mul_mulVec, hV P V hVmem]
  refine ⟨?_, rfl, rfl, rfl, rfl, rfl, rfl, rfl, hV L, hM L, hM _, hM _, ?_⟩
  · simp only [shadowViews, shadowLookAtArgs, List.map_cons, List.map_nil]
    norm_num
  · decide!

/-- The six view directions of a light are the six signed coordinate axes, in
the order `+X, -X, +Y, -Y, +Z, -Z`, whatever the light position. -/
theorem viewDirections_eq (L : Vec3 K) :
    viewDirections L
      = [⟨1, 0, 0⟩, ⟨-1, 0, 0⟩, ⟨0, 1, 0⟩, ⟨0, -1, 0⟩, ⟨0, 0, 1⟩, ⟨0, 0, -1⟩] := by
  simp only [viewDirections, shadowLookAtArgs, List.map_cons, List.map_nil, Vec3.add, Vec3.sub]
  norm_num

/-- C2 (as stated, refuted): for the light at `lightPos[0]` the two view
directions `+X` and `-X` are distinct and have dot product `-1`, so it is not
the case that every pair of distinct directions among the six is orthogonal. -/
theorem C2_opposite_faces_not_orthogonal :
    ¬ (∀ a ∈ viewDirections (lightPos 0 : Vec3 ℚ), ∀ b ∈ viewDirections (lightPos 0 : Vec3 ℚ),
        a ≠ b → dot a b = 0) := by
  intro h
  have h01 := h ⟨1, 0, 0⟩ (by rw [viewDirections_eq]; simp) ⟨-1, 0, 0⟩
    (by rw [viewDirections_eq]; simp) (by norm_num [Vec3.mk.injEq])
  norm_num [dot] at h01

/-- C2 (amended): for every light position the six view directions are the
signed axes `+X, -X, +Y, -Y, +Z, -Z`; each is a unit vector with exactly one
non-zero component, and two distinct directions are orthogonal (dot product
`0`) unless they are the two opposite directions of one axis, whose dot
product is `-1`. -/
theorem C2_view_directions_axis_aligned (L : Vec3 K) :
    viewDirections L
      = [⟨1, 0, 0⟩, ⟨-1, 0, 0⟩, ⟨0, 1, 0⟩, ⟨0, -1, 0⟩, ⟨0, 0, 1⟩, ⟨0, 0, -1⟩]
    ∧ (∀ d ∈ viewDirections L, dot d d = 1
        ∧ ((d.x ≠ 0 ∧ d.y = 0 ∧ d.z = 0) ∨ (d.x = 0 ∧ d.y ≠ 0 ∧ d.z = 0)
            ∨ (d.x = 0 ∧ d.y = 0 ∧ d.z ≠ 0)))
    ∧ (∀ a ∈ viewDirections L, ∀ b ∈ viewDirections L, a ≠ b →
        (dot a b = 0 ∧ b ≠ Vec3.sub ⟨0, 0, 0⟩ a) ∨ (dot a b = -1 ∧ b = Vec3.sub ⟨0, 0, 0⟩ a)) := by
  refine ⟨viewDirections_eq L, ?_, ?_⟩
  · intro d hd
    rw [viewDirections_eq] at hd
    simp only [List.mem_cons, List.mem_singleton, List.not_mem_nil, or_false] at hd
    rcases hd with h | h | h | h | h | h <;> subst h <;> norm_num [dot]
  · intro a ha b hb hab
    rw [viewDirections_eq] at ha hb
    simp only [List.mem_cons, List.mem_singleton, List.not_mem_nil, or_false] at ha hb
    rcases ha with h | h | h | h | h | h <;> rcases hb with h2 | h2 | h2 | h2 | h2 | h2
      <;> subst h <;> subst h2 <;> first
        | exact absurd rfl hab
        | (norm_num [dot, Vec3.sub, Vec3.mk.injEq])

end GlmFacts


section Machine

variable {K : Type}

/-! ## The state machine on lists -/

theorem run_nil (σ : GLState K) : run σ [] = σ := rfl

theorem run_cons (σ : GLState K) (c : Cmd K) (cs : List (Cmd K)) :
    run σ (c :: cs) = run (exec σ c) cs := rfl

theorem run_append (σ : GLState K) (a b : List (Cmd K)) :
    run σ (a ++ b) = run (run σ a) b := by
  simp only [run, List.foldl_append]

theorem trace_append (σ : GLState K) (a b : List (Cmd K)) :
    trace σ (a ++ b) = trace σ a ++ trace (run σ a) b := by
  induction a generalizing σ with
  | nil => rfl
  | cons c cs ih =>
    rw [List.cons_append]
    simp only [trace, List.cons_append, List.cons.injEq, true_and]
    rw [ih]
    rfl

/-! ## Erasure commutes with the state machine -/

theorem coreEq_coreState (σ : GLState K) :
    CoreEq σ (coreState σ.framebuffer σ.program σ.depthFunc) := ⟨rfl, rfl, rfl⟩

theorem CoreEq.exec {σ : GLState K} {τ : GLState Unit} (h : CoreEq σ τ) (c : Cmd K) :
    CoreEq (exec σ c) (exec τ c.erase) := by
  obtain ⟨h1, h2, h3⟩ := h
  cases c with
  | bindTexture target t => cases target <;> exact ⟨h1, h2, h3⟩
  | setMat4 sh name m =>
    have h2' : τ.program = σ.program := h2.symm
    by_cases hp : σ.program = some sh
    · simp only [RedSuns.exec, Cmd.erase, hp, h2', if_true]; exact ⟨h1, rfl, h3⟩
    · simp only [RedSuns.exec, Cmd.erase, hp, h2', if_false]; exact ⟨h1, h2, h3⟩
  | setVec3 sh name m =>
    have h2' : τ.program = σ.program := h2.symm
    by_cases hp : σ.program = some sh
    · simp only [RedSuns.exec, Cmd.erase, hp, h2', if_true]; exact ⟨h1, rfl, h3⟩
    · simp only [RedSuns.exec, Cmd.erase, hp, h2', if_false]; exact ⟨h1, h2, h3⟩
  | setFloat sh name m =>
    have h2' : τ.program = σ.program := h2.symm
    by_cases hp : σ.program = some sh
    · simp only [RedSuns.exec, Cmd.erase, hp, h2', if_true]; exact ⟨h1, rfl, h3⟩
    · simp only [RedSuns.exec, Cmd.erase, hp, h2', if_false]; exact ⟨h1, h2, h3⟩
  | setInt sh name m =>
    have h2' : τ.program = σ.program := h2.symm
    by_cases hp : σ.program = some sh
    · simp only [RedSuns.exec, Cmd.erase, hp, h2', if_true]; exact ⟨h1, rfl, h3⟩
    · simp only [RedSuns.exec, Cmd.erase, hp, h2', if_false]; exact ⟨h1, h2, h3⟩
  | setBool sh name m =>
    have h2' : τ.program = σ.program := h2.symm
    by_cases hp : σ.program = some sh
    · simp only [RedSuns.exec, Cmd.erase, hp, h2', if_true]; exact ⟨h1, rfl, h3⟩
    · simp only [RedSuns.exec, Cmd.erase, hp, h2', if_false]; exact ⟨h1, h2, h3⟩
  | bindFramebuffer f => exact ⟨rfl, h2, h3⟩
  | use sh => exact ⟨h1, rfl, h3⟩
  | depthFunc f => exact ⟨h1, h2, rfl⟩
  | _ => exact ⟨h1, h2, h3⟩

theorem CoreEq.run {σ : GLState K} {τ : GLState Unit} (h : CoreEq σ τ) (cmds : List (Cmd K)) :
    CoreEq (run σ cmds) (run τ (cmds.map Cmd.erase)) := by
  induction cmds generalizing σ τ with
  | nil => exact h
  | cons c cs ih => exact ih (h.exec c)

/-- A projection of the trace that reads only framebuffer, program, depth
function and the erased command can be computed on the erased commands. -/
theorem filterMap_trace_erase {α : Type} (f : GLState K × Cmd K → Option α)
    (g : GLState Unit × Cmd Unit → Option α)
    (hfg : ∀ (σ : GLState K) (τ : GLState Unit) (c : Cmd K), CoreEq σ τ →
      f (σ, c) = g (τ, c.erase))
    (cmds : List (Cmd K)) (σ : GLState K) (τ : GLState Unit) (h : CoreEq σ τ) :
    (trace σ cmds).filterMap f = (trace τ (cmds.map Cmd.erase)).filterMap g := by
  induction cmds generalizing σ τ with
  | nil => rfl
  | cons c cs ih =>
    simp only [trace, List.map_cons, List.filterMap_cons, hfg σ τ c h, ih _ _ (h.exec c)]

theorem isDraw_erase (c : Cmd K) : c.erase.isDraw = c.isDraw := by
  cases c <;> rfl

theorem phaseOf_erase (σ : GLState K) (τ : GLState Unit) (c : Cmd K) (h : CoreEq σ τ) :
    phaseOf (σ, c) = phaseOf (τ, c.erase) := by
  obtain ⟨h1, h2, h3⟩ := h
  cases c <;> simp only [phaseOf, Cmd.erase, Cmd.isDraw, h1, h2]

theorem targetWrite_erase (σ : GLState K) (τ : GLState Unit) (c : Cmd K) (h : CoreEq σ τ) :
    targetWrite (σ, c) = targetWrite (τ, c.erase) := by
  obtain ⟨h1, h2, h3⟩ := h
  cases c <;> simp only [targetWrite, Cmd.erase, Cmd.isDraw, h1, h2]

theorem depthEvent_erase (σ : GLState K) (τ : GLState Unit) (c : Cmd K) (h : CoreEq σ τ) :
    depthEvent (σ, c) = depthEvent (τ, c.erase) := by
  obtain ⟨h1, h2, h3⟩ := h
  cases c <;> simp only [depthEvent, phaseOf, Cmd.erase, Cmd.isDraw, h1, h2, h3]

end Machine

section FrameFacts

variable {K : Type} [LinearOrderedField K]

/-! ## The erased frame -/

theorem renderScene_erase (ops : FloatOps K) (ps : ProgramState K) (sh : Shader) :
    (renderScene ops ps sh).map Cmd.erase
      = (renderScene ratOps defaultState sh).map Cmd.erase := by
  simp only [renderScene, List.map_cons, List.map_nil, Cmd.erase]

theorem uploadShadowMatrices_erase (ops : FloatOps K) (L : Vec3 K) (L2 : Vec3 ℚ) :
    (uploadShadowMatrices (shadowTransforms ops L)).map Cmd.erase
      = (uploadShadowMatrices (shadowTransforms ratOps L2)).map Cmd.erase := by
  simp only [uploadShadowMatrices, shadowTransforms, shadowViews, shadowLookAtArgs, List.map_cons,
    List.map_nil, List.range_succ, List.range_zero, List.filterMap_cons, List.filterMap_nil,
    List.nil_append, List.cons_append, List.get?, Option.map, Cmd.erase]

theorem depthPass1_erase (ops : FloatOps K) (ps : ProgramState K) :
    (depthPass1 ops ps).map Cmd.erase = (depthPass1 ratOps defaultState).map Cmd.erase := by
  simp only [depthPass1, List.map_append, renderScene_erase ops, shadowTransforms1,
    uploadShadowMatrices_erase ops _ (lightPos 0)]
  rfl

theorem depthPass2_erase (ops : FloatOps K) (ps : ProgramState K) :
    (depthPass2 ops ps).map Cmd.erase = (depthPass2 ratOps defaultState).map Cmd.erase := by
  simp only [depthPass2, List.map_append, renderScene_erase ops, shadowTransforms2,
    uploadShadowMatrices_erase ops _ (lightPos 1)]
  rfl

theorem litPass_erase (ops : FloatOps K) (ps : ProgramState K) (sw : Bool) :
    (litPass ops ps sw).map Cmd.erase = (litPass ratOps defaultState false).map Cmd.erase := by
  simp only [litPass, List.map_append, renderScene_erase ops, List.map_cons, List.map_nil,
    Cmd.erase]

theorem terrainPass_erase (ops : FloatOps K) :
    (terrainPass ops).map Cmd.erase = (terrainPass ratOps).map Cmd.erase := by
  simp only [terrainPass, List.map_cons, List.map_nil, Cmd.erase]

theorem skyboxPass_erase (ops : FloatOps K) (ps : ProgramState K) :
    (skyboxPass ops ps).map Cmd.erase = (skyboxPass ratOps defaultState).map Cmd.erase := by
  simp only [skyboxPass, List.map_cons, List.map_nil, Cmd.erase]

theorem renderFrame_erase (ops : FloatOps K) (ps : ProgramState K) (sw : Bool) :
    (renderFrame ops ps sw).map Cmd.erase = frameSkeleton ps.ImGuiEnabled := by
  simp only [frameSkeleton, renderFrame, List.map_append, depthPass1_erase ops,
    depthPass2_erase ops, litPass_erase ops, terrainPass_erase ops, skyboxPass_erase ops]
  cases ps.ImGuiEnabled <;> rfl

/-- The passes of the erased frame, from any framebuffer, program and depth
function. -/
theorem frameSkeleton_phases (fb : Framebuffer) (prog : Option Shader) (df : DepthFunc)
    (ui : Bool) :
    (trace (coreState fb prog df) (frameSkeleton ui)).filterMap phaseOf
      = List.replicate 5 Phase.depthPass0 ++ List.replicate 5 Phase.depthPass1
        ++ List.replicate 6 Phase.lightingPass ++ [Phase.skyboxPass]
        ++ (if ui then [Phase.uiOverlay] else []) ++ [Phase.present] := by
  rcases prog with _ | sh
  · cases fb <;> cases df <;> cases ui <;> decide!
  · cases sh <;> cases fb <;> cases df <;> cases ui <;> decide!

/-- C4: in every iteration of the render loop, whatever the context it starts
from, the rendering commands follow the order DepthPass(light 0), DepthPass(light
1), LightingPass, SkyboxPass, optional UI overlay, Present: the five draws into
`depthMap1FBO` come first, then the five draws into `depthMap2FBO`, then the six
lit draws (five models and the ground), then the skybox draw, then `DrawImGui`
exactly when `ImGuiEnabled`, then `glfwSwapBuffers`; the sequence is sorted by
pass, and the frame ends with `glfwSwapBuffers` followed by `glfwPollEvents`. -/
theorem C4_frame_pass_order (ops : FloatOps K) (ps : ProgramState K) (spotSwitch : Bool)
    (σ : GLState K) :
    (trace σ (renderFrame ops ps spotSwitch)).filterMap phaseOf
      = List.replicate 5 Phase.depthPass0 ++ List.replicate 5 Phase.depthPass1
        ++ List.replicate 6 Phase.lightingPass ++ [Phase.skyboxPass]
        ++ (if ps.ImGuiEnabled then [Phase.uiOverlay] else []) ++ [Phase.present]
    ∧ ((trace σ (renderFrame ops ps spotSwitch)).filterMap phaseOf).Pairwise
        (fun p q => p.rank ≤ q.rank)
    ∧ (∃ body, renderFrame ops ps spotSwitch = body ++ [Cmd.swapBuffers, Cmd.pollEvents]) := by
  have h : (trace σ (renderFrame ops ps spotSwitch)).filterMap phaseOf
      = List.replicate 5 Phase.depthPass0 ++ List.replicate 5 Phase.depthPass1
        ++ List.replicate 6 Phase.lightingPass ++ [Phase.skyboxPass]
        ++ (if ps.ImGuiEnabled then [Phase.uiOverlay] else []) ++ [Phase.present] := by
    rw [filterMap_trace_erase phaseOf phaseOf phaseOf_erase _ σ _ (coreEq_coreState σ),
      renderFrame_erase, frameSkeleton_phases]
  refine ⟨h, ?_, ⟨_, rfl⟩⟩
  rw [h]
  cases ps.ImGuiEnabled <;> decide

end FrameFacts


section DepthFunction

variable {K : Type} [LinearOrderedField K]

/-- The depth events of the erased frame, from any framebuffer, program and
depth function. -/
theorem frameSkeleton_depthEvents (fb : Framebuffer) (prog : Option Shader) (df : DepthFunc)
    (ui : Bool) :
    (trace (coreState fb prog df) (frameSkeleton ui)).filterMap depthEvent
      = List.replicate 5 (DepthEvent.render (some Phase.depthPass0) df)
        ++ List.replicate 5 (DepthEvent.render (some Phase.depthPass1) df)
        ++ List.replicate 6 (DepthEvent.render (some Phase.lightingPass) df)
        ++ [DepthEvent.switch DepthFunc.GL_LEQUAL,
            DepthEvent.render (some Phase.skyboxPass) DepthFunc.GL_LEQUAL,
            DepthEvent.switch DepthFunc.GL_LESS]
        ++ (if ui then [DepthEvent.render (some Phase.uiOverlay) DepthFunc.GL_LESS] else []) := by
  rcases prog with _ | sh
  · cases fb <;> cases df <;> cases ui <;> decide!
  · cases sh <;> cases fb <;> cases df <;> cases ui <;> decide!

theorem frameSkeleton_run_depthFunc (fb : Framebuffer) (prog : Option Shader) (df : DepthFunc)
    (ui : Bool) :
    (run (coreState fb prog df) (frameSkeleton ui)).depthFunc = DepthFunc.GL_LESS := by
  rcases prog with _ | sh
  · cases fb <;> cases df <;> cases ui <;> decide!
  · cases sh <;> cases fb <;> cases df <;> cases ui <;> decide!

/-- The depth events of a frame issued in the context `σ`. -/
theorem renderFrame_depthEvents (ops : FloatOps K) (ps : ProgramState K) (spotSwitch : Bool)
    (σ : GLState K) :
    (trace σ (renderFrame ops ps spotSwitch)).filterMap depthEvent
      = List.replicate 5 (DepthEvent.render (some Phase.depthPass0) σ.depthFunc)
        ++ List.replicate 5 (DepthEvent.render (some Phase.depthPass1) σ.depthFunc)
        ++ List.replicate 6 (DepthEvent.render (some Phase.lightingPass) σ.depthFunc)
        ++ [DepthEvent.switch DepthFunc.GL_LEQUAL,
            DepthEvent.render (some Phase.skyboxPass) DepthFunc.GL_LEQUAL,
            DepthEvent.switch DepthFunc.GL_LESS]
        ++ (if ps.ImGuiEnabled
            then [DepthEvent.render (some Phase.uiOverlay) DepthFunc.GL_LESS] else []) := by
  rw [filterMap_trace_erase depthEvent depthEvent depthEvent_erase _ σ _ (coreEq_coreState σ),
    renderFrame_erase, frameSkeleton_depthEvents]

theorem renderFrame_run_depthFunc (ops : FloatOps K) (ps : ProgramState K) (spotSwitch : Bool)
    (σ : GLState K) :
    (run σ (renderFrame ops ps spotSwitch)).depthFunc = DepthFunc.GL_LESS := by
  have h := (coreEq_coreState σ).run (renderFrame ops ps spotSwitch)
  rw [h.2.2, renderFrame_erase, frameSkeleton_run_depthFunc]

omit [LinearOrderedField K] in
/-- The framebuffer-size callbacks leave the depth function unchanged and
issue no draw. -/
theorem resizes_depth (σ : GLState K) (rs : List (Nat × Nat)) :
    (run σ (rs.flatMap fun wh => framebuffer_size_callback wh.1 wh.2)).depthFunc = σ.depthFunc
    ∧ (trace σ (rs.flatMap fun wh => framebuffer_size_callback (K := K) wh.1 wh.2)).filterMap
        depthEvent = [] := by
  induction rs generalizing σ with
  | nil => exact ⟨rfl, rfl⟩
  | cons r rs ih =>
    have h := ih (exec σ (Cmd.viewport 0 0 r.1 r.2))
    exact ⟨h.1, h.2⟩

theorem loopIteration_run_depthFunc (ops : FloatOps K) (inp : FrameInput K) (σ : GLState K) :
    (run σ (loopIteration ops inp)).depthFunc = DepthFunc.GL_LESS := by
  rw [loopIteration, run_append, (resizes_depth _ _).1, renderFrame_run_depthFunc]

theorem loopEntry_depthFunc : (loopEntry K).depthFunc = DepthFunc.GL_LESS := by
  have h := (coreEq_coreState (glInitial K SCR_WIDTH SCR_HEIGHT)).run (setup (K := K))
  rw [loopEntry, h.2.2]
  have he : (setup (K := K)).map Cmd.erase = (setup (K := ℚ)).map Cmd.erase := rfl
  rw [he]
  show (run (coreState Framebuffer.default none DepthFunc.GL_LESS) _).depthFunc = _
  decide!

theorem renderLoop_run_depthFunc (ops : FloatOps K) (inputs : List (FrameInput K))
    (σ : GLState K) (hσ : σ.depthFunc = DepthFunc.GL_LESS) :
    (run σ (renderLoop ops inputs)).depthFunc = DepthFunc.GL_LESS := by
  induction inputs generalizing σ with
  | nil => exact hσ
  | cons inp rest ih =>
    rw [renderLoop, List.flatMap_cons, run_append]
    exact ih _ (loopIteration_run_depthFunc ops inp σ)

theorem renderLoop_depthEvents (ops : FloatOps K) (inputs : List (FrameInput K))
    (σ : GLState K) (hσ : σ.depthFunc = DepthFunc.GL_LESS) :
    ∀ e ∈ trace σ (renderLoop ops inputs), ∀ p f, depthEvent e = some (DepthEvent.render p f) →
      (f = DepthFunc.GL_LEQUAL ↔ p = some Phase.skyboxPass)
        ∧ (f = DepthFunc.GL_LESS ↔ p ≠ some Phase.skyboxPass) := by
  induction inputs generalizing σ with
  | nil => intro e he; cases he
  | cons inp rest ih =>
    intro e he p f hpf
    rw [renderLoop, List.flatMap_cons, trace_append, List.mem_append] at he
    rcases he with he | he
    · rw [loopIteration, trace_append, List.mem_append] at he
      have hmem : DepthEvent.render p f
          ∈ (trace σ (renderFrame ops inp.ps inp.spotSwitch)).filterMap depthEvent := by
        rcases he with he | he
        · exact List.mem_filterMap.2 ⟨e, he, hpf⟩
        · have h0 := (resizes_depth (run σ (renderFrame ops inp.ps inp.spotSwitch)) inp.resizes).2
          have : DepthEvent.render p f ∈ (trace (run σ (renderFrame ops inp.ps inp.spotSwitch))
              (inp.resizes.flatMap fun wh => framebuffer_size_callback wh.1 wh.2)).filterMap
                depthEvent := List.mem_filterMap.2 ⟨e, he, hpf⟩
          rw [h0] at this
          cases this
      rw [renderFrame_depthEvents, hσ] at hmem
      have key : ∀ ui : Bool, ∀ ev ∈
          List.replicate 5 (DepthEvent.render (some Phase.depthPass0) DepthFunc.GL_LESS)
          ++ List.replicate 5 (DepthEvent.render (some Phase.depthPass1) DepthFunc.GL_LESS)
          ++ List.replicate 6 (DepthEvent.render (some Phase.lightingPass) DepthFunc.GL_LESS)
          ++ [DepthEvent.switch DepthFunc.GL_LEQUAL,
              DepthEvent.render (some Phase.skyboxPass) DepthFunc.GL_LEQUAL,
              DepthEvent.switch DepthFunc.GL_LESS]
          ++ (if ui then [DepthEvent.render (some Phase.uiOverlay) DepthFunc.GL_LESS] else []),
          ev.skyboxOnly = true := by
        intro ui
        cases ui <;> decide
      have h := key _ _ hmem
      simpa only [DepthEvent.skyboxOnly, decide_eq_true_eq] using h
    · exact ih _ (loopIteration_run_depthFunc ops inp σ) e he p f hpf

/-- C10: the skybox pass is the only part of a frame rendered with the depth
function `GL_LEQUAL`.  In every frame, among the depth-function switches and
rendering commands, the switch to `GL_LEQUAL` is directly followed by the
skybox draw, which is directly followed by the switch back to `GL_LESS`, and
there is no other switch; over the whole render loop, started from the context
at loop entry, the depth function is `GL_LESS` at the start of every iteration,
and at every draw and every `DrawImGui` it is `GL_LEQUAL` if the command is the
skybox draw and `GL_LESS` otherwise. -/
theorem C10_lequal_only_in_skybox_pass (ops : FloatOps K) (inputs : List (FrameInput K)) :
    (∀ (σ : GLState K) (ps : ProgramState K) (spotSwitch : Bool),
      (trace σ (renderFrame ops ps spotSwitch)).filterMap depthEvent
        = List.replicate 5 (DepthEvent.render (some Phase.depthPass0) σ.depthFunc)
          ++ List.replicate 5 (DepthEvent.render (some Phase.depthPass1) σ.depthFunc)
          ++ List.replicate 6 (DepthEvent.render (some Phase.lightingPass) σ.depthFunc)
          ++ [DepthEvent.switch DepthFunc.GL_LEQUAL,
              DepthEvent.render (some Phase.skyboxPass) DepthFunc.GL_LEQUAL,
              DepthEvent.switch DepthFunc.GL_LESS]
          ++ (if ps.ImGuiEnabled
              then [DepthEvent.render (some Phase.uiOverlay) DepthFunc.GL_LESS] else []))
    ∧ (∀ n : Nat,
        (run (loopEntry K) (renderLoop ops (inputs.take n))).depthFunc = DepthFunc.GL_LESS)
    ∧ (∀ e ∈ trace (loopEntry K) (renderLoop ops inputs), ∀ p f,
        depthEvent e = some (DepthEvent.render p f) →
          (f = DepthFunc.GL_LEQUAL ↔ p = some Phase.skyboxPass)
            ∧ (f = DepthFunc.GL_LESS ↔ p ≠ some Phase.skyboxPass)) :=
  ⟨fun σ ps spotSwitch => renderFrame_depthEvents ops ps spotSwitch σ,
   fun _ => renderLoop_run_depthFunc ops _ _ loopEntry_depthFunc,
   renderLoop_depthEvents ops inputs _ loopEntry_depthFunc⟩

end DepthFunction


section DepthPasses

variable {K : Type} [LinearOrderedField K]

omit [LinearOrderedField K] in
theorem exec_framebuffer (σ : GLState K) (c : Cmd K) :
    (exec σ c).framebuffer = c.boundFramebuffer.getD σ.framebuffer := by
  cases c with
  | bindTexture target t => cases target <;> rfl
  | setMat4 sh name m => simp only [exec]; split <;> rfl
  | setVec3 sh name m => simp only [exec]; split <;> rfl
  | setFloat sh name m => simp only [exec]; split <;> rfl
  | setInt sh name m => simp only [exec]; split <;> rfl
  | setBool sh name m => simp only [exec]; split <;> rfl
  | _ => rfl

omit [LinearOrderedField K] in
theorem issuedInto_trace (f : Framebuffer) (σ : GLState K) (cmds : List (Cmd K)) :
    issuedInto f (trace σ cmds) = issuedWhileBound f σ.framebuffer cmds := by
  induction cmds generalizing σ with
  | nil => rfl
  | cons c cs ih =>
    have h := ih (exec σ c)
    rw [exec_framebuffer] at h
    simp only [issuedInto] at h ⊢
    by_cases hf : σ.framebuffer = f
    · simp only [trace, List.filterMap_cons, issuedWhileBound, if_pos hf, h,
        List.singleton_append]
    · simp only [trace, List.filterMap_cons, issuedWhileBound, if_neg hf, h, List.nil_append]

omit [LinearOrderedField K] in
theorem boundFramebuffer_erase (c : Cmd K) : c.erase.boundFramebuffer = c.boundFramebuffer := by
  cases c <;> rfl

theorem frameSkeleton_writes (fb : Framebuffer) (prog : Option Shader) (df : DepthFunc)
    (ui : Bool) :
    (trace (coreState fb prog df) (frameSkeleton ui)).filterMap targetWrite
      = [(fb, TargetWrite.clear true true),
          (Framebuffer.depthMap1FBO, TargetWrite.clear false true)]
        ++ List.replicate 5
            (Framebuffer.depthMap1FBO, TargetWrite.draw (some Shader.depthShader))
        ++ [(Framebuffer.depthMap2FBO, TargetWrite.clear false true)]
        ++ List.replicate 5
            (Framebuffer.depthMap2FBO, TargetWrite.draw (some Shader.depthShader))
        ++ [(Framebuffer.default, TargetWrite.clear true true)]
        ++ List.replicate 6 (Framebuffer.default, TargetWrite.draw (some Shader.ourShader))
        ++ [(Framebuffer.default, TargetWrite.draw (some Shader.skyboxShader))] := by
  rcases prog with _ | sh
  · cases fb <;> cases df <;> cases ui <;> decide!
  · cases sh <;> cases fb <;> cases df <;> cases ui <;> decide!

theorem frameSkeleton_binds (ui : Bool) :
    (frameSkeleton ui).filterMap Cmd.boundFramebuffer
      = [Framebuffer.depthMap1FBO, Framebuffer.default, Framebuffer.depthMap2FBO,
          Framebuffer.default] := by
  cases ui <;> decide!

theorem frameSkeleton_run_framebuffer (fb : Framebuffer) (prog : Option Shader)
    (df : DepthFunc) (ui : Bool) :
    (run (coreState fb prog df) (frameSkeleton ui)).framebuffer = Framebuffer.default := by
  rcases prog with _ | sh
  · cases fb <;> cases df <;> cases ui <;> decide!
  · cases sh <;> cases fb <;> cases df <;> cases ui <;> decide!

omit [LinearOrderedField K] in
theorem issuedWhileBound_append (f fb : Framebuffer) (a b : List (Cmd K)) :
    issuedWhileBound f fb (a ++ b)
      = issuedWhileBound f fb a ++ issuedWhileBound f (boundAfter fb a) b := by
  induction a generalizing fb with
  | nil => rfl
  | cons c cs ih =>
    rw [List.cons_append]
    show (if fb = f then [c] else []) ++ issuedWhileBound f (c.boundFramebuffer.getD fb) (cs ++ b)
      = _
    rw [ih, ← List.append_assoc]
    rfl

omit [LinearOrderedField K] in
theorem boundAfter_append (fb : Framebuffer) (a b : List (Cmd K)) :
    boundAfter fb (a ++ b) = boundAfter (boundAfter fb a) b := by
  simp only [boundAfter, List.foldl_append]

omit [LinearOrderedField K] in
theorem boundAfter_noBind (fb : Framebuffer) (cs : List (Cmd K))
    (h : ∀ c ∈ cs, c.boundFramebuffer = none) : boundAfter fb cs = fb := by
  induction cs generalizing fb with
  | nil => rfl
  | cons c cs ih =>
    simp only [boundAfter, List.foldl_cons, h c (List.mem_cons_self _ _), Option.getD_none]
    exact ih fb fun d hd => h d (List.mem_cons_of_mem _ hd)

omit [LinearOrderedField K] in
theorem issuedWhileBound_noBind (f fb : Framebuffer) (cs : List (Cmd K))
    (h : ∀ c ∈ cs, c.boundFramebuffer = none) (hf : fb ≠ f) :
    issuedWhileBound f fb cs = [] := by
  induction cs generalizing fb with
  | nil => rfl
  | cons c cs ih =>
    simp only [issuedWhileBound, if_neg hf, h c (List.mem_cons_self _ _), Option.getD_none,
      List.nil_append]
    exact ih fb (fun d hd => h d (List.mem_cons_of_mem _ hd)) hf

omit [LinearOrderedField K] in
theorem issuedWhileBound_noBind_self (f : Framebuffer) (cs : List (Cmd K))
    (h : ∀ c ∈ cs, c.boundFramebuffer = none) :
    issuedWhileBound f f cs = cs := by
  induction cs with
  | nil => rfl
  | cons c cs ih =>
    simp only [issuedWhileBound, if_true, h c (List.mem_cons_self _ _), Option.getD_none,
      List.singleton_append, ih fun d hd => h d (List.mem_cons_of_mem _ hd)]

omit [LinearOrderedField K] in
theorem noBind_of_erase (cs : List (Cmd K))
    (h : ∀ c ∈ cs.map Cmd.erase, c.boundFramebuffer = none) :
    ∀ c ∈ cs, c.boundFramebuffer = none := by
  intro c hc
  rw [← boundFramebuffer_erase]
  exact h _ (List.mem_map_of_mem _ hc)

omit [LinearOrderedField K] in
theorem run_framebuffer (σ : GLState K) (cmds : List (Cmd K)) :
    (run σ cmds).framebuffer = boundAfter σ.framebuffer cmds := by
  induction cmds generalizing σ with
  | nil => rfl
  | cons c cs ih =>
    rw [run_cons, ih, exec_framebuffer]
    rfl

theorem noBind_renderScene (ops : FloatOps K) (ps : ProgramState K) (sh : Shader) :
    ∀ c ∈ renderScene ops ps sh, c.boundFramebuffer = none := by
  apply noBind_of_erase
  rw [renderScene_erase]
  cases sh <;> decide!

theorem noBind_uploadShadowMatrices (ops : FloatOps K) (L : Vec3 K) :
    ∀ c ∈ uploadShadowMatrices (shadowTransforms ops L), c.boundFramebuffer = none := by
  apply noBind_of_erase
  rw [uploadShadowMatrices_erase ops L (lightPos 0)]
  decide!

theorem noBind_litPass (ops : FloatOps K) (ps : ProgramState K) (sw : Bool) :
    ∀ c ∈ litPass ops ps sw, c.boundFramebuffer = none := by
  apply noBind_of_erase
  rw [litPass_erase]
  decide!

theorem noBind_terrainPass (ops : FloatOps K) :
    ∀ c ∈ terrainPass ops, c.boundFramebuffer = none := by
  apply noBind_of_erase
  rw [terrainPass_erase]
  decide!

theorem noBind_skyboxPass (ops : FloatOps K) (ps : ProgramState K) :
    ∀ c ∈ skyboxPass ops ps, c.boundFramebuffer = none := by
  apply noBind_of_erase
  rw [skyboxPass_erase]
  decide!

/-- The body of a depth pass between `glBindFramebuffer(fbo)` and the restoring
`glBindFramebuffer(0)` contains no other framebuffer binding. -/
theorem noBind_depthPassBody (ops : FloatOps K) (ps : ProgramState K) (L : Vec3 K) :
    ∀ c ∈ ([Cmd.clear false true, Cmd.use Shader.depthShader]
        ++ uploadShadowMatrices (shadowTransforms ops L)
        ++ [Cmd.setFloat Shader.depthShader "far_plane" far_plane,
            Cmd.setVec3 Shader.depthShader "lightPos" L]
        ++ renderScene ops ps Shader.depthShader : List (Cmd K)),
      c.boundFramebuffer = none := by
  intro c hc
  simp only [List.mem_append, List.mem_cons, List.mem_singleton, List.not_mem_nil,
    or_false] at hc
  rcases hc with ((((rfl | rfl) | h) | (rfl | rfl)) | h)
  · rfl
  · rfl
  · exact noBind_uploadShadowMatrices ops L c h
  · rfl
  · rfl
  · exact noBind_renderScene ops ps _ c h

theorem depthPass1_eq (ops : FloatOps K) (ps : ProgramState K) :
    depthPass1 ops ps
      = [Cmd.viewport 0 0 SHADOW_WIDTH SHADOW_HEIGHT]
        ++ [Cmd.bindFramebuffer Framebuffer.depthMap1FBO]
        ++ ([Cmd.clear false true, Cmd.use Shader.depthShader]
            ++ uploadShadowMatrices (shadowTransforms ops (lightPos 0))
            ++ [Cmd.setFloat Shader.depthShader "far_plane" far_plane,
                Cmd.setVec3 Shader.depthShader "lightPos" (lightPos 0)]
            ++ renderScene ops ps Shader.depthShader)
        ++ [Cmd.bindFramebuffer Framebuffer.default] := by
  simp only [depthPass1, shadowTransforms1, List.append_assoc, List.cons_append,
    List.nil_append]

theorem depthPass2_eq (ops : FloatOps K) (ps : ProgramState K) :
    depthPass2 ops ps
      = [] ++ [Cmd.bindFramebuffer Framebuffer.depthMap2FBO]
        ++ ([Cmd.clear false true, Cmd.use Shader.depthShader]
            ++ uploadShadowMatrices (shadowTransforms ops (lightPos 1))
            ++ [Cmd.setFloat Shader.depthShader "far_plane" far_plane,
                Cmd.setVec3 Shader.depthShader "lightPos" (lightPos 1)]
            ++ renderScene ops ps Shader.depthShader)
        ++ [Cmd.bindFramebuffer Framebuffer.default] := by
  simp only [depthPass2, shadowTransforms2, List.append_assoc, List.cons_append,
    List.nil_append]

omit [LinearOrderedField K] in
/-- A block `pre ++ [bind g] ++ body ++ [bind default]` whose `pre` and `body`
bind no framebuffer, entered with the default framebuffer bound: the commands
issued while `f` is bound are `body ++ [bind default]` if `f = g` and none if
`f` is another non-default framebuffer; afterwards the default is bound. -/
theorem issuedWhileBound_pass (f g : Framebuffer) (pre body : List (Cmd K))
    (hpre : ∀ c ∈ pre, c.boundFramebuffer = none)
    (hbody : ∀ c ∈ body, c.boundFramebuffer = none)
    (hf : f ≠ Framebuffer.default) :
    issuedWhileBound f Framebuffer.default
        (pre ++ [Cmd.bindFramebuffer g] ++ body ++ [Cmd.bindFramebuffer Framebuffer.default])
      = (if g = f then body ++ [Cmd.bindFramebuffer Framebuffer.default] else [])
    ∧ boundAfter Framebuffer.default
        (pre ++ [Cmd.bindFramebuffer g] ++ body ++ [Cmd.bindFramebuffer Framebuffer.default])
      = Framebuffer.default := by
  have h1 : boundAfter Framebuffer.default (pre ++ [Cmd.bindFramebuffer g]) = g := by
    rw [boundAfter_append, boundAfter_noBind _ _ hpre]; rfl
  have h2 : boundAfter Framebuffer.default (pre ++ [Cmd.bindFramebuffer g] ++ body) = g := by
    rw [boundAfter_append, h1, boundAfter_noBind _ _ hbody]
  constructor
  · rw [issuedWhileBound_append, issuedWhileBound_append, issuedWhileBound_append, h2, h1,
      issuedWhileBound_noBind _ _ _ hpre (Ne.symm hf), boundAfter_noBind _ _ hpre]
    by_cases hg : g = f
    · subst hg
      simp only [issuedWhileBound, if_neg (Ne.symm hf), if_true, List.nil_append,
        List.append_nil, issuedWhileBound_noBind_self _ _ hbody]
    · simp only [issuedWhileBound, if_neg (Ne.symm hf), if_neg hg, List.nil_append,
        List.append_nil, issuedWhileBound_noBind _ _ _ hbody hg]
  · rw [boundAfter_append, h2]; rfl

/-- The commands of a frame issued while the framebuffer of light `i` is
bound, the frame starting with the default framebuffer bound. -/
theorem issuedWhileBound_renderFrame (ops : FloatOps K) (ps : ProgramState K)
    (spotSwitch : Bool) (i : Fin 2) :
    issuedWhileBound (depthMapFBO i) Framebuffer.default (renderFrame ops ps spotSwitch)
      = [Cmd.clear false true, Cmd.use Shader.depthShader]
        ++ uploadShadowMatrices (shadowTransforms ops (lightPos i))
        ++ [Cmd.setFloat Shader.depthShader "far_plane" far_plane,
            Cmd.setVec3 Shader.depthShader "lightPos" (lightPos i)]
        ++ renderScene ops ps Shader.depthShader
        ++ [Cmd.bindFramebuffer Framebuffer.default] := by
  have hf : depthMapFBO i ≠ Framebuffer.default := by
    revert i; decide
  have hA : ∀ c ∈ ([Cmd.clearColor 0.1 0.1 0.1 1.0, Cmd.clear true true] : List (Cmd K)),
      c.boundFramebuffer = none := by
    intro c hc
    simp only [List.mem_cons, List.mem_singleton, List.not_mem_nil, or_false] at hc
    rcases hc with rfl | rfl <;> rfl
  have hV : ∀ c ∈ ([Cmd.viewport 0 0 SHADOW_WIDTH SHADOW_HEIGHT] : List (Cmd K)),
      c.boundFramebuffer = none := by
    intro c hc
    simp only [List.mem_singleton] at hc
    subst hc; rfl
  have hN : ∀ c ∈ ([] : List (Cmd K)), c.boundFramebuffer = none := by
    intro c hc; cases hc
  have hU : ∀ c ∈ (if ps.ImGuiEnabled then [Cmd.drawImGui] else [] : List (Cmd K)),
      c.boundFramebuffer = none := by
    intro c hc
    split at hc
    · simp only [List.mem_singleton] at hc
      subst hc; rfl
    · cases hc
  have hE : ∀ c ∈ ([Cmd.swapBuffers, Cmd.pollEvents] : List (Cmd K)),
      c.boundFramebuffer = none := by
    intro c hc
    simp only [List.mem_cons, List.mem_singleton, List.not_mem_nil, or_false] at hc
    rcases hc with rfl | rfl <;> rfl
  have hP1 := issuedWhileBound_pass (depthMapFBO i) Framebuffer.depthMap1FBO _ _ hV
    (noBind_depthPassBody ops ps (lightPos 0)) hf
  have hP2 := issuedWhileBound_pass (depthMapFBO i) Framebuffer.depthMap2FBO _ _ hN
    (noBind_depthPassBody ops ps (lightPos 1)) hf
  rw [← depthPass1_eq] at hP1
  rw [← depthPass2_eq] at hP2
  simp only [renderFrame, issuedWhileBound_append, boundAfter_append,
    boundAfter_noBind _ _ hA, hP1.2, hP2.2, boundAfter_noBind _ _ (noBind_litPass ops ps _),
    boundAfter_noBind _ _ (noBind_terrainPass ops),
    boundAfter_noBind _ _ (noBind_skyboxPass ops ps), boundAfter_noBind _ _ hU,
    issuedWhileBound_noBind _ _ _ hA (Ne.symm hf),
    issuedWhileBound_noBind _ _ _ (noBind_litPass ops ps _) (Ne.symm hf),
    issuedWhileBound_noBind _ _ _ (noBind_terrainPass ops) (Ne.symm hf),
    issuedWhileBound_noBind _ _ _ (noBind_skyboxPass ops ps) (Ne.symm hf),
    issuedWhileBound_noBind _ _ _ hU (Ne.symm hf),
    issuedWhileBound_noBind _ _ _ hE (Ne.symm hf), hP1.1, hP2.1, List.nil_append,
    List.append_nil]
  revert i
  intro i
  fin_cases i
  · intro _ _ _
    simp only [depthMapFBO, if_true, reduceCtorEq, if_false, List.append_nil, List.append_assoc]
    rfl
  · intro _ _ _
    simp only [depthMapFBO, if_true, reduceCtorEq, if_false, List.nil_append, List.append_assoc]
    rfl

theorem renderFrame_writes (ops : FloatOps K) (ps : ProgramState K) (spotSwitch : Bool)
    (σ : GLState K) :
    (trace σ (renderFrame ops ps spotSwitch)).filterMap targetWrite
      = [(σ.framebuffer, TargetWrite.clear true true),
          (Framebuffer.depthMap1FBO, TargetWrite.clear false true)]
        ++ List.replicate 5
            (Framebuffer.depthMap1FBO, TargetWrite.draw (some Shader.depthShader))
        ++ [(Framebuffer.depthMap2FBO, TargetWrite.clear false true)]
        ++ List.replicate 5
            (Framebuffer.depthMap2FBO, TargetWrite.draw (some Shader.depthShader))
        ++ [(Framebuffer.default, TargetWrite.clear true true)]
        ++ List.replicate 6 (Framebuffer.default, TargetWrite.draw (some Shader.ourShader))
        ++ [(Framebuffer.default, TargetWrite.draw (some Shader.skyboxShader))] := by
  rw [filterMap_trace_erase targetWrite targetWrite targetWrite_erase _ σ _
    (coreEq_coreState σ), renderFrame_erase, frameSkeleton_writes]

theorem renderFrame_binds (ops : FloatOps K) (ps : ProgramState K) (spotSwitch : Bool) :
    (renderFrame ops ps spotSwitch).filterMap Cmd.boundFramebuffer
      = [Framebuffer.depthMap1FBO, Framebuffer.default, Framebuffer.depthMap2FBO,
          Framebuffer.default] := by
  have h : (renderFrame ops ps spotSwitch).filterMap Cmd.boundFramebuffer
      = ((renderFrame ops ps spotSwitch).map Cmd.erase).filterMap Cmd.boundFramebuffer := by
    rw [List.filterMap_map]
    congr 1
    funext c
    exact (boundFramebuffer_erase c).symm
  rw [h, renderFrame_erase, frameSkeleton_binds]

theorem litPass_start_framebuffer (ops : FloatOps K) (ps : ProgramState K) (σ : GLState K) :
    (run σ ([Cmd.clearColor 0.1 0.1 0.1 1.0, Cmd.clear true true] ++ depthPass1 ops ps
      ++ depthPass2 ops ps)).framebuffer = Framebuffer.default := by
  rw [run_framebuffer, boundAfter_append, depthPass2_eq, boundAfter_append]
  rfl

theorem renderFrame_run_framebuffer (ops : FloatOps K) (ps : ProgramState K)
    (spotSwitch : Bool) (σ : GLState K) :
    (run σ (renderFrame ops ps spotSwitch)).framebuffer = Framebuffer.default := by
  have h := (coreEq_coreState σ).run (renderFrame ops ps spotSwitch)
  rw [h.1, renderFrame_erase, frameSkeleton_run_framebuffer]

theorem loopEntry_framebuffer : (loopEntry K).framebuffer = Framebuffer.default := by
  have h := (coreEq_coreState (glInitial K SCR_WIDTH SCR_HEIGHT)).run (setup (K := K))
  rw [loopEntry, h.1]
  have he : (setup (K := K)).map Cmd.erase = (setup (K := ℚ)).map Cmd.erase := rfl
  rw [he]
  show (run (coreState Framebuffer.default none DepthFunc.GL_LESS) _).framebuffer = _
  decide!

/-! ## The uploaded face matrices -/

theorem shadowProj_eq (ops : FloatOps K) :
    shadowProj ops = perspective ops (radians ops 90) 1 1 25 := by
  simp only [shadowProj, SHADOW_WIDTH, SHADOW_HEIGHT, near_plane, far_plane]
  norm_num

theorem shadowTransforms_eq_spec (ops : FloatOps K) (L : Vec3 K) :
    shadowTransforms ops L = (List.finRange 6).map (specShadowMatrix ops L) := by
  have h6 : List.finRange 6 = [0, 1, 2, 3, 4, 5] := by decide
  rw [h6]
  simp only [shadowTransforms, shadowViews, shadowLookAtArgs, List.map_cons, List.map_nil,
    shadowProj_eq]
  norm_num
  exact ⟨rfl, rfl, rfl, rfl, rfl, rfl⟩

theorem uploadShadowMatrices_eq_spec (ops : FloatOps K) (L : Vec3 K) :
    uploadShadowMatrices (shadowTransforms ops L)
      = (List.finRange 6).map fun k =>
          Cmd.setMat4 Shader.depthShader (shadowMatricesName k) (specShadowMatrix ops L k) := by
  rw [shadowTransforms_eq_spec]
  have h6 : List.finRange 6 = [0, 1, 2, 3, 4, 5] := by decide
  rw [h6]
  rfl

/-- C3: for each of the two lights, the six matrices uploaded as
`shadowMatrices[0..5]` in that light's depth pass are, index by index,
`perspective(90°, 1, 1, 25) * lookAt(L, L + d_i, u_i)` with `(d_i, u_i)` in the
canonical face order (`+X` up `-Y`, `-X` up `-Y`, `+Y` up `+Z`, `-Y` up `-Z`,
`+Z` up `-Y`, `-Z` up `-Y`); the aspect ratio `SHADOW_WIDTH / SHADOW_HEIGHT` is
exactly `1`, `near = 1`, `far = 25`, and the one projection `shadowProj` is
used for all twelve matrices. -/
theorem C3_uploaded_shadow_matrices (ops : FloatOps K) (ps : ProgramState K)
    (spotSwitch : Bool) :
    (∀ i : Fin 2,
      issuedWhileBound (depthMapFBO i) Framebuffer.default (renderFrame ops ps spotSwitch)
        = [Cmd.clear false true, Cmd.use Shader.depthShader]
          ++ ((List.finRange 6).map fun k =>
              Cmd.setMat4 Shader.depthShader (shadowMatricesName k)
                (specShadowMatrix ops (lightPos i) k))
          ++ [Cmd.setFloat Shader.depthShader "far_plane" 25,
              Cmd.setVec3 Shader.depthShader "lightPos" (lightPos i)]
          ++ renderScene ops ps Shader.depthShader
          ++ [Cmd.bindFramebuffer Framebuffer.default])
    ∧ shadowTransforms1 ops = (List.finRange 6).map (specShadowMatrix ops (lightPos 0))
    ∧ shadowTransforms2 ops = (List.finRange 6).map (specShadowMatrix ops (lightPos 1))
    ∧ (List.finRange 6).map (fun k : Fin 6 => shadowMatricesName k)
        = ["shadowMatrices[0]", "shadowMatrices[1]", "shadowMatrices[2]", "shadowMatrices[3]",
            "shadowMatrices[4]", "shadowMatrices[5]"]
    ∧ ((SHADOW_WIDTH : K) / (SHADOW_HEIGHT : K) = 1 ∧ (near_plane : K) = 1
        ∧ (far_plane : K) = 25)
    ∧ shadowProj ops = perspective ops (radians ops 90) 1 1 25 := by
  refine ⟨fun i => ?_, shadowTransforms_eq_spec ops _, shadowTransforms_eq_spec ops _,
    by decide, ⟨?_, ?_, ?_⟩, shadowProj_eq ops⟩
  · rw [issuedWhileBound_renderFrame, uploadShadowMatrices_eq_spec]
    have h25 : (far_plane : K) = 25 := by norm_num [far_plane]
    rw [h25]
  · norm_num [SHADOW_WIDTH, SHADOW_HEIGHT]
  · norm_num [near_plane]
  · norm_num [far_plane]

/-- C5: in a frame entered with the default framebuffer bound, each light has
exactly one depth write pass, into its own framebuffer (`depthMap1FBO` for
light 0, `depthMap2FBO` for light 1, which are distinct).  The frame binds
`depthMap1FBO`, the default, `depthMap2FBO`, the default, in this order and
nothing else; the only clear issued while a depth framebuffer is bound is a
depth-only clear, issued before the five draws into it, all drawn with the
depth-only shader; the commands issued while the framebuffer of light `i` is
bound are exactly: the depth clear, `depthShader.use()`, the six uploads
`shadowMatrices[k] = perspective(90°, 1, 1, 25) * lookAt(L_i, L_i + d_k, u_k)`
for the six faces `k` in the order `+X, -X, +Y, -Y, +Z, -Z`, the upload of
`far_plane = 25` and of that light's position `lightPos = L_i`, the commands of
`renderScene(depthShader)`, whose draws are the car, the lamps and the three
dumpsters, and the restoring `glBindFramebuffer(0)`; the two positions are
`(-1.74, 1.48, -0.12)` and `(1.74, 1.48, 0.12)`; the default framebuffer is
bound when the lit pass starts and when the frame ends. -/
theorem C5_one_depth_pass_per_light (ops : FloatOps K) (ps : ProgramState K)
    (spotSwitch : Bool) (σ : GLState K) (hσ : σ.framebuffer = Framebuffer.default) :
    depthMapFBO 0 ≠ depthMapFBO 1
    ∧ (renderFrame ops ps spotSwitch).filterMap Cmd.boundFramebuffer
        = [Framebuffer.depthMap1FBO, Framebuffer.default, Framebuffer.depthMap2FBO,
            Framebuffer.default]
    ∧ (trace σ (renderFrame ops ps spotSwitch)).filterMap targetWrite
        = [(Framebuffer.default, TargetWrite.clear true true),
            (Framebuffer.depthMap1FBO, TargetWrite.clear false true)]
          ++ List.replicate 5
              (Framebuffer.depthMap1FBO, TargetWrite.draw (some Shader.depthShader))
          ++ [(Framebuffer.depthMap2FBO, TargetWrite.clear false true)]
          ++ List.replicate 5
              (Framebuffer.depthMap2FBO, TargetWrite.draw (some Shader.depthShader))
          ++ [(Framebuffer.default, TargetWrite.clear true true)]
          ++ List.replicate 6 (Framebuffer.default, TargetWrite.draw (some Shader.ourShader))
          ++ [(Framebuffer.default, TargetWrite.draw (some Shader.skyboxShader))]
    ∧ (∀ i : Fin 2, issuedInto (depthMapFBO i) (trace σ (renderFrame ops ps spotSwitch))
        = [ Cmd.clear false true,
            Cmd.use Shader.depthShader,
            Cmd.setMat4 Shader.depthShader "shadowMatrices[0]"
              ((perspective ops (radians ops 90) 1 1 25).mul
                (lookAt ops (lightPos i) ((lightPos i).add ⟨1, 0, 0⟩) ⟨0, -1, 0⟩)),
            Cmd.setMat4 Shader.depthShader "shadowMatrices[1]"
              ((perspective ops (radians ops 90) 1 1 25).mul
                (lookAt ops (lightPos i) ((lightPos i).add ⟨-1, 0, 0⟩) ⟨0, -1, 0⟩)),
            Cmd.setMat4 Shader.depthShader "shadowMatrices[2]"
              ((perspective ops (radians ops 90) 1 1 25).mul
                (lookAt ops (lightPos i) ((lightPos i).add ⟨0, 1, 0⟩) ⟨0, 0, 1⟩)),
            Cmd.setMat4 Shader.depthShader "shadowMatrices[3]"
              ((perspective ops (radians ops 90) 1 1 25).mul
                (lookAt ops (lightPos i) ((lightPos i).add ⟨0, -1, 0⟩) ⟨0, 0, -1⟩)),
            Cmd.setMat4 Shader.depthShader "shadowMatrices[4]"
              ((perspective ops (radians ops 90) 1 1 25).mul
                (lookAt ops (lightPos i) ((lightPos i).add ⟨0, 0, 1⟩) ⟨0, -1, 0⟩)),
            Cmd.setMat4 Shader.depthShader "shadowMatrices[5]"
              ((perspective ops (radians ops 90) 1 1 25).mul
                (lookAt ops (lightPos i) ((lightPos i).add ⟨0, 0, -1⟩) ⟨0, -1, 0⟩)),
            Cmd.setFloat Shader.depthShader "far_plane" 25,
            Cmd.setVec3 Shader.depthShader "lightPos" (lightPos i) ]
          ++ renderScene ops ps Shader.depthShader
          ++ [Cmd.bindFramebuffer Framebuffer.default])
    ∧ (∀ i : Fin 2,
        (issuedInto (depthMapFBO i) (trace σ (renderFrame ops ps spotSwitch))).filter Cmd.isDraw
          = [ Cmd.drawModel Model.AE86 Shader.depthShader,
              Cmd.drawModel Model.lamps Shader.depthShader,
              Cmd.drawModel Model.dumpster Shader.depthShader,
              Cmd.drawModel Model.dumpster Shader.depthShader,
              Cmd.drawModel Model.dumpster Shader.depthShader ])
    ∧ ((lightPos 0 : Vec3 K) = ⟨-174 / 100, 148 / 100, -12 / 100⟩
        ∧ (lightPos 1 : Vec3 K) = ⟨174 / 100, 148 / 100, 12 / 100⟩)
    ∧ (run σ ([Cmd.clearColor 0.1 0.1 0.1 1.0, Cmd.clear true true] ++ depthPass1 ops ps
        ++ depthPass2 ops ps)).framebuffer = Framebuffer.default
    ∧ (run σ (renderFrame ops ps spotSwitch)).framebuffer = Framebuffer.default := by
  have hissued : ∀ i : Fin 2,
      issuedInto (depthMapFBO i) (trace σ (renderFrame ops ps spotSwitch))
        = [ Cmd.clear false true,
            Cmd.use Shader.depthShader,
            Cmd.setMat4 Shader.depthShader "shadowMatrices[0]"
              ((perspective ops (radians ops 90) 1 1 25).mul
                (lookAt ops (lightPos i) ((lightPos i).add ⟨1, 0, 0⟩) ⟨0, -1, 0⟩)),
            Cmd.setMat4 Shader.depthShader "shadowMatrices[1]"
              ((perspective ops (radians ops 90) 1 1 25).mul
                (lookAt ops (lightPos i) ((lightPos i).add ⟨-1, 0, 0⟩) ⟨0, -1, 0⟩)),
            Cmd.setMat4 Shader.depthShader "shadowMatrices[2]"
              ((perspective ops (radians ops 90) 1 1 25).mul
                (lookAt ops (lightPos i) ((lightPos i).add ⟨0, 1, 0⟩) ⟨0, 0, 1⟩)),
            Cmd.setMat4 Shader.depthShader "shadowMatrices[3]"
              ((perspective ops (radians ops 90) 1 1 25).mul
                (lookAt ops (lightPos i) ((lightPos i).add ⟨0, -1, 0⟩) ⟨0, 0, -1⟩)),
            Cmd.setMat4 Shader.depthShader "shadowMatrices[4]"
              ((perspective ops (radians ops 90) 1 1 25).mul
                (lookAt ops (lightPos i) ((lightPos i).add ⟨0, 0, 1⟩) ⟨0, -1, 0⟩)),
            Cmd.setMat4 Shader.depthShader "shadowMatrices[5]"
              ((perspective ops (radians ops 90) 1 1 25).mul
                (lookAt ops (lightPos i) ((lightPos i).add ⟨0, 0, -1⟩) ⟨0, -1, 0⟩)),
            Cmd.setFloat Shader.depthShader "far_plane" 25,
            Cmd.setVec3 Shader.depthShader "lightPos" (lightPos i) ]
          ++ renderScene ops ps Shader.depthShader
          ++ [Cmd.bindFramebuffer Framebuffer.default] := by
    intro i
    have h25 : (far_plane : K) = 25 := by norm_num [far_plane]
    have h6 : List.finRange 6 = [0, 1, 2, 3, 4, 5] := by decide
    rw [issuedInto_trace, hσ, issuedWhileBound_renderFrame, uploadShadowMatrices_eq_spec, h25, h6]
    rfl
  refine ⟨by decide, renderFrame_binds ops ps spotSwitch, ?_, hissued, ?_, ⟨?_, ?_⟩,
    litPass_start_framebuffer ops ps σ, renderFrame_run_framebuffer ops ps spotSwitch σ⟩
  · rw [renderFrame_writes, hσ]
  · intro i
    rw [hissued i]
    rfl
  · simp only [lightPos, Vec3.mk.injEq]
    norm_num
  · simp only [lightPos, Vec3.mk.injEq]
    norm_num

/-- Witness of C5: the first frame of the program started without a settings
file, issued in the context at loop entry. -/
theorem C5_one_depth_pass_per_light_witness :
    (loopEntry ℚ).framebuffer = Framebuffer.default
    ∧ (∀ i : Fin 2,
        issuedInto (depthMapFBO i) (trace (loopEntry ℚ) (renderFrame ratOps defaultState false))
        = [ Cmd.clear false true,
            Cmd.use Shader.depthShader,
            Cmd.setMat4 Shader.depthShader "shadowMatrices[0]"
              ((perspective ratOps (radians ratOps 90) 1 1 25).mul
                (lookAt ratOps (lightPos i) ((lightPos i).add ⟨1, 0, 0⟩) ⟨0, -1, 0⟩)),
            Cmd.setMat4 Shader.depthShader "shadowMatrices[1]"
              ((perspective ratOps (radians ratOps 90) 1 1 25).mul
                (lookAt ratOps (lightPos i) ((lightPos i).add ⟨-1, 0, 0⟩) ⟨0, -1, 0⟩)),
            Cmd.setMat4 Shader.depthShader "shadowMatrices[2]"
              ((perspective ratOps (radians ratOps 90) 1 1 25).mul
                (lookAt ratOps (lightPos i) ((lightPos i).add ⟨0, 1, 0⟩) ⟨0, 0, 1⟩)),
            Cmd.setMat4 Shader.depthShader "shadowMatrices[3]"
              ((perspective ratOps (radians ratOps 90) 1 1 25).mul
                (lookAt ratOps (lightPos i) ((lightPos i).add ⟨0, -1, 0⟩) ⟨0, 0, -1⟩)),
            Cmd.setMat4 Shader.depthShader "shadowMatrices[4]"
              ((perspective ratOps (radians ratOps 90) 1 1 25).mul
                (lookAt ratOps (lightPos i) ((lightPos i).add ⟨0, 0, 1⟩) ⟨0, -1, 0⟩)),
            Cmd.setMat4 Shader.depthShader "shadowMatrices[5]"
              ((perspective ratOps (radians ratOps 90) 1 1 25).mul
                (lookAt ratOps (lightPos i) ((lightPos i).add ⟨0, 0, -1⟩) ⟨0, -1, 0⟩)),
            Cmd.setFloat Shader.depthShader "far_plane" 25,
            Cmd.setVec3 Shader.depthShader "lightPos" (lightPos i) ]
          ++ renderScene ratOps defaultState Shader.depthShader
          ++ [Cmd.bindFramebuffer Framebuffer.default])
    ∧ (run (loopEntry ℚ) (renderFrame ratOps defaultState false)).framebuffer
        = Framebuffer.default :=
  ⟨loopEntry_framebuffer,
   (C5_one_depth_pass_per_light ratOps defaultState false (loopEntry ℚ)
      loopEntry_framebuffer).2.2.2.1,
   (C5_one_depth_pass_per_light ratOps defaultState false (loopEntry ℚ)
      loopEntry_framebuffer).2.2.2.2.2.2.2⟩

end DepthPasses


section SettingsFacts

variable {K : Type} [LinearOrderedField K]

/-! ## The settings file -/

/-- The load is the extraction of the flag followed by the chain of eight
`float` extractions, in file order. -/
theorem LoadFromFile_chain (io : FloatText K) (text : List Char) (s : ProgramState K) :
    (LoadFromFile io (some text) s).ImGuiEnabled
        = (extractBool ⟨text, false⟩ s.ImGuiEnabled).2
    ∧ persistedFloats (LoadFromFile io (some text) s)
        = (extractFloats io (extractBool ⟨text, false⟩ s.ImGuiEnabled).1
            (persistedFloats s)).2 :=
  ⟨rfl, rfl⟩

/-! ### Failed extractions -/

theorem extractFloat_of_fail (io : FloatText K) (s : IStream) (old : K)
    (h : s.fail = true) : extractFloat io s old = (s, old) := by
  simp only [extractFloat, h, if_true]

theorem extractFloats_of_fail (io : FloatText K) (s : IStream) (olds : List K)
    (h : s.fail = true) : extractFloats io s olds = (s, olds) := by
  induction olds with
  | nil => rfl
  | cons x xs ih => simp only [extractFloats, extractFloat_of_fail io s x h, ih]

theorem extractFloats_append (io : FloatText K) (s : IStream) (a b : List K) :
    extractFloats io s (a ++ b)
      = ((extractFloats io (extractFloats io s a).1 b).1,
          (extractFloats io s a).2 ++ (extractFloats io (extractFloats io s a).1 b).2) := by
  induction a generalizing s with
  | nil => rfl
  | cons x xs ih =>
    rw [List.cons_append]
    simp only [extractFloats]
    rw [ih]
    rfl

theorem extractFloats_length (io : FloatText K) (s : IStream) (olds : List K) :
    (extractFloats io s olds).2.length = olds.length := by
  induction olds generalizing s with
  | nil => rfl
  | cons x xs ih => simp only [extractFloats, List.length_cons, ih]

/-- The value a failing `float` extraction leaves: the old one at end of file,
otherwise `0` for a field that is no number, or the out-of-range value. -/
theorem extractFloat_failure (io : FloatText K) (s : IStream) (old : K)
    (hs : s.fail = false) (hf : (extractFloat io s old).1.fail = true) :
    (s.buf.dropWhile isSpace = [] ∧ (extractFloat io s old).2 = old)
    ∨ (s.buf.dropWhile isSpace ≠ []
        ∧ ((decimalValue (scanFloat (s.buf.dropWhile isSpace)).1 = none
            ∧ (extractFloat io s old).2 = 0)
          ∨ ∃ q, decimalValue (scanFloat (s.buf.dropWhile isSpace)).1 = some q
              ∧ (io.round q).2 = false ∧ (extractFloat io s old).2 = (io.round q).1)) := by
  unfold extractFloat at hf ⊢
  simp only [hs, Bool.false_eq_true, if_false] at hf ⊢
  cases hb : s.buf.dropWhile isSpace with
  | nil => exact Or.inl ⟨rfl, rfl⟩
  | cons c cs =>
    right
    refine ⟨List.cons_ne_nil _ _, ?_⟩
    rw [hb] at hf
    simp only at hf ⊢
    cases hd : decimalValue (scanFloat (c :: cs)).1 with
    | none => exact Or.inl ⟨rfl, rfl⟩
    | some q =>
      right
      rw [hd] at hf
      simp only [Bool.not_eq_true'] at hf
      exact ⟨q, rfl, hf, rfl⟩

/-- The value a succeeding `float` extraction stores: the rounding of the
decimal value of the field read. -/
theorem extractFloat_success (io : FloatText K) (s : IStream) (old : K)
    (hf : (extractFloat io s old).1.fail = false) :
    ∃ q, decimalValue (scanFloat (s.buf.dropWhile isSpace)).1 = some q
      ∧ (io.round q).2 = true ∧ (extractFloat io s old).2 = (io.round q).1 := by
  unfold extractFloat at hf ⊢
  by_cases hs : s.fail = true
  · simp only [hs, if_true] at hf
    cases hf
  · have hs' : s.fail = false := by simpa using hs
    simp only [hs', Bool.false_eq_true, if_false] at hf ⊢
    cases hb : s.buf.dropWhile isSpace with
    | nil => rw [hb] at hf; cases hf
    | cons c cs =>
      rw [hb] at hf
      simp only at hf ⊢
      cases hd : decimalValue (scanFloat (c :: cs)).1 with
      | none => rw [hd] at hf; cases hf
      | some q =>
        rw [hd] at hf
        simp only [Bool.not_eq_false'] at hf
        exact ⟨q, rfl, hf, rfl⟩

/-- A `bool` extraction at end of file leaves the old value. -/
theorem extractBool_eof (s : IStream) (old : Bool)
    (hb : s.buf.dropWhile isSpace = []) : (extractBool s old).2 = old := by
  unfold extractBool
  split
  · rfl
  · simp only [hb]

theorem LoadFromFile_untouched (io : FloatText K) (file : Option (List Char))
    (s : ProgramState K) :
    (LoadFromFile io file s).ae86pos.y = s.ae86pos.y
    ∧ (LoadFromFile io file s).ae86angle = s.ae86angle
    ∧ (LoadFromFile io file s).shadows = s.shadows
    ∧ (LoadFromFile io file s).CameraMouseMovementUpdateEnabled
        = s.CameraMouseMovementUpdateEnabled
    ∧ (LoadFromFile io file s).directionLight = s.directionLight
    ∧ (LoadFromFile io file s).camera.Up = s.camera.Up
    ∧ (LoadFromFile io file s).camera.Zoom = s.camera.Zoom := by
  cases file <;> exact ⟨rfl, rfl, rfl, rfl, rfl, rfl, rfl⟩

end SettingsFacts


section Digits

/-! ## Decimal digits -/

theorem digitChar_isDigit (d : Nat) (h : d < 10) : (Nat.digitChar d).isDigit = true := by
  interval_cases d <;> rfl

theorem digitValue_digitChar (d : Nat) (h : d < 10) : digitValue (Nat.digitChar d) = d := by
  interval_cases d <;> rfl

theorem digitChar_ne_zero (d : Nat) (h : d < 10) (h0 : d ≠ 0) : Nat.digitChar d ≠ '0' := by
  interval_cases d <;> first | exact absurd rfl h0 | decide

/-- A digit is none of the other characters of a numeral and no white space. -/
theorem isDigit_ne (c : Char) (h : c.isDigit = true) :
    c ≠ '+' ∧ c ≠ '-' ∧ c ≠ '.' ∧ c ≠ 'e' ∧ c ≠ 'E' ∧ isSpace c = false := by
  refine ⟨?_, ?_, ?_, ?_, ?_, ?_⟩
  · rintro rfl; exact absurd h (by decide)
  · rintro rfl; exact absurd h (by decide)
  · rintro rfl; exact absurd h (by decide)
  · rintro rfl; exact absurd h (by decide)
  · rintro rfl; exact absurd h (by decide)
  · simp only [isSpace, Bool.or_eq_false_iff, decide_eq_false_iff_not]
    refine ⟨⟨⟨⟨⟨?_, ?_⟩, ?_⟩, ?_⟩, ?_⟩, ?_⟩ <;> (rintro rfl; exact absurd h (by decide))

theorem digitsValue_foldl (acc : Nat) (ds : List Char) :
    ds.foldl (fun a c => 10 * a + digitValue c) acc
      = acc * 10 ^ ds.length + digitsValue ds := by
  induction ds generalizing acc with
  | nil => simp [digitsValue]
  | cons c cs ih =>
    simp only [List.foldl_cons, List.length_cons, digitsValue]
    rw [ih, ih (10 * 0 + digitValue c)]
    ring

theorem digitsValue_nil : digitsValue [] = 0 := rfl

theorem digitsValue_cons (c : Char) (cs : List Char) :
    digitsValue (c :: cs) = digitValue c * 10 ^ cs.length + digitsValue cs := by
  simp only [digitsValue, List.foldl_cons]
  rw [digitsValue_foldl]
  simp [digitsValue]

theorem digitsValue_append (a b : List Char) :
    digitsValue (a ++ b) = digitsValue a * 10 ^ b.length + digitsValue b := by
  simp only [digitsValue, List.foldl_append]
  rw [digitsValue_foldl]
  rfl

theorem digitsValue_replicate_zero (k : Nat) : digitsValue (List.replicate k '0') = 0 := by
  induction k with
  | zero => rfl
  | succ k ih =>
    rw [List.replicate_succ, digitsValue_cons, ih]
    simp [digitValue]

theorem fixedDigits_succ (w m : Nat) :
    fixedDigits (w + 1) m = Nat.digitChar (m / 10 ^ w % 10) :: fixedDigits w m := by
  simp only [fixedDigits, List.range_succ, List.reverse_append, List.reverse_singleton,
    List.singleton_append, List.map_cons]

theorem fixedDigits_length (w m : Nat) : (fixedDigits w m).length = w := by
  simp only [fixedDigits, List.length_map, List.length_reverse, List.length_range]

theorem fixedDigits_isDigit (w m : Nat) : ∀ c ∈ fixedDigits w m, c.isDigit = true := by
  intro c hc
  simp only [fixedDigits, List.mem_map] at hc
  obtain ⟨i, _, rfl⟩ := hc
  exact digitChar_isDigit _ (Nat.mod_lt _ (by decide))

theorem digitsValue_fixedDigits (w m : Nat) : digitsValue (fixedDigits w m) = m % 10 ^ w := by
  induction w with
  | zero => simp [fixedDigits, digitsValue, Nat.mod_one]
  | succ w ih =>
    rw [fixedDigits_succ, digitsValue_cons, ih, fixedDigits_length,
      digitValue_digitChar _ (Nat.mod_lt _ (by decide)), Nat.mod_pow_succ]
    ring

theorem stripTrailingZeros_spec (ds : List Char) :
    ∃ k, ds = stripTrailingZeros ds ++ List.replicate k '0' := by
  refine ⟨(ds.reverse.takeWhile (· = '0')).length, ?_⟩
  have h1 : ds.reverse = ds.reverse.takeWhile (· = '0') ++ ds.reverse.dropWhile (· = '0') :=
    (List.takeWhile_append_dropWhile _ _).symm
  have h2 : ds.reverse.takeWhile (· = '0')
      = List.replicate (ds.reverse.takeWhile (· = '0')).length '0' := by
    rw [List.eq_replicate_iff]
    refine ⟨rfl, ?_⟩
    intro c hc
    have := List.mem_takeWhile_imp hc
    simpa using this
  have h3 : ds = (ds.reverse.dropWhile (· = '0')).reverse
      ++ (ds.reverse.takeWhile (· = '0')).reverse := by
    rw [← List.reverse_append, ← h1, List.reverse_reverse]
  rw [h2, List.reverse_replicate] at h3
  exact h3

theorem stripTrailingZeros_isDigit (ds : List Char) (h : ∀ c ∈ ds, c.isDigit = true) :
    ∀ c ∈ stripTrailingZeros ds, c.isDigit = true := by
  intro c hc
  obtain ⟨k, hk⟩ := stripTrailingZeros_spec ds
  apply h
  rw [hk]
  exact List.mem_append_left _ hc

theorem decimalDigitsAux_spec (fuel n : Nat) (acc : List Char) (hf : n < fuel)
    (hacc : ∀ c ∈ acc, c.isDigit = true) :
    (∀ c ∈ decimalDigitsAux fuel n acc, c.isDigit = true)
    ∧ decimalDigitsAux fuel n acc ≠ []
    ∧ digitsValue (decimalDigitsAux fuel n acc) = n * 10 ^ acc.length + digitsValue acc := by
  induction fuel generalizing n acc with
  | zero => exact absurd hf (Nat.not_lt_zero _)
  | succ fuel ih =>
    unfold decimalDigitsAux
    by_cases h10 : n < 10
    · simp only [h10, if_true]
      refine ⟨?_, List.cons_ne_nil _ _, ?_⟩
      · intro c hc
        rcases List.mem_cons.1 hc with rfl | hc
        · exact digitChar_isDigit _ h10
        · exact hacc c hc
      · rw [digitsValue_cons, digitValue_digitChar _ h10]
    · simp only [h10, if_false]
      have hlt : n / 10 < fuel := by omega
      have hacc' : ∀ c ∈ Nat.digitChar (n % 10) :: acc, c.isDigit = true := by
        intro c hc
        rcases List.mem_cons.1 hc with rfl | hc
        · exact digitChar_isDigit _ (Nat.mod_lt _ (by decide))
        · exact hacc c hc
      obtain ⟨h1, h2, h3⟩ := ih (n / 10) (Nat.digitChar (n % 10) :: acc) hlt hacc'
      refine ⟨h1, h2, ?_⟩
      rw [h3, digitsValue_cons, digitValue_digitChar _ (Nat.mod_lt _ (by decide)),
        List.length_cons, pow_succ]
      have hn : n = 10 * (n / 10) + n % 10 := (Nat.div_add_mod n 10).symm
      generalize n / 10 = a at hn ⊢
      generalize n % 10 = b at hn ⊢
      subst hn
      ring

theorem decimalDigits_spec (n : Nat) :
    (∀ c ∈ decimalDigits n, c.isDigit = true) ∧ decimalDigits n ≠ []
    ∧ digitsValue (decimalDigits n) = n := by
  have h := decimalDigitsAux_spec (n + 1) n [] (Nat.lt_succ_self n) (fun c hc => by cases hc)
  simpa [decimalDigits, digitsValue_nil] using h

end Digits

section Scanner

/-! ## Scanning a printed numeral -/

theorem takeWhile_digits (ds : List Char) (hds : ∀ c ∈ ds, c.isDigit = true) (tl : List Char)
    (htl : ∀ c, tl.head? = some c → c.isDigit = false) :
    (ds ++ tl).takeWhile Char.isDigit = ds ∧ (ds ++ tl).dropWhile Char.isDigit = tl := by
  induction ds with
  | nil =>
    cases tl with
    | nil => exact ⟨rfl, rfl⟩
    | cons c r =>
      have hc := htl c rfl
      simp only [List.nil_append, List.takeWhile_cons, List.dropWhile_cons, hc,
        Bool.false_eq_true, if_false, and_self]
  | cons c cs ih =>
    have hc := hds c (List.mem_cons_self _ _)
    have h := ih fun d hd => hds d (List.mem_cons_of_mem _ hd)
    simp only [List.cons_append, List.takeWhile_cons, List.dropWhile_cons, hc, if_true, h.1, h.2,
      and_self]

theorem scanFloatLoop_digit (c : Char) (hc : c.isDigit = true) (fm fd fs ae : Bool)
    (tl : List Char) :
    scanFloatLoop fm fd fs ae (c :: tl)
      = (c :: (scanFloatLoop true fd fs false tl).1, (scanFloatLoop true fd fs false tl).2) := by
  obtain ⟨h1, h2, _, _, _, _⟩ := isDigit_ne c hc
  rw [scanFloatLoop]
  simp only [h1, h2, decide_False, Bool.or_self, Bool.and_false, Bool.false_eq_true, if_false,
    hc, if_true]

theorem scanFloatLoop_digits (ds : List Char) (hds : ∀ c ∈ ds, c.isDigit = true)
    (fm fd fs ae : Bool) (tl : List Char) :
    scanFloatLoop fm fd fs ae (ds ++ tl)
      = (ds ++ (scanFloatLoop (fm || !ds.isEmpty) fd fs (ae && ds.isEmpty) tl).1,
          (scanFloatLoop (fm || !ds.isEmpty) fd fs (ae && ds.isEmpty) tl).2) := by
  induction ds generalizing fm ae with
  | nil => simp
  | cons c cs ih =>
    have hc := hds c (List.mem_cons_self _ _)
    have h := ih (fun d hd => hds d (List.mem_cons_of_mem _ hd)) true false
    rw [List.cons_append, scanFloatLoop_digit c hc, h]
    simp only [Bool.true_or, Bool.false_and, List.cons_append, List.isEmpty_cons,
      Bool.not_false, Bool.or_true, Bool.and_false]

theorem scanFloatLoop_point (fm ae : Bool) (tl : List Char) :
    scanFloatLoop fm false false ae ('.' :: tl)
      = ('.' :: (scanFloatLoop fm true false false tl).1,
          (scanFloatLoop fm true false false tl).2) := by
  cases fm <;> cases ae <;> rfl

theorem scanFloatLoop_e (fd ae : Bool) (tl : List Char) :
    scanFloatLoop true fd false ae ('e' :: tl)
      = ('e' :: (scanFloatLoop true fd true true tl).1,
          (scanFloatLoop true fd true true tl).2) := by
  cases fd <;> cases ae <;> rfl

theorem scanFloatLoop_sign (fm fd fs eneg : Bool) (tl : List Char) :
    scanFloatLoop fm fd fs true ((if eneg then '-' else '+') :: tl)
      = ((if eneg then '-' else '+') :: (scanFloatLoop fm fd fs false tl).1,
          (scanFloatLoop fm fd fs false tl).2) := by
  cases fm <;> cases fd <;> cases fs <;> cases eneg <;> rfl

theorem isSpace_cases (w : Char) (hw : isSpace w = true) :
    w = ' ' ∨ w = '\t' ∨ w = '\n' ∨ w = '\x0b' ∨ w = '\x0c' ∨ w = '\r' := by
  simpa only [isSpace, Bool.or_eq_true, decide_eq_true_eq, or_assoc] using hw

theorem isSpace_not_digit (w : Char) (hw : isSpace w = true) : w.isDigit = false := by
  rcases isSpace_cases w hw with h | h | h | h | h | h <;> subst h <;> rfl

theorem isDigit_not_space (c : Char) (hc : c.isDigit = true) : isSpace c = false := by
  cases h : isSpace c with
  | false => rfl
  | true =>
    have := isSpace_not_digit c h
    rw [hc] at this
    cases this

/-- A whitespace character ends the field. -/
theorem scanFloatLoop_space (w : Char) (hw : isSpace w = true) (fm fd fs ae : Bool)
    (tl : List Char) :
    scanFloatLoop fm fd fs ae (w :: tl) = ([], w :: tl) := by
  rcases isSpace_cases w hw with h | h | h | h | h | h <;> subst h <;>
    cases fm <;> cases fd <;> cases fs <;> cases ae <;> rfl

theorem scanFloatLoop_exponent (exp : Option (Bool × List Char))
    (hexp : ∀ eneg ds, exp = some (eneg, ds) → (∀ c ∈ ds, c.isDigit = true) ∧ ds ≠ [])
    (fd : Bool) (w : Char) (hw : isSpace w = true) (rest : List Char) :
    scanFloatLoop true fd false false (exponentText exp ++ w :: rest)
      = (exponentText exp, w :: rest) := by
  cases exp with
  | none => exact scanFloatLoop_space w hw _ _ _ _ _
  | some p =>
    obtain ⟨eneg, ds⟩ := p
    obtain ⟨hds, _⟩ := hexp eneg ds rfl
    simp only [exponentText, List.cons_append]
    rw [scanFloatLoop_e, scanFloatLoop_sign, scanFloatLoop_digits ds hds,
      scanFloatLoop_space w hw]
    simp

theorem scanFloatLoop_tail (frac : List Char) (hfrac : ∀ c ∈ frac, c.isDigit = true)
    (exp : Option (Bool × List Char))
    (hexp : ∀ eneg ds, exp = some (eneg, ds) → (∀ c ∈ ds, c.isDigit = true) ∧ ds ≠ [])
    (w : Char) (hw : isSpace w = true) (rest : List Char) :
    scanFloatLoop true false false false (fractionText frac ++ exponentText exp ++ w :: rest)
      = (fractionText frac ++ exponentText exp, w :: rest) := by
  cases frac with
  | nil =>
    simp only [fractionText, List.isEmpty_nil, if_true, List.nil_append]
    exact scanFloatLoop_exponent exp hexp false w hw rest
  | cons c cs =>
    simp only [fractionText, List.isEmpty_cons, Bool.false_eq_true, if_false, List.cons_append,
      List.append_assoc]
    rw [scanFloatLoop_point, ← List.cons_append, scanFloatLoop_digits (c :: cs) hfrac]
    simp only [Bool.true_or, Bool.false_and, scanFloatLoop_exponent exp hexp true w hw rest,
      List.cons_append]

theorem takeSign_sign (neg : Bool) (d : Char) (hd : d.isDigit = true) (tl : List Char) :
    takeSign ((if neg then ['-'] else []) ++ d :: tl) = ((if neg then ['-'] else []), d :: tl) := by
  obtain ⟨h1, h2, _, _, _, _⟩ := isDigit_ne d hd
  cases neg
  · simp only [Bool.false_eq_true, if_false, List.nil_append, takeSign, h1, h2, or_self]
  · simp only [if_true, List.singleton_append, takeSign]
    rfl

/-- The text after the integer part of a numeral does not start with a digit. -/
theorem tail_head_not_digit (frac : List Char) (exp : Option (Bool × List Char))
    (rest : List Char) (hrest : ∀ c, rest.head? = some c → c.isDigit = false) :
    ∀ c, (fractionText frac ++ exponentText exp ++ rest).head? = some c → c.isDigit = false := by
  intro c hc
  cases frac with
  | cons a as =>
    simp only [fractionText, List.isEmpty_cons, Bool.false_eq_true, if_false, List.cons_append,
      List.head?_cons, Option.some.injEq] at hc
    subst hc; rfl
  | nil =>
    cases exp with
    | some p =>
      obtain ⟨eneg, ds⟩ := p
      simp only [fractionText, List.isEmpty_nil, if_true, exponentText, List.nil_append,
        List.cons_append, List.head?_cons, Option.some.injEq] at hc
      subst hc; rfl
    | none =>
      simp only [fractionText, List.isEmpty_nil, if_true, exponentText, List.nil_append] at hc
      exact hrest c hc

theorem exponentText_head_not_digit (exp : Option (Bool × List Char)) :
    ∀ c, (exponentText exp).head? = some c → c.isDigit = false := by
  intro c hc
  cases exp with
  | some p =>
    obtain ⟨eneg, ds⟩ := p
    simp only [exponentText, List.head?_cons, Option.some.injEq] at hc
    subst hc; rfl
  | none => cases hc

/-- Stage 2 on a printed numeral followed by whitespace takes the numeral and
stops at the whitespace. -/
theorem scanFloat_render (n : Numeral) (hn : n.WellFormed) (w : Char) (hw : isSpace w = true)
    (rest : List Char) :
    scanFloat (n.render ++ w :: rest) = (n.render, w :: rest) := by
  obtain ⟨hint, hne, hz, hfrac, hexp⟩ := hn
  obtain ⟨neg, int, frac, exp⟩ := n
  simp only at hint hne hz hfrac hexp
  cases int with
  | nil => exact absurd rfl hne
  | cons d ds =>
    have hd := hint d (List.mem_cons_self _ _)
    have hT := tail_head_not_digit frac exp (w :: rest)
      (fun c hc => by
        simp only [List.head?_cons, Option.some.injEq] at hc
        subst hc; exact isSpace_not_digit _ hw)
    have hsign : takeSign ((if neg then ['-'] else []) ++ d
        :: (ds ++ (fractionText frac ++ exponentText exp ++ w :: rest)))
        = ((if neg then ['-'] else []),
            d :: (ds ++ (fractionText frac ++ exponentText exp ++ w :: rest))) :=
      takeSign_sign neg d hd _
    have hshape : Numeral.render ⟨neg, d :: ds, frac, exp⟩ ++ w :: rest
        = (if neg then ['-'] else []) ++ d
          :: (ds ++ (fractionText frac ++ exponentText exp ++ w :: rest)) := by
      simp only [Numeral.render, List.append_assoc, List.cons_append]
    have htail := scanFloatLoop_tail frac hfrac exp hexp w hw rest
    rw [List.append_assoc] at htail
    rw [hshape]
    unfold scanFloat
    simp only [hsign]
    rcases hz with hz | hz
    · have hd0 : d ≠ '0' := by
        intro h
        apply hz
        rw [h]
        rfl
      have htw : (d :: (ds ++ (fractionText frac ++ exponentText exp ++ w :: rest))).takeWhile
          (· = '0') = [] := by
        simp only [List.takeWhile_cons, hd0, decide_False, Bool.false_eq_true, if_false]
      have hdw : (d :: (ds ++ (fractionText frac ++ exponentText exp ++ w :: rest))).dropWhile
          (· = '0') = d :: (ds ++ (fractionText frac ++ exponentText exp ++ w :: rest)) := by
        simp only [List.dropWhile_cons, hd0, decide_False, Bool.false_eq_true, if_false]
      rw [htw, hdw, ← List.cons_append, scanFloatLoop_digits (d :: ds) hint]
      simp only [List.isEmpty_nil, Bool.not_true, Bool.false_or, List.isEmpty_cons,
        Bool.not_false, Bool.false_and, if_true, List.append_nil,
        Numeral.render, List.append_assoc, htail]
    · obtain ⟨rfl, rfl⟩ : d = '0' ∧ ds = [] := by
        simpa using hz
      have hT0 : ∀ c, (fractionText frac ++ exponentText exp ++ w :: rest).head? = some c →
          c ≠ '0' := by
        intro c hc h0
        have := hT c hc
        rw [h0] at this
        exact absurd this (by decide)
      have htw : ('0' :: ([] ++ (fractionText frac ++ exponentText exp
          ++ w :: rest))).takeWhile (· = '0') = ['0'] := by
        rw [List.nil_append]
        cases hl : fractionText frac ++ exponentText exp ++ w :: rest with
        | nil => rfl
        | cons c cs =>
          have hc0 := hT0 c (by rw [hl]; rfl)
          simp only [List.takeWhile_cons, decide_True, if_true, hc0, decide_False,
            Bool.false_eq_true, if_false]
      have hdw : ('0' :: ([] ++ (fractionText frac ++ exponentText exp
          ++ w :: rest))).dropWhile (· = '0')
          = fractionText frac ++ exponentText exp ++ w :: rest := by
        rw [List.nil_append]
        cases hl : fractionText frac ++ exponentText exp ++ w :: rest with
        | nil => rfl
        | cons c cs =>
          have hc0 := hT0 c (by rw [hl]; rfl)
          simp only [List.dropWhile_cons, decide_True, if_true, hc0, decide_False,
            Bool.false_eq_true, if_false]
      rw [htw, hdw]
      simp only [List.isEmpty_cons, Bool.not_false, Bool.false_eq_true, if_false,
        Numeral.render, List.append_assoc,
        List.singleton_append, List.cons_append, List.nil_append, htail]

theorem takeFraction_tail (frac : List Char) (hfrac : ∀ c ∈ frac, c.isDigit = true)
    (exp : Option (Bool × List Char)) :
    takeFraction (fractionText frac ++ exponentText exp) = (frac, exponentText exp) := by
  cases frac with
  | nil =>
    cases exp with
    | none => rfl
    | some p =>
      obtain ⟨eneg, ds⟩ := p
      rfl
  | cons c cs =>
    have h := takeWhile_digits (c :: cs) hfrac (exponentText exp) (exponentText_head_not_digit exp)
    simp only [fractionText, List.isEmpty_cons, Bool.false_eq_true, if_false, List.cons_append,
      takeFraction, if_true]
    rw [← List.cons_append, h.1, h.2]

theorem exponentValue_digits (eneg : Bool) (ds : List Char) (hds : ∀ c ∈ ds, c.isDigit = true)
    (hne : ds ≠ []) :
    exponentValue ((if eneg then '-' else '+') :: ds)
      = some (if eneg then -(digitsValue ds : ℤ) else (digitsValue ds : ℤ)) := by
  have hs : takeSign ((if eneg then '-' else '+') :: ds)
      = ([if eneg then '-' else '+'], ds) := by
    cases eneg <;> rfl
  have hall : ds.all Char.isDigit = true := List.all_eq_true.2 hds
  have hemp : ds.isEmpty = false := by
    cases ds with
    | nil => exact absurd rfl hne
    | cons c cs => rfl
  unfold exponentValue
  simp only [hs, hall, hemp, Bool.not_true, Bool.or_self, Bool.false_eq_true, if_false]
  cases eneg <;> simp

/-- The field of a printed numeral converts to the value of the numeral. -/
theorem decimalValue_render (n : Numeral) (hn : n.WellFormed) :
    decimalValue n.render = some n.value := by
  obtain ⟨hint, hne, hz, hfrac, hexp⟩ := hn
  obtain ⟨neg, int, frac, exp⟩ := n
  simp only at hint hne hz hfrac hexp
  cases int with
  | nil => exact absurd rfl hne
  | cons d ds =>
    have hd := hint d (List.mem_cons_self _ _)
    have hshape : Numeral.render ⟨neg, d :: ds, frac, exp⟩
        = (if neg then ['-'] else []) ++ d :: (ds ++ (fractionText frac ++ exponentText exp)) := by
      simp only [Numeral.render, List.append_assoc, List.cons_append]
    have hsign := takeSign_sign neg d hd (ds ++ (fractionText frac ++ exponentText exp))
    have htw := takeWhile_digits (d :: ds) hint (fractionText frac ++ exponentText exp)
      (by
        have := tail_head_not_digit frac exp [] (fun c hc => by cases hc)
        simpa using this)
    rw [List.cons_append] at htw
    have hneg : ((if neg then ['-'] else [] : List Char) = ['-']) ↔ neg = true := by
      cases neg <;> simp
    rw [hshape]
    unfold decimalValue
    simp only [hsign, htw.1, htw.2, takeFraction_tail frac hfrac exp, List.isEmpty_cons,
      Bool.false_and, Bool.false_eq_true, if_false, hneg, Numeral.value]
    cases exp with
    | none => simp only [exponentText]
    | some p =>
      obtain ⟨eneg, es⟩ := p
      obtain ⟨hes, hesne⟩ := hexp eneg es rfl
      simp only [exponentText, if_true, exponentValue_digits eneg es hes hesne, Option.map_some']

end Scanner

section Rounding

/-! ## Rounding -/

theorem roundHalfEven_cases (q : ℚ) :
    (roundHalfEven q = ⌊q⌋ ∧ q - ⌊q⌋ ≤ 1 / 2) ∨ (roundHalfEven q = ⌊q⌋ + 1 ∧ 1 / 2 ≤ q - ⌊q⌋) := by
  unfold roundHalfEven
  simp only
  split_ifs with h1 h2 h3
  · exact Or.inl ⟨rfl, le_of_lt h1⟩
  · exact Or.inr ⟨rfl, le_of_lt h2⟩
  · exact Or.inl ⟨rfl, not_lt.1 h2⟩
  · exact Or.inr ⟨rfl, not_lt.1 h1⟩

theorem roundHalfEven_abs_sub_le (q : ℚ) : |(roundHalfEven q : ℚ) - q| ≤ 1 / 2 := by
  have h1 : (⌊q⌋ : ℚ) ≤ q := Int.floor_le q
  have h2 : q < ⌊q⌋ + 1 := Int.lt_floor_add_one q
  rw [abs_le]
  rcases roundHalfEven_cases q with ⟨h, hh⟩ | ⟨h, hh⟩
  · rw [h]; constructor <;> linarith
  · rw [h]; push_cast; constructor <;> linarith

theorem le_roundHalfEven (q : ℚ) (n : ℤ) (h : (n : ℚ) ≤ q) : n ≤ roundHalfEven q := by
  have hn : n ≤ ⌊q⌋ := Int.le_floor.2 h
  rcases roundHalfEven_cases q with ⟨h', _⟩ | ⟨h', _⟩ <;> rw [h'] <;> omega

theorem roundHalfEven_le (q : ℚ) (n : ℤ) (h : q ≤ (n : ℚ)) : roundHalfEven q ≤ n := by
  have h1 : (⌊q⌋ : ℚ) ≤ q := Int.floor_le q
  rcases roundHalfEven_cases q with ⟨h', _⟩ | ⟨h', hh⟩
  · rw [h']
    exact_mod_cast le_trans h1 h
  · rw [h']
    have hlt : (⌊q⌋ : ℚ) < n := by linarith
    have : ⌊q⌋ < n := by exact_mod_cast hlt
    omega

/-- The six digits of `a > 0`: a mantissa `10 ^ 5 ≤ m < 10 ^ 6` with
`m * 10 ^ (X - 5)` within `a / 200000` of `a`. -/
theorem sixDigits_spec (a : ℚ) (ha : 0 < a) :
    10 ^ 5 ≤ (sixDigits a).1 ∧ (sixDigits a).1 < 10 ^ 6
    ∧ |((sixDigits a).1 : ℚ) * 10 ^ ((sixDigits a).2 - 5) - a| ≤ a / 200000 := by
  have hlo : (10 : ℚ) ^ Int.log 10 a ≤ a := by
    have := Int.zpow_log_le_self (b := 10) (r := a) (by norm_num) ha
    simpa using this
  have hhi : a < (10 : ℚ) ^ (Int.log 10 a + 1) := by
    have := Int.lt_zpow_succ_log_self (b := 10) (by norm_num) a
    simpa using this
  set e := Int.log 10 a with he
  have hpos : (0 : ℚ) < 10 ^ (e - 5) := zpow_pos (by norm_num) _
  have hsplit : (10 : ℚ) ^ e = 10 ^ (e - 5) * 10 ^ (5 : ℕ) := by
    rw [← zpow_natCast, ← zpow_add₀ (by norm_num : (10 : ℚ) ≠ 0)]
    congr 1
    omega
  have hsplit' : (10 : ℚ) ^ (e + 1) = 10 ^ (e - 5) * 10 ^ (6 : ℕ) := by
    rw [← zpow_natCast, ← zpow_add₀ (by norm_num : (10 : ℚ) ≠ 0)]
    congr 1
    omega
  set q := a / 10 ^ (e - 5) with hq
  have hq5 : ((10 ^ 5 : ℤ) : ℚ) ≤ q := by
    rw [hq, le_div_iff₀ hpos]
    push_cast
    rw [hsplit] at hlo
    linarith
  have hq6 : q ≤ ((10 ^ 6 : ℤ) : ℚ) := by
    rw [hq, div_le_iff₀ hpos]
    push_cast
    rw [hsplit'] at hhi
    linarith
  have hm5 := le_roundHalfEven q _ hq5
  have hm6 := roundHalfEven_le q _ hq6
  have herr := roundHalfEven_abs_sub_le q
  have hnn : 0 ≤ roundHalfEven q := le_trans (by norm_num) hm5
  have hcast : (((roundHalfEven q).toNat : ℕ) : ℚ) = (roundHalfEven q : ℚ) := by
    have := Int.toNat_of_nonneg hnn
    exact_mod_cast this
  have ha_eq : a = q * 10 ^ (e - 5) := by
    rw [hq, div_mul_cancel₀ _ (ne_of_gt hpos)]
  have herr2 : |(roundHalfEven q : ℚ) * 10 ^ (e - 5) - a| ≤ a / 200000 := by
    have h1 : (roundHalfEven q : ℚ) * 10 ^ (e - 5) - a
        = ((roundHalfEven q : ℚ) - q) * 10 ^ (e - 5) := by
      rw [ha_eq]; ring
    rw [h1, abs_mul, abs_of_pos hpos]
    have h2 : (10 : ℚ) ^ (e - 5) ≤ a / 100000 := by
      rw [le_div_iff₀ (by norm_num)]
      rw [hsplit] at hlo
      linarith
    calc |(roundHalfEven q : ℚ) - q| * 10 ^ (e - 5)
        ≤ 1 / 2 * 10 ^ (e - 5) := by
          exact mul_le_mul_of_nonneg_right herr (le_of_lt hpos)
      _ ≤ 1 / 2 * (a / 100000) := by
          exact mul_le_mul_of_nonneg_left h2 (by norm_num)
      _ = a / 200000 := by ring
  have htn5 : 10 ^ 5 ≤ (roundHalfEven q).toNat := by
    have : ((10 ^ 5 : ℕ) : ℤ) ≤ roundHalfEven q := by exact_mod_cast hm5
    omega
  have htn6 : (roundHalfEven q).toNat ≤ 10 ^ 6 := by
    have : roundHalfEven q ≤ ((10 ^ 6 : ℕ) : ℤ) := by exact_mod_cast hm6
    omega
  unfold sixDigits
  simp only [← he, ← hq]
  by_cases hm : (roundHalfEven q).toNat = 10 ^ 6
  · simp only [hm, if_true]
    refine ⟨le_refl _, by norm_num, ?_⟩
    have hv : ((10 ^ 5 : ℕ) : ℚ) * 10 ^ (e + 1 - 5) = (roundHalfEven q : ℚ) * 10 ^ (e - 5) := by
      rw [← hcast, hm]
      have : (10 : ℚ) ^ (e + 1 - 5) = 10 ^ (e - 5) * 10 := by
        rw [show e + 1 - 5 = (e - 5) + 1 by ring, zpow_add_one₀ (by norm_num : (10 : ℚ) ≠ 0)]
      rw [this]
      push_cast
      ring
    rw [hv]
    exact herr2
  · simp only [hm, if_false]
    refine ⟨htn5, lt_of_le_of_ne htn6 hm, ?_⟩
    rw [hcast]
    exact herr2

end Rounding

section Format

/-! ## The text `formatG` writes -/

theorem fixedDigits_six (m : Nat) (h5 : 10 ^ 5 ≤ m) (h6 : m < 10 ^ 6) :
    ∃ d rest, fixedDigits 6 m = d :: rest ∧ d.isDigit = true ∧ d ≠ '0' ∧ rest.length = 5
      ∧ (∀ c ∈ rest, c.isDigit = true) ∧ digitsValue (d :: rest) = m := by
  refine ⟨Nat.digitChar (m / 10 ^ 5 % 10), fixedDigits 5 m, fixedDigits_succ 5 m, ?_, ?_,
    fixedDigits_length 5 m, fixedDigits_isDigit 5 m, ?_⟩
  · exact digitChar_isDigit _ (Nat.mod_lt _ (by decide))
  · apply digitChar_ne_zero _ (Nat.mod_lt _ (by decide))
    omega
  · rw [← fixedDigits_succ, digitsValue_fixedDigits]
    exact Nat.mod_eq_of_lt h6

theorem digitsValue_strip (a fr : List Char) :
    ((digitsValue (a ++ stripTrailingZeros fr) : ℕ) : ℚ)
        / 10 ^ (stripTrailingZeros fr).length
      = ((digitsValue (a ++ fr) : ℕ) : ℚ) / 10 ^ fr.length := by
  obtain ⟨k, hk⟩ := stripTrailingZeros_spec fr
  generalize stripTrailingZeros fr = s at hk ⊢
  subst hk
  rw [← List.append_assoc, digitsValue_append (a ++ s), digitsValue_replicate_zero,
    List.length_append, List.length_replicate]
  push_cast
  rw [pow_add]
  field_simp
  ring

theorem digitsValue_zeros_append (k : Nat) (ds : List Char) :
    digitsValue (List.replicate k '0' ++ ds) = digitsValue ds := by
  rw [digitsValue_append, digitsValue_replicate_zero]
  simp

/-- The fixed style below one: `0.` then zeros then the stripped digits. -/
theorem numeralG_fixed_small (x : ℚ) (d : Char) (rest : List Char) (m : ℕ) (e : ℤ)
    (hlen : rest.length = 5)
    (hall : ∀ c ∈ d :: rest, c.isDigit = true) (hval : digitsValue (d :: rest) = m)
    (hsix : sixValue x = (if x < 0 then -1 else 1) * (m : ℚ) * 10 ^ (e - 5))
    (hneg : e < 0) :
    (Numeral.mk (decide (x < 0)) ['0']
        (List.replicate (-e - 1).toNat '0' ++ stripTrailingZeros (d :: rest)) none).WellFormed
    ∧ (Numeral.mk (decide (x < 0)) ['0']
        (List.replicate (-e - 1).toNat '0' ++ stripTrailingZeros (d :: rest)) none).value
      = sixValue x := by
  refine ⟨⟨?_, ?_, ?_, ?_, ?_⟩, ?_⟩
  · intro c hc
    simp only [List.mem_singleton] at hc
    subst hc; rfl
  · simp
  · exact Or.inr rfl
  · intro c hc
    rcases List.mem_append.1 hc with hc | hc
    · rw [List.eq_of_mem_replicate hc]; rfl
    · exact stripTrailingZeros_isDigit _ hall c hc
  · intro eneg es hes
    cases hes
  · rw [hsix]
    simp only [Numeral.value]
    have h1 : ((digitsValue (['0'] ++ (List.replicate (-e - 1).toNat '0'
          ++ stripTrailingZeros (d :: rest))) : ℕ) : ℚ)
        / 10 ^ (List.replicate (-e - 1).toNat '0'
          ++ stripTrailingZeros (d :: rest)).length
        = (m : ℚ) / 10 ^ ((-e - 1).toNat + 6) := by
      have h2 := digitsValue_strip (['0'] ++ List.replicate (-e - 1).toNat '0') (d :: rest)
      rw [List.append_assoc, List.append_assoc] at h2
      have h3 : digitsValue (['0'] ++ (List.replicate (-e - 1).toNat '0' ++ d :: rest)) = m := by
        rw [show (['0'] : List Char) = List.replicate 1 '0' from rfl, digitsValue_zeros_append,
          digitsValue_zeros_append, hval]
      rw [h3, List.length_cons, hlen] at h2
      rw [List.length_append, List.length_replicate, pow_add, ← div_div,
        div_right_comm, h2, div_div, ← pow_add]
      congr 2
      omega
    rw [h1]
    have hz : e - 5 = -(((-e - 1).toNat + 6 : ℕ) : ℤ) := by
      have : 0 ≤ -e - 1 := by omega
      push_cast
      rw [Int.toNat_of_nonneg this]
      ring
    rw [hz, zpow_neg, zpow_natCast]
    by_cases hx0 : x < 0
    · simp only [hx0, decide_True, if_true]
      ring
    · simp only [hx0, decide_False, Bool.false_eq_true, if_false]
      ring

/-- The fixed style from one on: the first `X + 1` digits, then the stripped
rest as fraction. -/
theorem numeralG_fixed_large (x : ℚ) (d : Char) (rest : List Char) (m : ℕ) (e : ℤ)
    (hd0 : d ≠ '0') (hlen : rest.length = 5)
    (hall : ∀ c ∈ d :: rest, c.isDigit = true) (hval : digitsValue (d :: rest) = m)
    (hsix : sixValue x = (if x < 0 then -1 else 1) * (m : ℚ) * 10 ^ (e - 5))
    (hsci : ¬ (e < -4 ∨ 6 ≤ e)) (hneg : ¬ e < 0) :
    (Numeral.mk (decide (x < 0)) ((d :: rest).take (e.toNat + 1))
        (stripTrailingZeros ((d :: rest).drop (e.toNat + 1))) none).WellFormed
    ∧ (Numeral.mk (decide (x < 0)) ((d :: rest).take (e.toNat + 1))
        (stripTrailingZeros ((d :: rest).drop (e.toNat + 1))) none).value
      = sixValue x := by
  have he0 : 0 ≤ e := not_lt.1 hneg
  have he6 : e < 6 := not_le.1 (fun h => hsci (Or.inr h))
  obtain ⟨n, rfl⟩ := Int.eq_ofNat_of_zero_le he0
  have hn : n < 6 := by exact_mod_cast he6
  simp only [Int.toNat_ofNat]
  refine ⟨⟨?_, ?_, ?_, ?_, ?_⟩, ?_⟩
  · intro c hc
    exact hall c (List.mem_of_mem_take hc)
  · simp
  · left
    simp only [List.take_succ_cons, List.head?_cons, ne_eq, Option.some.injEq]
    exact hd0
  · exact stripTrailingZeros_isDigit _ (fun c hc => hall c (List.mem_of_mem_drop hc))
  · intro eneg es hes
    cases hes
  · rw [hsix]
    simp only [Numeral.value]
    rw [digitsValue_strip, List.take_append_drop, hval, List.length_drop, List.length_cons,
      hlen]
    have hz : (n : ℤ) - 5 = -((5 + 1 - (n + 1) : ℕ) : ℤ) := by omega
    rw [hz, zpow_neg, zpow_natCast]
    by_cases hx0 : x < 0
    · simp only [hx0, decide_True, if_true]
      ring
    · simp only [hx0, decide_False, Bool.false_eq_true, if_false]
      ring

/-- The numeral `%g` prints for `x ≠ 0` is well formed and its value is `x`
rounded to six significant digits. -/
theorem numeralG_spec (x : ℚ) (hx : x ≠ 0) :
    (numeralG x).WellFormed ∧ (numeralG x).value = sixValue x := by
  have habs : 0 < |x| := abs_pos.2 hx
  obtain ⟨h5, h6, _⟩ := sixDigits_spec |x| habs
  obtain ⟨d, rest, hds, hd, hd0, hlen, hrest, hval⟩ := fixedDigits_six _ h5 h6
  have hall : ∀ c ∈ d :: rest, c.isDigit = true := by
    intro c hc
    rcases List.mem_cons.1 hc with rfl | hc
    · exact hd
    · exact hrest c hc
  have hsix : sixValue x = (if x < 0 then -1 else 1) * ((sixDigits |x|).1 : ℚ)
      * 10 ^ ((sixDigits |x|).2 - 5) := by
    simp only [sixValue, hx, if_false]
  generalize hm : (sixDigits |x|).1 = m at *
  generalize he : (sixDigits |x|).2 = e at *
  have h10 : (10 : ℚ) ≠ 0 := by norm_num
  unfold numeralG
  simp only [hm, he, hds]
  by_cases hsci : e < -4 ∨ 6 ≤ e
  · -- scientific style
    rw [if_pos hsci]
    refine ⟨⟨?_, ?_, ?_, ?_, ?_⟩, ?_⟩
    · intro c hc
      simp only [List.take_succ_cons, List.take_zero, List.mem_singleton] at hc
      subst hc; exact hd
    · simp
    · left
      simp only [List.take_succ_cons, List.take_zero, List.head?_cons, ne_eq,
        Option.some.injEq]
      exact hd0
    · exact stripTrailingZeros_isDigit _ (by simpa using hrest)
    · intro eneg es hes
      simp only [Option.some.injEq, Prod.mk.injEq] at hes
      obtain ⟨_, rfl⟩ := hes
      obtain ⟨k1, k2, _⟩ := decimalDigits_spec e.natAbs
      by_cases h10' : e.natAbs < 10
      · rw [if_pos h10']
        refine ⟨?_, List.cons_ne_nil _ _⟩
        intro c hc
        rcases List.mem_cons.1 hc with rfl | hc
        · rfl
        · exact k1 c hc
      · rw [if_neg h10']
        exact ⟨k1, k2⟩
    · rw [hsix]
      simp only [Numeral.value, List.take_succ_cons, List.take_zero, List.drop_succ_cons,
        List.drop_zero]
      rw [digitsValue_strip [d] rest, List.singleton_append, hval, hlen]
      have hexp : (if decide (e < 0) = true then
          -((digitsValue (if e.natAbs < 10 then '0' :: decimalDigits e.natAbs
              else decimalDigits e.natAbs) : ℕ) : ℤ)
          else ((digitsValue (if e.natAbs < 10 then '0' :: decimalDigits e.natAbs
              else decimalDigits e.natAbs) : ℕ) : ℤ)) = e := by
        have hdv : digitsValue (if e.natAbs < 10 then '0' :: decimalDigits e.natAbs
              else decimalDigits e.natAbs) = e.natAbs := by
          by_cases h10' : e.natAbs < 10
          · rw [if_pos h10', digitsValue_cons, (decimalDigits_spec _).2.2]
            simp [digitValue]
          · rw [if_neg h10']
            exact (decimalDigits_spec _).2.2
        rw [hdv]
        by_cases h0 : e < 0
        · simp only [h0, decide_True, if_true]; omega
        · simp only [h0, decide_False, Bool.false_eq_true, if_false]; omega
      rw [hexp, zpow_sub₀ h10]
      by_cases hx0 : x < 0
      · simp only [hx0, decide_True, if_true]
        norm_num
        ring
      · simp only [hx0, decide_False, Bool.false_eq_true, if_false]
        norm_num
        ring
  · rw [if_neg hsci]
    by_cases hneg : e < 0
    · -- fixed style, below one
      rw [if_pos hneg]
      exact numeralG_fixed_small x d rest m e hlen hall hval hsix hneg
    · -- fixed style, one or above
      rw [if_neg hneg]
      exact numeralG_fixed_large x d rest m e hd0 hlen hall hval hsix hsci hneg


/-- What `operator<<` writes for a `float` is a well-formed numeral whose
value is the `float` rounded to six significant digits. -/
theorem numeralOf_spec (x : ℚ) :
    (numeralOf x).WellFormed ∧ (numeralOf x).value = sixValue x := by
  by_cases hx : x = 0
  · simp only [numeralOf, hx, if_true]
    refine ⟨⟨?_, ?_, Or.inr rfl, ?_, ?_⟩, ?_⟩
    · intro c hc
      simp only [List.mem_singleton] at hc
      subst hc; rfl
    · simp
    · intro c hc; cases hc
    · intro eneg ds h; cases h
    · simp [Numeral.value, sixValue, digitsValue, digitValue]
  · simp only [numeralOf, hx, if_false]
    exact numeralG_spec x hx

theorem sixValue_abs_sub_le (x : ℚ) : |sixValue x - x| ≤ |x| / 200000 := by
  by_cases hx : x = 0
  · simp [sixValue, hx]
  · have h := (sixDigits_spec |x| (abs_pos.2 hx)).2.2
    simp only [sixValue, hx, if_false]
    by_cases hx0 : x < 0
    · simp only [hx0, if_true]
      rw [abs_of_neg hx0] at h ⊢
      have : -1 * ((sixDigits (-x)).1 : ℚ) * 10 ^ ((sixDigits (-x)).2 - 5) - x
          = -(((sixDigits (-x)).1 : ℚ) * 10 ^ ((sixDigits (-x)).2 - 5) - -x) := by ring
      rw [this, abs_neg]
      exact h
    · simp only [hx0, if_false]
      rw [abs_of_nonneg (not_lt.1 hx0)] at h ⊢
      rw [one_mul]
      exact h

/-- Within range, `strtof` does not overflow and its result is within half a
unit in the last place of the decimal value. -/
theorem roundFloat_spec (q : ℚ) (hq : |q| ≤ FLT_MAX) :
    (roundFloat q).2 = true ∧ |(roundFloat q).1 - q| ≤ |q| / 2 ^ 24 + 1 / 2 ^ 150 := by
  by_cases hq0 : q = 0
  · subst hq0
    simp [roundFloat]
  have habs : 0 < |q| := abs_pos.2 hq0
  have h2 : (2 : ℚ) ≠ 0 := by norm_num
  have hlog127 : Int.log 2 |q| < 128 := by
    rw [← Int.lt_zpow_iff_log_lt (by norm_num) habs]
    refine lt_of_le_of_lt hq ?_
    norm_num [FLT_MAX]
  set e := max (Int.log 2 |q|) (-126) with he
  have he127 : e ≤ 127 := by
    rw [he]
    exact max_le (by omega) (by norm_num)
  have he126 : -126 ≤ e := le_max_right _ _
  have hulp : (0 : ℚ) < 2 ^ (e - 23) := zpow_pos (by norm_num) _
  have herr := roundHalfEven_abs_sub_le (q / 2 ^ (e - 23))
  have hdiff : |(roundHalfEven (q / 2 ^ (e - 23)) : ℚ) * 2 ^ (e - 23) - q|
      ≤ 1 / 2 * 2 ^ (e - 23) := by
    have h1 : (roundHalfEven (q / 2 ^ (e - 23)) : ℚ) * 2 ^ (e - 23) - q
        = ((roundHalfEven (q / 2 ^ (e - 23)) : ℚ) - q / 2 ^ (e - 23)) * 2 ^ (e - 23) := by
      field_simp
    rw [h1, abs_mul, abs_of_pos hulp]
    exact mul_le_mul_of_nonneg_right herr (le_of_lt hulp)
  have hhalf : (1 : ℚ) / 2 * 2 ^ (e - 23) ≤ |q| / 2 ^ 24 + 1 / 2 ^ 150 := by
    by_cases hcase : -126 ≤ Int.log 2 |q|
    · have hee : e = Int.log 2 |q| := by
        rw [he]; exact max_eq_left hcase
      have hlo : (2 : ℚ) ^ e ≤ |q| := by
        rw [hee]
        have := Int.zpow_log_le_self (b := 2) (r := |q|) (by norm_num) habs
        simpa using this
      have h3 : (1 : ℚ) / 2 * 2 ^ (e - 23) = 2 ^ e / 2 ^ 24 := by
        rw [zpow_sub₀ h2]
        norm_num
        ring
      rw [h3]
      have h4 : (2 : ℚ) ^ e / 2 ^ 24 ≤ |q| / 2 ^ 24 :=
        div_le_div_of_nonneg_right hlo (by norm_num)
      have h5 : (0 : ℚ) ≤ 1 / 2 ^ 150 := by norm_num
      linarith
    · have hee : e = -126 := by
        rw [he]; exact max_eq_right (by omega)
      rw [hee]
      have h3 : (1 : ℚ) / 2 * 2 ^ ((-126 : ℤ) - 23) = 1 / 2 ^ 150 := by
        rw [show ((-126 : ℤ) - 23) = -(149 : ℕ) by norm_num, zpow_neg, zpow_natCast]
        norm_num
      rw [h3]
      have : (0 : ℚ) ≤ |q| / 2 ^ 24 := div_nonneg (abs_nonneg _) (by norm_num)
      linarith
  -- the bound `FLT_MAX` is a multiple of the spacing
  have hN : FLT_MAX = (((2 ^ 24 - 1) * 2 ^ (127 - e).toNat : ℤ) : ℚ) * 2 ^ (e - 23) := by
    have hnn : 0 ≤ 127 - e := by omega
    push_cast
    rw [← zpow_natCast (2 : ℚ) (127 - e).toNat, Int.toNat_of_nonneg hnn, mul_assoc,
      ← zpow_add₀ h2]
    rw [show 127 - e + (e - 23) = (104 : ℕ) by push_cast; ring, zpow_natCast]
    norm_num [FLT_MAX]
  have hle : |(roundHalfEven (q / 2 ^ (e - 23)) : ℚ) * 2 ^ (e - 23)| ≤ FLT_MAX := by
    have hq1 := abs_le.1 hq
    rw [abs_le]
    constructor
    · have : (-((2 ^ 24 - 1) * 2 ^ (127 - e).toNat : ℤ)) ≤ roundHalfEven (q / 2 ^ (e - 23)) := by
        apply le_roundHalfEven
        rw [le_div_iff₀ hulp]
        push_cast
        push_cast at hN
        rw [neg_mul, ← hN]
        exact hq1.1
      have h' : ((-((2 ^ 24 - 1) * 2 ^ (127 - e).toNat : ℤ) : ℤ) : ℚ)
          ≤ (roundHalfEven (q / 2 ^ (e - 23)) : ℚ) := by exact_mod_cast this
      have := mul_le_mul_of_nonneg_right h' (le_of_lt hulp)
      rw [hN]
      push_cast at this ⊢
      linarith
    · have : roundHalfEven (q / 2 ^ (e - 23)) ≤ ((2 ^ 24 - 1) * 2 ^ (127 - e).toNat : ℤ) := by
        apply roundHalfEven_le
        rw [div_le_iff₀ hulp, ← hN]
        exact hq1.2
      have h' : (roundHalfEven (q / 2 ^ (e - 23)) : ℚ)
          ≤ (((2 ^ 24 - 1) * 2 ^ (127 - e).toNat : ℤ) : ℚ) := by exact_mod_cast this
      have := mul_le_mul_of_nonneg_right h' (le_of_lt hulp)
      rw [hN]
      exact this
  unfold roundFloat
  simp only [hq0, if_false, ← he, not_lt.2 hle]
  exact ⟨trivial, le_trans hdiff hhalf⟩

end Format

section ReadBack

/-! ## The value read back -/

/-- The six-digit value of `a > 0` is the rounding of `a` on the grid of
spacing `10 ^ (e - 5)`, where `10 ^ e ≤ a < 10 ^ (e + 1)`. -/
theorem sixDigits_value (a : ℚ) (ha : 0 < a) :
    ((sixDigits a).1 : ℚ) * 10 ^ ((sixDigits a).2 - 5)
      = (roundHalfEven (a / 10 ^ (Int.log 10 a - 5)) : ℚ) * 10 ^ (Int.log 10 a - 5)
    ∧ roundHalfEven (a / 10 ^ (Int.log 10 a - 5)) ≤ 10 ^ 6 := by
  have hlo : (10 : ℚ) ^ Int.log 10 a ≤ a := by
    have := Int.zpow_log_le_self (b := 10) (r := a) (by norm_num) ha
    simpa using this
  have hhi : a < (10 : ℚ) ^ (Int.log 10 a + 1) := by
    have := Int.lt_zpow_succ_log_self (b := 10) (by norm_num) a
    simpa using this
  set e := Int.log 10 a with he
  have hpos : (0 : ℚ) < 10 ^ (e - 5) := zpow_pos (by norm_num) _
  have hsplit : (10 : ℚ) ^ e = 10 ^ (e - 5) * 10 ^ (5 : ℕ) := by
    rw [← zpow_natCast, ← zpow_add₀ (by norm_num : (10 : ℚ) ≠ 0)]
    congr 1
    omega
  have hsplit' : (10 : ℚ) ^ (e + 1) = 10 ^ (e - 5) * 10 ^ (6 : ℕ) := by
    rw [← zpow_natCast, ← zpow_add₀ (by norm_num : (10 : ℚ) ≠ 0)]
    congr 1
    omega
  set q := a / 10 ^ (e - 5) with hq
  have hq5 : ((10 ^ 5 : ℤ) : ℚ) ≤ q := by
    rw [hq, le_div_iff₀ hpos]
    push_cast
    rw [hsplit] at hlo
    linarith
  have hq6 : q ≤ ((10 ^ 6 : ℤ) : ℚ) := by
    rw [hq, div_le_iff₀ hpos]
    push_cast
    rw [hsplit'] at hhi
    linarith
  have hm5 := le_roundHalfEven q _ hq5
  have hm6 := roundHalfEven_le q _ hq6
  have hnn : 0 ≤ roundHalfEven q := le_trans (by norm_num) hm5
  have hcast : (((roundHalfEven q).toNat : ℕ) : ℚ) = (roundHalfEven q : ℚ) := by
    have := Int.toNat_of_nonneg hnn
    exact_mod_cast this
  refine ⟨?_, hm6⟩
  unfold sixDigits
  simp only [← he, ← hq]
  by_cases hm : (roundHalfEven q).toNat = 10 ^ 6
  · simp only [hm, if_true]
    rw [← hcast, hm]
    have : (10 : ℚ) ^ (e + 1 - 5) = 10 ^ (e - 5) * 10 := by
      rw [show e + 1 - 5 = (e - 5) + 1 by ring, zpow_add_one₀ (by norm_num : (10 : ℚ) ≠ 0)]
    rw [this]
    push_cast
    ring
  · simp only [hm, if_false]
    rw [hcast]

/-- The absolute value of the six-digit value. -/
theorem abs_sixValue (x : ℚ) (hx : x ≠ 0) :
    |sixValue x| = (roundHalfEven (|x| / 10 ^ (Int.log 10 |x| - 5)) : ℚ)
      * 10 ^ (Int.log 10 |x| - 5)
    ∧ |sixValue x - x| ≤ 1 / 2 * 10 ^ (Int.log 10 |x| - 5) := by
  have habs : 0 < |x| := abs_pos.2 hx
  obtain ⟨hval, _⟩ := sixDigits_value |x| habs
  have h5 := (sixDigits_spec |x| habs).1
  have hpos : (0 : ℚ) < 10 ^ (Int.log 10 |x| - 5) := zpow_pos (by norm_num) _
  have hpos2 : (0 : ℚ) < 10 ^ ((sixDigits |x|).2 - 5) := zpow_pos (by norm_num) _
  have hnn : (0 : ℚ) ≤ ((sixDigits |x|).1 : ℚ) * 10 ^ ((sixDigits |x|).2 - 5) :=
    mul_nonneg (Nat.cast_nonneg _) (le_of_lt hpos2)
  have herr := roundHalfEven_abs_sub_le (|x| / 10 ^ (Int.log 10 |x| - 5))
  have herr2 : |((sixDigits |x|).1 : ℚ) * 10 ^ ((sixDigits |x|).2 - 5) - (|x|)|
      ≤ 1 / 2 * 10 ^ (Int.log 10 |x| - 5) := by
    rw [hval]
    have h1 : (roundHalfEven (|x| / 10 ^ (Int.log 10 |x| - 5)) : ℚ)
          * 10 ^ (Int.log 10 |x| - 5) - |x|
        = ((roundHalfEven (|x| / 10 ^ (Int.log 10 |x| - 5)) : ℚ)
          - |x| / 10 ^ (Int.log 10 |x| - 5)) * 10 ^ (Int.log 10 |x| - 5) := by
      field_simp
    rw [h1, abs_mul, abs_of_pos hpos]
    exact mul_le_mul_of_nonneg_right herr (le_of_lt hpos)
  simp only [sixValue, hx, if_false]
  by_cases hx0 : x < 0
  · simp only [hx0, if_true]
    constructor
    · rw [← hval, mul_assoc, neg_one_mul, abs_neg, abs_of_nonneg hnn]
    · have : -1 * ((sixDigits |x|).1 : ℚ) * 10 ^ ((sixDigits |x|).2 - 5) - x
          = -(((sixDigits |x|).1 : ℚ) * 10 ^ ((sixDigits |x|).2 - 5) - |x|) := by
        rw [abs_of_neg hx0]; ring
      rw [this, abs_neg]
      exact herr2
  · simp only [hx0, if_false]
    constructor
    · rw [← hval, one_mul, abs_of_nonneg hnn]
    · have : 1 * ((sixDigits |x|).1 : ℚ) * 10 ^ ((sixDigits |x|).2 - 5) - x
          = ((sixDigits |x|).1 : ℚ) * 10 ^ ((sixDigits |x|).2 - 5) - |x| := by
        rw [abs_of_nonneg (not_lt.1 hx0)]; ring
      rw [this]
      exact herr2

/-- Six digits of a finite `float` stay in the range of `float`. -/
theorem sixValue_inRange (x : ℚ) (hx : |x| ≤ FLT_MAX) : |sixValue x| ≤ FLT_MAX := by
  by_cases hx0 : x = 0
  · subst hx0
    simp only [sixValue, if_true, abs_zero]
    norm_num [FLT_MAX]
  have habs : 0 < |x| := abs_pos.2 hx0
  obtain ⟨hval, _⟩ := abs_sixValue x hx0
  obtain ⟨_, hm6⟩ := sixDigits_value |x| habs
  have h10 : (10 : ℚ) ≠ 0 := by norm_num
  have hlog : Int.log 10 |x| < 39 := by
    rw [← Int.lt_zpow_iff_log_lt (by norm_num) habs]
    refine lt_of_le_of_lt hx ?_
    norm_num [FLT_MAX]
  set e := Int.log 10 |x| with he
  have hpos : (0 : ℚ) < 10 ^ (e - 5) := zpow_pos (by norm_num) _
  rw [hval]
  by_cases hcase : e ≤ 37
  · have h6 : (roundHalfEven (|x| / 10 ^ (e - 5)) : ℚ) ≤ 10 ^ (6 : ℕ) := by exact_mod_cast hm6
    have h1 : (roundHalfEven (|x| / 10 ^ (e - 5)) : ℚ) * 10 ^ (e - 5)
        ≤ 10 ^ (6 : ℕ) * 10 ^ (e - 5) := mul_le_mul_of_nonneg_right h6 (le_of_lt hpos)
    have h2 : (10 : ℚ) ^ (6 : ℕ) * 10 ^ (e - 5) = 10 ^ (e + 1) := by
      rw [← zpow_natCast, ← zpow_add₀ h10]
      congr 1
      omega
    have h3 : (10 : ℚ) ^ (e + 1) ≤ 10 ^ (38 : ℤ) :=
      zpow_le_zpow_right₀ (by norm_num) (by omega)
    have h4 : (10 : ℚ) ^ (38 : ℤ) ≤ FLT_MAX := by norm_num [FLT_MAX]
    linarith
  · have he38 : e = 38 := by omega
    rw [he38]
    have hp : (10 : ℚ) ^ ((38 : ℤ) - 5) = 10 ^ (33 : ℕ) := by
      rw [show ((38 : ℤ) - 5) = ((33 : ℕ) : ℤ) by norm_num, zpow_natCast]
    rw [hp]
    have herr := roundHalfEven_abs_sub_le (|x| / 10 ^ (33 : ℕ))
    have hq : |x| / 10 ^ (33 : ℕ) < 340282 + 1 / 2 := by
      rw [div_lt_iff₀ (by norm_num)]
      refine lt_of_le_of_lt hx ?_
      norm_num [FLT_MAX]
    have hlt : (roundHalfEven (|x| / 10 ^ (33 : ℕ)) : ℚ) < ((340283 : ℤ) : ℚ) := by
      have := (abs_le.1 herr).2
      push_cast
      linarith
    have hle : roundHalfEven (|x| / 10 ^ (33 : ℕ)) ≤ 340282 := by
      have : roundHalfEven (|x| / 10 ^ (33 : ℕ)) < 340283 := by exact_mod_cast hlt
      omega
    have hle' : (roundHalfEven (|x| / 10 ^ (33 : ℕ)) : ℚ) ≤ 340282 := by exact_mod_cast hle
    have h1 : (roundHalfEven (|x| / 10 ^ (33 : ℕ)) : ℚ) * 10 ^ (33 : ℕ)
        ≤ 340282 * 10 ^ (33 : ℕ) := mul_le_mul_of_nonneg_right hle' (by norm_num)
    have h4 : (340282 : ℚ) * 10 ^ (33 : ℕ) ≤ FLT_MAX := by norm_num [FLT_MAX]
    linarith

/-- A finite `float` that is written and read back is converted without a range
error. -/
theorem readBack_inRange (x : ℚ) (hx : |x| ≤ FLT_MAX) :
    (roundFloat (sixValue x)).2 = true :=
  (roundFloat_spec (sixValue x) (sixValue_inRange x hx)).1

/-- The value read back is within six significant digits of the value
written. -/
theorem readBack_abs_sub_le (x : ℚ) (hx : |x| ≤ FLT_MAX) :
    |readBack x - x| ≤ 6 / 10 ^ 6 * |x| + 1 / 2 ^ 150 := by
  have h1 := (roundFloat_spec (sixValue x) (sixValue_inRange x hx)).2
  have h2 := sixValue_abs_sub_le x
  have h3 : |sixValue x| ≤ |x| + |x| / 200000 := by
    have := abs_sub_abs_le_abs_sub (sixValue x) x
    linarith
  have h4 : |readBack x - x| ≤ |readBack x - sixValue x| + |sixValue x - x| := by
    have := abs_add (readBack x - sixValue x) (sixValue x - x)
    simpa using this
  have h5 : |sixValue x| / 2 ^ 24 ≤ (|x| + |x| / 200000) / 2 ^ 24 :=
    div_le_div_of_nonneg_right h3 (by norm_num)
  have hx0 : 0 ≤ |x| := abs_nonneg x
  unfold readBack at h4 ⊢
  have h6 : (|x| + |x| / 200000) / 2 ^ 24 + |x| / 200000 ≤ 6 / 10 ^ 6 * |x| := by
    norm_num
    linarith
  linarith

/-- A value of magnitude at most `1` is read back within `10 ^ (-6)`. -/
theorem readBack_abs_sub_le_small (x : ℚ) (hx : |x| ≤ 1) :
    |readBack x - x| ≤ 1 / 10 ^ 6 := by
  have hmax : (1 : ℚ) ≤ FLT_MAX := by norm_num [FLT_MAX]
  by_cases hx0 : x = 0
  · subst hx0
    have : readBack 0 = 0 := by
      simp [readBack, sixValue, roundFloat]
    rw [this]
    norm_num
  by_cases hx1 : |x| = 1
  · have hcases : x = 1 ∨ x = -1 := by
      rcases abs_choice x with h | h
      · left; rw [← h]; exact hx1
      · right; rw [h] at hx1; linarith
    have e1 : readBack 1 = 1 := by decide!
    have e2 : readBack (-1) = -1 := by decide!
    rcases hcases with h | h
    · rw [h, e1]; norm_num
    · rw [h, e2]; norm_num
  have hlt : |x| < 1 := lt_of_le_of_ne hx hx1
  have habs : 0 < |x| := abs_pos.2 hx0
  have hlog : Int.log 10 |x| < 0 := by
    rw [← Int.lt_zpow_iff_log_lt (by norm_num) habs]
    simpa using hlt
  have herr := (abs_sixValue x hx0).2
  have hpow : (10 : ℚ) ^ (Int.log 10 |x| - 5) ≤ 10 ^ (-6 : ℤ) :=
    zpow_le_zpow_right₀ (by norm_num) (by omega)
  have hpow' : (10 : ℚ) ^ (-6 : ℤ) = 1 / 10 ^ 6 := by norm_num
  have h2 : |sixValue x - x| ≤ 1 / 2 * (1 / 10 ^ 6) := by
    rw [← hpow']
    exact le_trans herr (mul_le_mul_of_nonneg_left hpow (by norm_num))
  have h1 := (roundFloat_spec (sixValue x) (sixValue_inRange x (le_trans hx hmax))).2
  have h3 : |sixValue x| ≤ |x| + 1 / 2 * (1 / 10 ^ 6) := by
    have := abs_sub_abs_le_abs_sub (sixValue x) x
    linarith
  have h4 : |readBack x - x| ≤ |readBack x - sixValue x| + |sixValue x - x| := by
    have := abs_add (readBack x - sixValue x) (sixValue x - x)
    simpa using this
  have h5 : |sixValue x| / 2 ^ 24 ≤ (1 + 1 / 2 * (1 / 10 ^ 6)) / 2 ^ 24 :=
    div_le_div_of_nonneg_right (by linarith) (by norm_num)
  unfold readBack at h4 ⊢
  have h6 : (1 + 1 / 2 * (1 / 10 ^ 6)) / 2 ^ 24 + 1 / 2 ^ 150 + 1 / 2 * (1 / 10 ^ 6)
      ≤ (1 : ℚ) / 10 ^ 6 := by norm_num
  linarith

end ReadBack

section Tokens

variable {K : Type} [LinearOrderedField K]

/-! ## Reading whitespace-separated values -/

theorem dropWhile_isSpace (ws : List Char) (hws : ∀ c ∈ ws, isSpace c = true) (c : Char)
    (cs : List Char) (hc : isSpace c = false) :
    (ws ++ c :: cs).dropWhile isSpace = c :: cs := by
  induction ws with
  | nil => simp only [List.nil_append, List.dropWhile_cons, hc, Bool.false_eq_true, if_false]
  | cons a as ih =>
    have ha := hws a (List.mem_cons_self _ _)
    simp only [List.cons_append, List.dropWhile_cons, ha, if_true]
    exact ih fun d hd => hws d (List.mem_cons_of_mem _ hd)

/-- A printed numeral starts with a character that is not whitespace. -/
theorem render_head (n : Numeral) (hn : n.WellFormed) :
    ∃ c cs, n.render = c :: cs ∧ isSpace c = false := by
  obtain ⟨hint, hne, _, _, _⟩ := hn
  obtain ⟨neg, int, frac, exp⟩ := n
  simp only at hint hne
  cases int with
  | nil => exact absurd rfl hne
  | cons d ds =>
    have hd := hint d (List.mem_cons_self _ _)
    cases neg
    · exact ⟨d, ds ++ fractionText frac ++ exponentText exp, by simp [Numeral.render],
        isDigit_not_space d hd⟩
    · exact ⟨'-', d :: ds ++ fractionText frac ++ exponentText exp, by simp [Numeral.render],
        rfl⟩

/-- A printed numeral holds no whitespace. -/
theorem render_no_space (n : Numeral) (hn : n.WellFormed) :
    ∀ c ∈ n.render, isSpace c = false := by
  obtain ⟨hint, _, _, hfrac, hexp⟩ := hn
  obtain ⟨neg, int, frac, exp⟩ := n
  simp only at hint hfrac hexp
  intro c hc
  simp only [Numeral.render, List.mem_append] at hc
  rcases hc with ((hc | hc) | hc) | hc
  · cases neg
    · cases hc
    · simp only [if_true, List.mem_singleton] at hc
      subst hc; rfl
  · exact isDigit_not_space c (hint c hc)
  · cases frac with
    | nil => cases hc
    | cons a as =>
      simp only [fractionText, List.isEmpty_cons, Bool.false_eq_true, if_false,
        List.mem_cons] at hc
      rcases hc with h | h | h
      · subst h; rfl
      · subst h; exact isDigit_not_space _ (hfrac _ (List.mem_cons_self _ _))
      · exact isDigit_not_space c (hfrac c (List.mem_cons_of_mem _ h))
  · cases exp with
    | none => cases hc
    | some p =>
      obtain ⟨eneg, ds⟩ := p
      simp only [exponentText, List.mem_cons] at hc
      rcases hc with h | h | h
      · subst h; rfl
      · subst h; cases eneg <;> rfl
      · exact isDigit_not_space c ((hexp eneg ds rfl).1 c h)

theorem render_ne_nil (n : Numeral) (hn : n.WellFormed) : n.render ≠ [] := by
  obtain ⟨c, cs, h, _⟩ := render_head n hn
  rw [h]
  exact List.cons_ne_nil _ _

/-- The extraction of a `float` from whitespace, a printed numeral and a
whitespace character: the numeral is consumed and its rounded value stored. -/
theorem extractFloat_render (io : FloatText K) (ws : List Char)
    (hws : ∀ c ∈ ws, isSpace c = true) (n : Numeral) (hn : n.WellFormed)
    (w : Char) (hw : isSpace w = true) (rest : List Char) (old : K) :
    extractFloat io ⟨ws ++ (n.render ++ w :: rest), false⟩ old
      = (⟨w :: rest, !(io.round n.value).2⟩, (io.round n.value).1) := by
  obtain ⟨c, cs, hr, hc⟩ := render_head n hn
  have hdw : (ws ++ (n.render ++ w :: rest)).dropWhile isSpace = c :: (cs ++ w :: rest) := by
    rw [hr, List.cons_append]
    exact dropWhile_isSpace ws hws c _ hc
  have hscan : scanFloat (c :: (cs ++ w :: rest)) = (n.render, w :: rest) := by
    rw [← List.cons_append, ← hr]
    exact scanFloat_render n hn w hw rest
  unfold extractFloat
  simp only [Bool.false_eq_true, if_false, hdw, hscan, decimalValue_render n hn]

/-- The extraction of a `bool` from whitespace, the digit written for a flag
and a whitespace character: the digit is consumed and the flag stored. -/
theorem extractBool_putBool (ws : List Char) (hws : ∀ c ∈ ws, isSpace c = true) (b : Bool)
    (w : Char) (hw : isSpace w = true) (rest : List Char) (old : Bool) :
    extractBool ⟨ws ++ (putBool b ++ w :: rest), false⟩ old = (⟨w :: rest, false⟩, b) := by
  have hwd := isSpace_not_digit w hw
  have hshape : putBool b ++ w :: rest = (if b then '1' else '0') :: w :: rest := by
    cases b <;> rfl
  have hdw : (ws ++ (putBool b ++ w :: rest)).dropWhile isSpace
      = (if b then '1' else '0') :: w :: rest := by
    rw [hshape]
    exact dropWhile_isSpace ws hws _ _ (by cases b <;> rfl)
  unfold extractBool
  simp only [Bool.false_eq_true, if_false, hdw]
  cases b
  · have h1 : takeSign ('0' :: w :: rest) = ([], '0' :: w :: rest) := rfl
    have h2 : ('0' :: w :: rest).takeWhile Char.isDigit = ['0'] := by
      simp only [List.takeWhile_cons, hwd, Bool.false_eq_true, if_false]
      rfl
    have h3 : ('0' :: w :: rest).dropWhile Char.isDigit = w :: rest := by
      simp only [List.dropWhile_cons, hwd, Bool.false_eq_true, if_false]
      rfl
    simp only [Bool.false_eq_true, if_false, h1, h2, h3]
    rfl
  · have h1 : takeSign ('1' :: w :: rest) = ([], '1' :: w :: rest) := rfl
    have h2 : ('1' :: w :: rest).takeWhile Char.isDigit = ['1'] := by
      simp only [List.takeWhile_cons, hwd, Bool.false_eq_true, if_false]
      rfl
    have h3 : ('1' :: w :: rest).dropWhile Char.isDigit = w :: rest := by
      simp only [List.dropWhile_cons, hwd, Bool.false_eq_true, if_false]
      rfl
    simp only [if_true, h1, h2, h3]
    rfl

/-- The text of separated numerals, followed by a whitespace character, starts
with a whitespace character. -/
theorem tokens_head (toks : List (List Char × Numeral))
    (htoks : ∀ p ∈ toks, p.1 ≠ [] ∧ (∀ c ∈ p.1, isSpace c = true))
    (w : Char) (hw : isSpace w = true) (rest : List Char) :
    ∃ w1 rest1, (toks.flatMap fun p => p.1 ++ p.2.render) ++ w :: rest = w1 :: rest1
      ∧ isSpace w1 = true := by
  cases toks with
  | nil => exact ⟨w, rest, rfl, hw⟩
  | cons p ps =>
    obtain ⟨hne, hsp⟩ := htoks p (List.mem_cons_self _ _)
    cases hp : p.1 with
    | nil => exact absurd hp hne
    | cons a as =>
      refine ⟨a, as ++ p.2.render ++ (ps.flatMap fun p => p.1 ++ p.2.render) ++ w :: rest, ?_,
        hsp a (by rw [hp]; exact List.mem_cons_self _ _)⟩
      simp only [List.flatMap_cons, hp, List.cons_append, List.append_assoc]

/-- A chain of `float` extractions over separated numerals stores the rounded
values in order and leaves the stream, not failed, at the text that follows. -/
theorem extractFloats_tokens (io : FloatText K) (toks : List (List Char × Numeral))
    (htoks : ∀ p ∈ toks, p.1 ≠ [] ∧ (∀ c ∈ p.1, isSpace c = true) ∧ p.2.WellFormed
      ∧ (io.round p.2.value).2 = true)
    (w : Char) (hw : isSpace w = true) (rest : List Char) (olds : List K)
    (hlen : olds.length = toks.length) :
    extractFloats io ⟨(toks.flatMap fun p => p.1 ++ p.2.render) ++ w :: rest, false⟩ olds
      = (⟨w :: rest, false⟩, toks.map fun p => (io.round p.2.value).1) := by
  induction toks generalizing olds with
  | nil =>
    cases olds with
    | nil => rfl
    | cons x xs => cases hlen
  | cons p ps ih =>
    cases olds with
    | nil => cases hlen
    | cons x xs =>
      obtain ⟨_, hsp, hwf, hrange⟩ := htoks p (List.mem_cons_self _ _)
      have hps : ∀ q ∈ ps, q.1 ≠ [] ∧ (∀ c ∈ q.1, isSpace c = true) ∧ q.2.WellFormed
          ∧ (io.round q.2.value).2 = true := fun q hq => htoks q (List.mem_cons_of_mem _ hq)
      obtain ⟨w1, rest1, htail, hw1⟩ :=
        tokens_head ps (fun q hq => ⟨(hps q hq).1, (hps q hq).2.1⟩) w hw rest
      have hstep := extractFloat_render io p.1 hsp p.2 hwf w1 hw1 rest1 x
      rw [← htail, hrange] at hstep
      have hshape : ((p :: ps).flatMap fun p => p.1 ++ p.2.render) ++ w :: rest
          = p.1 ++ (p.2.render ++ ((ps.flatMap fun p => p.1 ++ p.2.render) ++ w :: rest)) := by
        simp only [List.flatMap_cons, List.append_assoc]
      rw [hshape]
      simp only [extractFloats, hstep, Bool.not_true, List.map_cons]
      rw [ih hps xs (by simpa using hlen)]

/-- A settings file of a flag digit and eight separated numerals in range:
the load stores the flag and the rounded values in the order of the file. -/
theorem LoadFromFile_tokens (io : FloatText K) (ws0 : List Char)
    (hws0 : ∀ c ∈ ws0, isSpace c = true) (b : Bool) (toks : List (List Char × Numeral))
    (htoks : ∀ p ∈ toks, p.1 ≠ [] ∧ (∀ c ∈ p.1, isSpace c = true) ∧ p.2.WellFormed
      ∧ (io.round p.2.value).2 = true)
    (hlen : toks.length = 8) (w : Char) (hw : isSpace w = true) (rest : List Char)
    (t : ProgramState K) :
    (LoadFromFile io (some (ws0 ++ (putBool b
        ++ ((toks.flatMap fun p => p.1 ++ p.2.render) ++ w :: rest)))) t).ImGuiEnabled = b
    ∧ persistedFloats (LoadFromFile io (some (ws0 ++ (putBool b
        ++ ((toks.flatMap fun p => p.1 ++ p.2.render) ++ w :: rest)))) t)
        = toks.map fun p => (io.round p.2.value).1 := by
  obtain ⟨w1, rest1, htail, hw1⟩ :=
    tokens_head toks (fun q hq => ⟨(htoks q hq).1, (htoks q hq).2.1⟩) w hw rest
  have hb := extractBool_putBool ws0 hws0 b w1 hw1 rest1 t.ImGuiEnabled
  rw [← htail] at hb
  obtain ⟨h1, h2⟩ := LoadFromFile_chain io (ws0 ++ (putBool b
        ++ ((toks.flatMap fun p => p.1 ++ p.2.render) ++ w :: rest))) t
  rw [h1, h2, hb]
  refine ⟨rfl, ?_⟩
  simp only
  rw [extractFloats_tokens io toks htoks w hw rest (persistedFloats t)
    (by rw [hlen]; rfl)]

/-- The file `SaveToFile` writes, as a flag digit and eight numerals, each
after a newline, and a final newline. -/
theorem SaveToFile_tokens (s : ProgramState ℚ) :
    SaveToFile floatText s
      = [] ++ (putBool s.ImGuiEnabled
          ++ ((((persistedFloats s).map fun v => (['\n'], numeralOf v)).flatMap
                fun p => p.1 ++ p.2.render) ++ '\n' :: [])) := by
  simp only [SaveToFile, persistedFloats, floatText, formatG, List.map_cons, List.map_nil,
    List.flatMap_cons, List.flatMap_nil, List.append_assoc, List.nil_append, List.cons_append,
    List.append_nil]

theorem savedTokens_ok (s : ProgramState ℚ) (hfin : ∀ v ∈ persistedFloats s, |v| ≤ FLT_MAX) :
    ∀ p ∈ (persistedFloats s).map fun v => (['\n'], numeralOf v),
      p.1 ≠ [] ∧ (∀ c ∈ p.1, isSpace c = true) ∧ p.2.WellFormed
        ∧ (floatText.round p.2.value).2 = true := by
  intro p hp
  obtain ⟨v, hv, rfl⟩ := List.mem_map.1 hp
  refine ⟨List.cons_ne_nil _ _, ?_, (numeralOf_spec v).1, ?_⟩
  · intro c hc
    simp only [List.mem_singleton] at hc
    subst hc; rfl
  · rw [(numeralOf_spec v).2]
    exact readBack_inRange v (hfin v hv)

/-- Loading what was saved: the flag is restored, and each of the eight `float`
members holds the value read back from the text of the saved one. -/
theorem LoadFromFile_SaveToFile (s t : ProgramState ℚ)
    (hfin : ∀ v ∈ persistedFloats s, |v| ≤ FLT_MAX) :
    (LoadFromFile floatText (some (SaveToFile floatText s)) t).ImGuiEnabled = s.ImGuiEnabled
    ∧ persistedFloats (LoadFromFile floatText (some (SaveToFile floatText s)) t)
        = (persistedFloats s).map readBack := by
  rw [SaveToFile_tokens s]
  obtain ⟨h1, h2⟩ := LoadFromFile_tokens floatText [] (fun c hc => by cases hc) s.ImGuiEnabled
    ((persistedFloats s).map fun v => (['\n'], numeralOf v)) (savedTokens_ok s hfin)
    (by simp [persistedFloats]) '\n' rfl [] t
  refine ⟨h1, ?_⟩
  rw [h2, List.map_map]
  apply List.map_congr_left
  intro v _
  simp only [Function.comp, floatText, (numeralOf_spec v).2, readBack]

end Tokens

section SettingsClaims

/-! ## The settings file: round trip and layout -/

/-- C6 (as stated, refuted): the `float` `2.5 + 2 ^ (-18) = 655361 / 262144` in
`camera.Position.x` is written with six significant digits as `2.5`, so the
file is `0`, `2.5`, `0`, `3`, `0`, `0`, `-1`, `0`, `0`, and the value loaded is
`5 / 2`, which is not within `10 ^ (-6)` of the value saved. -/
theorem C6_six_digits_lose_precision :
    SaveToFile floatText
        { defaultState with
          camera := { defaultState.camera with Position := ⟨655361 / 262144, 0, 3⟩ } }
      = "0\n2.5\n0\n3\n0\n0\n-1\n0\n0\n".toList
    ∧ (LoadFromFile floatText (some (SaveToFile floatText
        { defaultState with
          camera := { defaultState.camera with Position := ⟨655361 / 262144, 0, 3⟩ } }))
        defaultState).camera.Position.x = 5 / 2
    ∧ ¬ |(LoadFromFile floatText (some (SaveToFile floatText
          { defaultState with
            camera := { defaultState.camera with Position := ⟨655361 / 262144, 0, 3⟩ } }))
          defaultState).camera.Position.x - 655361 / 262144| ≤ 1 / 10 ^ 6 := by
  decide!

/-- C6 (amended): for every `ProgramState` `s` whose eight persisted `float`
members are finite (magnitude at most `FLT_MAX`), `SaveToFile` followed by
`LoadFromFile` on any `ProgramState` `t` yields `ImGuiEnabled` equal to its
value in `s`, and `camera.Position` (x, y, z), `camera.Front` (x, y, z),
`ae86pos.x` and `ae86pos.z` each within `6 * 10 ^ (-6) * |v| + 2 ^ (-150)` of
their value `v` in `s` (six significant digits are written), which is within
`10 ^ (-6)` whenever `|v| ≤ 1`. -/
theorem C6_round_trip_six_digits (s t : ProgramState ℚ)
    (hfin : ∀ v ∈ persistedFloats s, |v| ≤ FLT_MAX) :
    (LoadFromFile floatText (some (SaveToFile floatText s)) t).ImGuiEnabled = s.ImGuiEnabled
    ∧ ∀ p ∈
        [ ((LoadFromFile floatText (some (SaveToFile floatText s)) t).camera.Position.x,
            s.camera.Position.x),
          ((LoadFromFile floatText (some (SaveToFile floatText s)) t).camera.Position.y,
            s.camera.Position.y),
          ((LoadFromFile floatText (some (SaveToFile floatText s)) t).camera.Position.z,
            s.camera.Position.z),
          ((LoadFromFile floatText (some (SaveToFile floatText s)) t).camera.Front.x,
            s.camera.Front.x),
          ((LoadFromFile floatText (some (SaveToFile floatText s)) t).camera.Front.y,
            s.camera.Front.y),
          ((LoadFromFile floatText (some (SaveToFile floatText s)) t).camera.Front.z,
            s.camera.Front.z),
          ((LoadFromFile floatText (some (SaveToFile floatText s)) t).ae86pos.x, s.ae86pos.x),
          ((LoadFromFile floatText (some (SaveToFile floatText s)) t).ae86pos.z, s.ae86pos.z) ],
        |p.1 - p.2| ≤ 6 / 10 ^ 6 * |p.2| + 1 / 2 ^ 150
        ∧ (|p.2| ≤ 1 → |p.1 - p.2| ≤ 1 / 10 ^ 6) := by
  obtain ⟨h1, h2⟩ := LoadFromFile_SaveToFile s t hfin
  refine ⟨h1, ?_⟩
  have hpair : ∀ v ∈ persistedFloats s,
      |readBack v - v| ≤ 6 / 10 ^ 6 * |v| + 1 / 2 ^ 150
      ∧ (|v| ≤ 1 → |readBack v - v| ≤ 1 / 10 ^ 6) :=
    fun v hv => ⟨readBack_abs_sub_le v (hfin v hv), readBack_abs_sub_le_small v⟩
  simp only [persistedFloats, List.map_cons, List.map_nil, List.cons.injEq, and_true] at h2
  obtain ⟨e1, e2, e3, e4, e5, e6, e7, e8⟩ := h2
  simp only [persistedFloats, List.mem_cons, List.mem_singleton, List.not_mem_nil, or_false,
    forall_eq_or_imp, forall_eq] at hpair
  obtain ⟨q1, q2, q3, q4, q5, q6, q7, q8⟩ := hpair
  intro p hp
  simp only [List.mem_cons, List.mem_singleton, List.not_mem_nil, or_false] at hp
  rcases hp with h | h | h | h | h | h | h | h <;> subst h <;> simp only
  · rw [e1]; exact q1
  · rw [e2]; exact q2
  · rw [e3]; exact q3
  · rw [e4]; exact q4
  · rw [e5]; exact q5
  · rw [e6]; exact q6
  · rw [e7]; exact q7
  · rw [e8]; exact q8

/-- Witness of C6: the state of the counterexample, loaded over the default
state; the value loaded for `camera.Position.x` is within the relative
tolerance of the value saved. -/
theorem C6_round_trip_six_digits_witness :
    (∀ v ∈ persistedFloats
        { defaultState with
          camera := { defaultState.camera with Position := ⟨655361 / 262144, 0, 3⟩ } },
        |v| ≤ FLT_MAX)
    ∧ |(LoadFromFile floatText (some (SaveToFile floatText
          { defaultState with
            camera := { defaultState.camera with Position := ⟨655361 / 262144, 0, 3⟩ } }))
          defaultState).camera.Position.x - 655361 / 262144|
        ≤ 6 / 10 ^ 6 * |(655361 / 262144 : ℚ)| + 1 / 2 ^ 150 :=
  ⟨by decide!,
    ((C6_round_trip_six_digits
      { defaultState with
        camera := { defaultState.camera with Position := ⟨655361 / 262144, 0, 3⟩ } }
      defaultState (by decide!)).2 _ (List.mem_cons_self _ _)).1⟩

/-- C7: `SaveToFile` writes nine values, each followed by a newline, in the
order `ImGuiEnabled` (as `0` or `1`), `camera.Position.x`, `.y`, `.z`,
`camera.Front.x`, `.y`, `.z`, `ae86pos.x`, `ae86pos.z`; no value is empty or
holds whitespace, so there is one value per line.  `LoadFromFile`, on a file of
a flag digit and eight decimal numerals in `float` range, separated by
whitespace and followed by whitespace, stores the flag and the eight rounded
values in the same nine members in the same order.  Whatever the file,
`ae86pos.y`, `ae86angle`, `shadows`, `CameraMouseMovementUpdateEnabled` and
`directionLight` are unchanged by a load.  (`SaveToFile` only produces the
text.) -/
theorem C7_nine_values_fixed_order (s t : ProgramState ℚ) (file : Option (List Char))
    (ws0 : List Char) (b : Bool) (p1 p2 p3 p4 p5 p6 p7 p8 : List Char × Numeral)
    (w : Char) (rest : List Char)
    (hws0 : ∀ c ∈ ws0, isSpace c = true)
    (htoks : ∀ p ∈ [p1, p2, p3, p4, p5, p6, p7, p8],
      p.1 ≠ [] ∧ (∀ c ∈ p.1, isSpace c = true) ∧ p.2.WellFormed
        ∧ (roundFloat p.2.value).2 = true)
    (hw : isSpace w = true) :
    SaveToFile floatText s
        = [ putBool s.ImGuiEnabled,
            formatG s.camera.Position.x, formatG s.camera.Position.y,
            formatG s.camera.Position.z,
            formatG s.camera.Front.x, formatG s.camera.Front.y, formatG s.camera.Front.z,
            formatG s.ae86pos.x, formatG s.ae86pos.z ].flatMap (fun v => v ++ ['\n'])
    ∧ putBool s.ImGuiEnabled = (if s.ImGuiEnabled then ['1'] else ['0'])
    ∧ (∀ v ∈ [ putBool s.ImGuiEnabled,
            formatG s.camera.Position.x, formatG s.camera.Position.y,
            formatG s.camera.Position.z,
            formatG s.camera.Front.x, formatG s.camera.Front.y, formatG s.camera.Front.z,
            formatG s.ae86pos.x, formatG s.ae86pos.z ],
          v ≠ [] ∧ ∀ c ∈ v, isSpace c = false)
    ∧ LoadFromFile floatText
          (some (ws0 ++ (putBool b
            ++ (([p1, p2, p3, p4, p5, p6, p7, p8].flatMap fun p => p.1 ++ p.2.render)
              ++ w :: rest)))) t
        = { t with
            ImGuiEnabled := b
            camera := { t.camera with
              Position := ⟨(roundFloat p1.2.value).1, (roundFloat p2.2.value).1,
                (roundFloat p3.2.value).1⟩
              Front := ⟨(roundFloat p4.2.value).1, (roundFloat p5.2.value).1,
                (roundFloat p6.2.value).1⟩ }
            ae86pos := ⟨(roundFloat p7.2.value).1, t.ae86pos.y, (roundFloat p8.2.value).1⟩ }
    ∧ (LoadFromFile floatText file t).ae86pos.y = t.ae86pos.y
    ∧ (LoadFromFile floatText file t).ae86angle = t.ae86angle
    ∧ (LoadFromFile floatText file t).shadows = t.shadows
    ∧ (LoadFromFile floatText file t).CameraMouseMovementUpdateEnabled
        = t.CameraMouseMovementUpdateEnabled
    ∧ (LoadFromFile floatText file t).directionLight = t.directionLight := by
  have hun := LoadFromFile_untouched floatText file t
  refine ⟨?_, rfl, ?_, ?_, hun.1, hun.2.1, hun.2.2.1, hun.2.2.2.1, hun.2.2.2.2.1⟩
  · simp only [SaveToFile, floatText, List.flatMap_cons, List.flatMap_nil, List.append_assoc,
      List.append_nil, List.cons_append, List.nil_append]
  · intro v hv
    simp only [List.mem_cons, List.mem_singleton, List.not_mem_nil, or_false] at hv
    have hfmt : ∀ x : ℚ, formatG x ≠ [] ∧ ∀ c ∈ formatG x, isSpace c = false :=
      fun x => ⟨render_ne_nil _ (numeralOf_spec x).1, render_no_space _ (numeralOf_spec x).1⟩
    rcases hv with h | h | h | h | h | h | h | h | h
    · subst h
      cases s.ImGuiEnabled
      · exact ⟨List.cons_ne_nil _ _, fun c hc => by
          simp only [putBool, Bool.false_eq_true, if_false, List.mem_singleton] at hc
          subst hc; rfl⟩
      · exact ⟨List.cons_ne_nil _ _, fun c hc => by
          simp only [putBool, if_true, List.mem_singleton] at hc
          subst hc; rfl⟩
    all_goals subst h; exact hfmt _
  · obtain ⟨h1, h2⟩ := LoadFromFile_tokens floatText ws0 hws0 b
      [p1, p2, p3, p4, p5, p6, p7, p8] htoks rfl w hw rest t
    have hun' := LoadFromFile_untouched floatText
      (some (ws0 ++ (putBool b
            ++ (([p1, p2, p3, p4, p5, p6, p7, p8].flatMap fun p => p.1 ++ p.2.render)
              ++ w :: rest)))) t
    generalize LoadFromFile floatText
      (some (ws0 ++ (putBool b
            ++ (([p1, p2, p3, p4, p5, p6, p7, p8].flatMap fun p => p.1 ++ p.2.render)
              ++ w :: rest)))) t = r at h1 h2 hun' ⊢
    simp only [persistedFloats, List.map_cons, List.map_nil, List.cons.injEq, and_true,
      floatText] at h2
    obtain ⟨e1, e2, e3, e4, e5, e6, e7, e8⟩ := h2
    obtain ⟨u1, u2, u3, u4, u5, u6, u7⟩ := hun'
    obtain ⟨ui, cam, mouse, dl, sh, pos, ang⟩ := r
    obtain ⟨cp, cf, cu, cz⟩ := cam
    obtain ⟨cpx, cpy, cpz⟩ := cp
    obtain ⟨cfx, cfy, cfz⟩ := cf
    obtain ⟨px, py, pz⟩ := pos
    simp only at h1 e1 e2 e3 e4 e5 e6 e7 e8 u1 u2 u3 u4 u5 u6 u7
    rw [h1, e1, e2, e3, e4, e5, e6, e7, e8, u1, u2, u3, u4, u5, u6, u7]

/-- Witness of C7: a file of the flag `1` and the eight numerals written for
`1`, `2`, `3`, `0`, `0`, `-1`, `5`, `7`, each after a blank, then a newline,
loaded over the default state. -/
theorem C7_nine_values_fixed_order_witness :
    LoadFromFile floatText
        (some ([] ++ (putBool true
          ++ (([ ([' '], numeralOf 1), ([' '], numeralOf 2), ([' '], numeralOf 3),
                ([' '], numeralOf 0), ([' '], numeralOf 0), ([' '], numeralOf (-1)),
                ([' '], numeralOf 5), ([' '], numeralOf 7) ].flatMap
              fun p => p.1 ++ p.2.render) ++ '\n' :: []))))
        defaultState
      = { defaultState with
          ImGuiEnabled := true
          camera := { defaultState.camera with
            Position := ⟨(roundFloat (numeralOf 1).value).1, (roundFloat (numeralOf 2).value).1,
              (roundFloat (numeralOf 3).value).1⟩
            Front := ⟨(roundFloat (numeralOf 0).value).1, (roundFloat (numeralOf 0).value).1,
              (roundFloat (numeralOf (-1)).value).1⟩ }
          ae86pos := ⟨(roundFloat (numeralOf 5).value).1, defaultState.ae86pos.y,
            (roundFloat (numeralOf 7).value).1⟩ } :=
  (C7_nine_values_fixed_order defaultState defaultState none
    [] true ([' '], numeralOf 1) ([' '], numeralOf 2) ([' '], numeralOf 3)
    ([' '], numeralOf 0) ([' '], numeralOf 0) ([' '], numeralOf (-1))
    ([' '], numeralOf 5) ([' '], numeralOf 7) '\n' []
    (fun c hc => by cases hc)
    (fun p hp => by
      simp only [List.mem_cons, List.mem_singleton, List.not_mem_nil, or_false] at hp
      rcases hp with h | h | h | h | h | h | h | h <;> subst h <;>
        exact ⟨List.cons_ne_nil _ _, fun c hc => by
          simp only [List.mem_singleton] at hc
          subst hc; rfl, (numeralOf_spec _).1, by decide!⟩)
    rfl).2.2.2.1

/-! ## The settings file: absent and malformed files -/

section AnyField

variable {K : Type} [LinearOrderedField K]

/-- C8: when the settings file cannot be opened, `LoadFromFile` returns the
program state exactly as it was; started from the constructor's state, every
member keeps its default (`ImGuiEnabled = false`, camera position `(0, 0, 3)`,
`ae86pos = (0, 0.11, 0)`, `ae86angle = 205`, `shadows = true`).  The function
has no failure result: nothing is signalled to the caller. -/
theorem C8_absent_file_leaves_state (io : FloatText K) (s : ProgramState K)
    (dl : DirectionLight K) :
    LoadFromFile io none s = s
    ∧ LoadFromFile io none (ProgramState.init dl) = ProgramState.init dl
    ∧ (LoadFromFile io none (ProgramState.init dl)).ImGuiEnabled = false
    ∧ (LoadFromFile io none (ProgramState.init dl)).camera.Position = ⟨0, 0, 3⟩
    ∧ (LoadFromFile io none (ProgramState.init dl)).ae86pos = ⟨0, 11 / 100, 0⟩
    ∧ (LoadFromFile io none (ProgramState.init dl)).ae86angle = 205
    ∧ (LoadFromFile io none (ProgramState.init dl)).shadows = true := by
  refine ⟨rfl, rfl, rfl, ?_, ?_, ?_, rfl⟩
  · simp only [LoadFromFile, ProgramState.init, Camera.ofPosition]
    norm_num
  · simp only [LoadFromFile, ProgramState.init]
    norm_num
  · simp only [LoadFromFile, ProgramState.init]
    norm_num

/-- C9 (as stated, refuted): in the file `1 2 3 x` the first three values parse
and the fourth token does not; loaded over the default state, the first three
members are assigned from the file, but the member of the unparsable token,
`camera.Position.z`, does not keep the value `3` it had before the load: it is
overwritten with `0`. -/
theorem C9_unparsable_token_overwrites_member :
    (LoadFromFile floatText (some "1 2 3 x".toList) defaultState).ImGuiEnabled = true
    ∧ (LoadFromFile floatText (some "1 2 3 x".toList) defaultState).camera.Position.x = 2
    ∧ (LoadFromFile floatText (some "1 2 3 x".toList) defaultState).camera.Position.y = 3
    ∧ defaultState.camera.Position.z = 3
    ∧ (LoadFromFile floatText (some "1 2 3 x".toList) defaultState).camera.Position.z = 0
    ∧ ¬ ((LoadFromFile floatText (some "1 2 3 x".toList) defaultState).camera.Position.z
          = defaultState.camera.Position.z) := by
  decide!

/-- Once a chain of `float` extractions has left the stream unfailed, every
prefix of the chain has. -/
theorem extractFloats_initial_ok (io : FloatText K)
    (s : IStream) (a b : List K) (h : (extractFloats io s (a ++ b)).1.fail = false) :
    (extractFloats io s a).1.fail = false := by
  cases hc : (extractFloats io s a).1.fail with
  | false => rfl
  | true =>
    rw [extractFloats_append] at h
    simp only at h
    rw [extractFloats_of_fail io _ b hc, hc] at h
    cases h

/-- A chain of `float` extractions cannot repair a failed stream. -/
theorem extractFloats_start_ok (io : FloatText K)
    (s : IStream) (a : List K) (h : (extractFloats io s a).1.fail = false) :
    s.fail = false := by
  cases hc : s.fail with
  | false => rfl
  | true =>
    rw [extractFloats_of_fail io s a hc, hc] at h
    cases h

/-- The value `strtof` stores for a literal out of range: the largest finite
`float` with the sign of the literal, whose magnitude is beyond `FLT_MAX`. -/
theorem roundFloat_out_of_range (q : ℚ) (h : (roundFloat q).2 = false) :
    FLT_MAX < |q| ∧ (roundFloat q).1 = if q < 0 then -FLT_MAX else FLT_MAX := by
  refine ⟨?_, ?_⟩
  · by_contra hle
    have := (roundFloat_spec q (not_lt.1 hle)).1
    rw [h] at this
    cases this
  · unfold roundFloat at h ⊢
    by_cases hq : q = 0
    · simp only [hq, if_true] at h
      cases h
    · simp only [hq, if_false] at h ⊢
      split at h
      · rename_i hbig
        simp only [hbig, if_true]
      · cases h

/-- The extraction of the flag from an unfailed stream, case by case. -/
theorem extractBool_cases (t : List Char) (old : Bool) :
    (t.dropWhile isSpace = [] →
        extractBool ⟨t, false⟩ old = (⟨[], true⟩, old))
    ∧ (t.dropWhile isSpace ≠ [] →
        ((takeSign (t.dropWhile isSpace)).2.takeWhile Char.isDigit = [] →
            (extractBool ⟨t, false⟩ old).2 = false
            ∧ (extractBool ⟨t, false⟩ old).1.fail = true)
        ∧ ((takeSign (t.dropWhile isSpace)).2.takeWhile Char.isDigit ≠ [] →
            (digitsValue ((takeSign (t.dropWhile isSpace)).2.takeWhile Char.isDigit) = 0 →
              (extractBool ⟨t, false⟩ old).2 = false
              ∧ (extractBool ⟨t, false⟩ old).1.fail = false)
            ∧ (digitsValue ((takeSign (t.dropWhile isSpace)).2.takeWhile Char.isDigit) = 1 →
                (takeSign (t.dropWhile isSpace)).1 ≠ ['-'] →
              (extractBool ⟨t, false⟩ old).2 = true
              ∧ (extractBool ⟨t, false⟩ old).1.fail = false)
            ∧ (digitsValue ((takeSign (t.dropWhile isSpace)).2.takeWhile Char.isDigit) ≠ 0 →
                ¬ (digitsValue ((takeSign (t.dropWhile isSpace)).2.takeWhile Char.isDigit) = 1
                    ∧ (takeSign (t.dropWhile isSpace)).1 ≠ ['-']) →
              (extractBool ⟨t, false⟩ old).2 = true
              ∧ (extractBool ⟨t, false⟩ old).1.fail = true))) := by
  unfold extractBool
  simp only [Bool.false_eq_true, if_false]
  cases hb : t.dropWhile isSpace with
  | nil => exact ⟨fun _ => rfl, fun h => absurd rfl h⟩
  | cons c cs =>
    refine ⟨fun h => (by cases h), fun _ => ?_⟩
    simp only
    generalize takeSign (c :: cs) = sign
    cases hds : sign.2.takeWhile Char.isDigit with
    | nil =>
      refine ⟨fun _ => ?_, fun h => absurd rfl h⟩
      simp only [List.isEmpty_nil, if_true, and_self]
    | cons d ds =>
      refine ⟨fun h => (by cases h), fun _ => ?_⟩
      simp only [List.isEmpty_cons, Bool.false_eq_true, if_false]
      refine ⟨fun h0 => ?_, fun h1 hs => ?_, fun h0 h1 => ?_⟩
      · simp only [h0, if_true, and_self]
      · have hne : (sign.1 != ['-']) = true := by simpa using hs
        simp only [h1, one_ne_zero, if_false, decide_True, hne, Bool.and_self, if_true, and_self]
      · simp only [h0, if_false]
        have hcond : (decide (digitsValue (d :: ds) = 1) && sign.1 != ['-']) = false := by
          by_contra hc
          have hc' : (decide (digitsValue (d :: ds) = 1) && sign.1 != ['-']) = true := by
            simpa using hc
          simp only [Bool.and_eq_true, decide_eq_true_eq, bne_iff_ne, ne_eq] at hc'
          exact h1 hc'
        simp only [hcond, Bool.false_eq_true, if_false, and_self]

/-- The values a chain of `float` extractions stores up to and including the
first failing one, and the untouched rest. -/
theorem extractFloats_first_failure (io : FloatText K)
    (s0 : IStream) (pre : List K) (x : K) (post : List K)
    (hfail : (extractFloat io (extractFloats io s0 pre).1 x).1.fail = true) :
    (extractFloats io s0 (pre ++ x :: post)).2
      = (extractFloats io s0 pre).2 ++ (extractFloat io (extractFloats io s0 pre).1 x).2 :: post := by
  rw [extractFloats_append]
  simp only [extractFloats]
  rw [extractFloats_of_fail io _ post hfail]

/-- The value stored for a member read before the first failure. -/
theorem extractFloats_member (io : FloatText K)
    (s0 : IStream) (a : List K) (b : K) (c : List K)
    (hok : (extractFloats io s0 (a ++ b :: c)).1.fail = false) :
    ∃ q, decimalValue (scanFloat ((extractFloats io s0 a).1.buf.dropWhile isSpace)).1 = some q
      ∧ (io.round q).2 = true
      ∧ (extractFloats io s0 (a ++ b :: c)).2[a.length]? = some (io.round q).1 := by
  have hsplit : a ++ b :: c = (a ++ [b]) ++ c := by simp
  have h1 : (extractFloats io s0 (a ++ [b])).1.fail = false :=
    extractFloats_initial_ok io s0 (a ++ [b]) c (by rw [← hsplit]; exact hok)
  rw [extractFloats_append] at h1
  simp only [extractFloats] at h1
  obtain ⟨q, hq, hr, hv⟩ := extractFloat_success io _ b h1
  refine ⟨q, hq, hr, ?_⟩
  rw [extractFloats_append]
  simp only [extractFloats]
  rw [List.getElem?_append_right (by rw [extractFloats_length])]
  simp only [extractFloats_length, Nat.sub_self, List.getElem?_cons_zero, hv]

/-- C9 (amended): `LoadFromFile` performs nine extractions in the fixed order,
the flag and then the eight `float` members; an extraction skips white space
and reads the longest numeric field, and after the first failing extraction
nothing is read.  For every file content and every prior state:
if the extraction of the flag fails (`k = 0`), the eight `float` members keep
their prior values, and the flag keeps its prior value when the file ends
before its field, becomes `false` when the field has no digit, and becomes
`true` when the field is a number other than `0` and `1`;
if the extraction of the flag succeeds, its field is `0` or `1` and the flag is
that value;
if the flag and the members `pre` are read and the extraction of the next
member `x` fails (`k = 1 + |pre|`), each member of `pre` holds the rounded
decimal value of the field read for it, every member after `x` keeps its prior
value, and `x` keeps its prior value when the file ends before its field, and
is otherwise overwritten: with `0` when the field is not a number, with the
largest finite `float`, signed, when the number is beyond `FLT_MAX`.
The other members of `ProgramState` are never written; the load returns the
state and reports nothing. -/
theorem C9_partial_read (text : List Char) (s : ProgramState ℚ) :
    ((extractBool ⟨text, false⟩ s.ImGuiEnabled).1.fail = true →
        persistedFloats (LoadFromFile floatText (some text) s) = persistedFloats s
        ∧ ((text.dropWhile isSpace = []
              ∧ (LoadFromFile floatText (some text) s).ImGuiEnabled = s.ImGuiEnabled)
          ∨ (text.dropWhile isSpace ≠ []
              ∧ (takeSign (text.dropWhile isSpace)).2.takeWhile Char.isDigit = []
              ∧ (LoadFromFile floatText (some text) s).ImGuiEnabled = false)
          ∨ (text.dropWhile isSpace ≠ []
              ∧ (takeSign (text.dropWhile isSpace)).2.takeWhile Char.isDigit ≠ []
              ∧ ¬ (digitsValue ((takeSign (text.dropWhile isSpace)).2.takeWhile Char.isDigit) = 0
                  ∨ (digitsValue ((takeSign (text.dropWhile isSpace)).2.takeWhile Char.isDigit) = 1
                      ∧ (takeSign (text.dropWhile isSpace)).1 ≠ ['-']))
              ∧ (LoadFromFile floatText (some text) s).ImGuiEnabled = true)))
    ∧ ((extractBool ⟨text, false⟩ s.ImGuiEnabled).1.fail = false →
        text.dropWhile isSpace ≠ []
        ∧ (takeSign (text.dropWhile isSpace)).2.takeWhile Char.isDigit ≠ []
        ∧ ((digitsValue ((takeSign (text.dropWhile isSpace)).2.takeWhile Char.isDigit) = 0
              ∧ (LoadFromFile floatText (some text) s).ImGuiEnabled = false)
          ∨ (digitsValue ((takeSign (text.dropWhile isSpace)).2.takeWhile Char.isDigit) = 1
              ∧ (takeSign (text.dropWhile isSpace)).1 ≠ ['-']
              ∧ (LoadFromFile floatText (some text) s).ImGuiEnabled = true)))
    ∧ (∀ (pre : List ℚ) (x : ℚ) (post : List ℚ) (s0 s1 : IStream),
        persistedFloats s = pre ++ x :: post →
        s0 = (extractBool ⟨text, false⟩ s.ImGuiEnabled).1 →
        s1 = (extractFloats floatText s0 pre).1 →
        s1.fail = false →
        (extractFloat floatText s1 x).1.fail = true →
          s0.fail = false
          ∧ persistedFloats (LoadFromFile floatText (some text) s)
              = (extractFloats floatText s0 pre).2 ++ (extractFloat floatText s1 x).2 :: post
          ∧ (extractFloats floatText s0 pre).2.length = pre.length
          ∧ (∀ (a : List ℚ) (b : ℚ) (c : List ℚ), pre = a ++ b :: c →
              ∃ q, decimalValue
                    (scanFloat ((extractFloats floatText s0 a).1.buf.dropWhile isSpace)).1 = some q
                ∧ |(roundFloat q).1| ≤ FLT_MAX ∧ (roundFloat q).2 = true
                ∧ (extractFloats floatText s0 pre).2[a.length]? = some (roundFloat q).1)
          ∧ ((s1.buf.dropWhile isSpace = [] ∧ (extractFloat floatText s1 x).2 = x)
            ∨ (s1.buf.dropWhile isSpace ≠ []
                ∧ decimalValue (scanFloat (s1.buf.dropWhile isSpace)).1 = none
                ∧ (extractFloat floatText s1 x).2 = 0)
            ∨ (s1.buf.dropWhile isSpace ≠ []
                ∧ ∃ q, decimalValue (scanFloat (s1.buf.dropWhile isSpace)).1 = some q
                    ∧ FLT_MAX < |q|
                    ∧ (extractFloat floatText s1 x).2 = if q < 0 then -FLT_MAX else FLT_MAX)))
    ∧ (LoadFromFile floatText (some text) s).ae86pos.y = s.ae86pos.y
    ∧ (LoadFromFile floatText (some text) s).ae86angle = s.ae86angle
    ∧ (LoadFromFile floatText (some text) s).shadows = s.shadows
    ∧ (LoadFromFile floatText (some text) s).CameraMouseMovementUpdateEnabled
        = s.CameraMouseMovementUpdateEnabled
    ∧ (LoadFromFile floatText (some text) s).directionLight = s.directionLight := by
  have hflag := (LoadFromFile_chain floatText text s).1
  have hchain := (LoadFromFile_chain floatText text s).2
  have hun := LoadFromFile_untouched floatText (some text) s
  obtain ⟨hE, hN⟩ := extractBool_cases text s.ImGuiEnabled
  refine ⟨?_, ?_, ?_, hun.1, hun.2.1, hun.2.2.1, hun.2.2.2.1, hun.2.2.2.2.1⟩
  · intro hbf
    refine ⟨by rw [hchain, extractFloats_of_fail floatText _ _ hbf], ?_⟩
    rw [hflag]
    by_cases hb : text.dropWhile isSpace = []
    · exact Or.inl ⟨hb, by rw [hE hb]⟩
    · obtain ⟨hnd, hd⟩ := hN hb
      by_cases hds : (takeSign (text.dropWhile isSpace)).2.takeWhile Char.isDigit = []
      · exact Or.inr (Or.inl ⟨hb, hds, (hnd hds).1⟩)
      · obtain ⟨h0, h1, h2⟩ := hd hds
        refine Or.inr (Or.inr ⟨hb, hds, ?_, ?_⟩)
        · rintro (hz | ⟨ho, hs⟩)
          · rw [(h0 hz).2] at hbf
            cases hbf
          · rw [(h1 ho hs).2] at hbf
            cases hbf
        · by_cases hz :
            digitsValue ((takeSign (text.dropWhile isSpace)).2.takeWhile Char.isDigit) = 0
          · rw [(h0 hz).2] at hbf
            cases hbf
          · by_cases hone :
              digitsValue ((takeSign (text.dropWhile isSpace)).2.takeWhile Char.isDigit) = 1
                ∧ (takeSign (text.dropWhile isSpace)).1 ≠ ['-']
            · rw [(h1 hone.1 hone.2).2] at hbf
              cases hbf
            · exact (h2 hz hone).1
  · intro hbf
    rw [hflag]
    by_cases hb : text.dropWhile isSpace = []
    · rw [hE hb] at hbf
      cases hbf
    · obtain ⟨hnd, hd⟩ := hN hb
      by_cases hds : (takeSign (text.dropWhile isSpace)).2.takeWhile Char.isDigit = []
      · rw [(hnd hds).2] at hbf
        cases hbf
      · obtain ⟨h0, h1, h2⟩ := hd hds
        refine ⟨hb, hds, ?_⟩
        by_cases hz :
            digitsValue ((takeSign (text.dropWhile isSpace)).2.takeWhile Char.isDigit) = 0
        · exact Or.inl ⟨hz, (h0 hz).1⟩
        · by_cases hone :
              digitsValue ((takeSign (text.dropWhile isSpace)).2.takeWhile Char.isDigit) = 1
                ∧ (takeSign (text.dropWhile isSpace)).1 ≠ ['-']
          · exact Or.inr ⟨hone.1, hone.2, (h1 hone.1 hone.2).1⟩
          · rw [(h2 hz hone).2] at hbf
            cases hbf
  · intro pre x post s0 s1 hsplit hs0 hs1 hok hfail
    subst hs0
    subst hs1
    refine ⟨extractFloats_start_ok floatText _ pre hok, ?_, extractFloats_length floatText _ pre,
      ?_, ?_⟩
    · rw [hchain, hsplit]
      exact extractFloats_first_failure floatText _ pre x post hfail
    · intro a b c habc
      subst habc
      obtain ⟨q, hq, hr, hv⟩ := extractFloats_member floatText _ a b c hok
      refine ⟨q, hq, ?_, hr, hv⟩
      have hr' : (roundFloat q).2 = true := hr
      unfold roundFloat at hr' ⊢
      by_cases hq0 : q = 0
      · simp only [hq0, if_true, abs_zero]
        norm_num [FLT_MAX]
      · simp only [hq0, if_false] at hr' ⊢
        split at hr'
        · cases hr'
        · rename_i hsmall
          simp only [hsmall, if_false]
          exact not_lt.1 hsmall
    · rcases extractFloat_failure floatText _ x hok hfail with h | ⟨hne, h | ⟨q, hq, hr, hv⟩⟩
      · exact Or.inl h
      · exact Or.inr (Or.inl ⟨hne, h⟩)
      · refine Or.inr (Or.inr ⟨hne, q, hq, (roundFloat_out_of_range q hr).1, ?_⟩)
        rw [hv]
        exact (roundFloat_out_of_range q hr).2

/-- Witness of C9: the file `2 7 8`, whose flag field `2` fails, and the file
`1 2 3x 4`, whose fourth extraction meets `x`, both loaded over the default
state. -/
theorem C9_partial_read_witness :
    (extractBool ⟨"2 7 8".toList, false⟩ defaultState.ImGuiEnabled).1.fail = true
    ∧ persistedFloats (LoadFromFile floatText (some "2 7 8".toList) defaultState)
        = persistedFloats defaultState
    ∧ defaultState.ImGuiEnabled = false
    ∧ (LoadFromFile floatText (some "2 7 8".toList) defaultState).ImGuiEnabled = true
    ∧ persistedFloats defaultState = [0, 0] ++ 3 :: [0, 0, -1, 0, 0]
    ∧ persistedFloats (LoadFromFile floatText (some "1 2 3x 4".toList) defaultState)
        = (extractFloats floatText
              (extractBool ⟨"1 2 3x 4".toList, false⟩ defaultState.ImGuiEnabled).1 [0, 0]).2
            ++ (extractFloat floatText
                (extractFloats floatText
                  (extractBool ⟨"1 2 3x 4".toList, false⟩ defaultState.ImGuiEnabled).1 [0, 0]).1
                3).2
              :: [0, 0, -1, 0, 0]
    ∧ (LoadFromFile floatText (some "1 2 3x 4".toList) defaultState).ImGuiEnabled = true
    ∧ persistedFloats (LoadFromFile floatText (some "1 2 3x 4".toList) defaultState)
        = [2, 3, 0, 0, 0, -1, 0, 0] :=
  ⟨by decide!,
   ((C9_partial_read "2 7 8".toList defaultState).1 (by decide!)).1,
   by decide!,
   by decide!,
   by decide!,
   ((C9_partial_read "1 2 3x 4".toList defaultState).2.2.1 [0, 0] 3 [0, 0, -1, 0, 0] _ _
      (by decide!) rfl rfl (by decide!) (by decide!)).2.1,
   by decide!,
   by decide!⟩

end AnyField

end SettingsClaims

section ShapeFacts

variable {K : Type}

/-! ## The shape of the context along a list of commands -/

theorem toState_shape (s : Shape) : s.toState.shape = s := by
  cases s
  simp [Shape.toState, GLState.shape]

theorem shape_shape (c : Cmd K) : c.shape.shape = c.shape := by
  cases c <;> rfl

/-- The shape after a command is determined by the shape before it and the
command without its `float` payload. -/
theorem shape_exec {σ : GLState K} {τ : GLState Unit} (h : σ.shape = τ.shape) (c : Cmd K) :
    (exec σ c).shape = (exec τ c.shape).shape := by
  simp only [GLState.shape, Shape.mk.injEq] at h
  obtain ⟨h1, h2, h3, h4, h5, h6, h7, h8, h9, h10, h11⟩ := h
  cases c with
  | bindTexture target t =>
    cases target <;>
      simp only [exec, Cmd.shape, GLState.shape, h1, h2, h3, h4, h5, h6, h7, h8, h9, h10, h11]
  | setMat4 sh name m =>
    simp only [exec, Cmd.shape, h2]
    split <;> simp only [GLState.shape, h1, h2, h3, h4, h5, h6, h7, h8, h9, h10, h11]
  | setVec3 sh name m =>
    simp only [exec, Cmd.shape, h2]
    split <;> simp only [GLState.shape, h1, h2, h3, h4, h5, h6, h7, h8, h9, h10, h11]
  | setFloat sh name m =>
    simp only [exec, Cmd.shape, h2]
    split <;> simp only [GLState.shape, h1, h2, h3, h4, h5, h6, h7, h8, h9, h10, h11]
  | setInt sh name m =>
    simp only [exec, Cmd.shape, h2]
    split <;>
      simp only [GLState.shape, setUniform, h1, h2, h3, h4, h5, h6, h7, h8, h9, h10, h11]
  | setBool sh name m =>
    simp only [exec, Cmd.shape, h2]
    split <;>
      simp only [GLState.shape, setUniform, h1, h2, h3, h4, h5, h6, h7, h8, h9, h10, h11]
  | _ =>
    simp only [exec, Cmd.shape, GLState.shape, h1, h2, h3, h4, h5, h6, h7, h8, h9, h10, h11]

theorem shape_run {σ : GLState K} {τ : GLState Unit} (h : σ.shape = τ.shape)
    (cmds : List (Cmd K)) :
    (run σ cmds).shape = (run τ (cmds.map Cmd.shape)).shape := by
  induction cmds generalizing σ τ with
  | nil => exact h
  | cons c cs ih => exact ih (shape_exec h c)

/-- A projection of the trace that reads only the shape of the context and the
command without its `float` payload can be computed on the erased commands. -/
theorem filterMap_trace_shape {α : Type} (f : GLState K × Cmd K → Option α)
    (g : GLState Unit × Cmd Unit → Option α)
    (hfg : ∀ (σ : GLState K) (τ : GLState Unit) (c : Cmd K), σ.shape = τ.shape →
      f (σ, c) = g (τ, c.shape))
    (cmds : List (Cmd K)) (σ : GLState K) (τ : GLState Unit) (h : σ.shape = τ.shape) :
    (trace σ cmds).filterMap f = (trace τ (cmds.map Cmd.shape)).filterMap g := by
  induction cmds generalizing σ τ with
  | nil => rfl
  | cons c cs ih =>
    simp only [trace, List.map_cons, List.filterMap_cons, hfg σ τ c h, ih _ _ (shape_exec h c)]

theorem isDraw_shape (c : Cmd K) : c.shape.isDraw = c.isDraw := by
  cases c <;> rfl

theorem phaseOf_shape (σ : GLState K) (τ : GLState Unit) (c : Cmd K) (h : σ.shape = τ.shape) :
    phaseOf (σ, c) = phaseOf (τ, c.shape) := by
  simp only [GLState.shape, Shape.mk.injEq] at h
  obtain ⟨h1, h2, -⟩ := h
  cases c <;> simp only [phaseOf, Cmd.shape, Cmd.isDraw, h1, h2]

theorem drawn_shape (σ : GLState K) (τ : GLState Unit) (c : Cmd K) (h : σ.shape = τ.shape) :
    drawn (σ, c) = drawn (τ, c.shape) := by
  simp only [GLState.shape, Shape.mk.injEq] at h
  obtain ⟨h1, h2, h3, -⟩ := h
  cases c <;> simp only [drawn, Cmd.shape, h1, h2, h3]

theorem drawShape_shape (σ : GLState K) (τ : GLState Unit) (c : Cmd K) (h : σ.shape = τ.shape) :
    drawShape (σ, c) = drawShape (τ, c.shape) := by
  simp only [drawShape, isDraw_shape, phaseOf_shape σ τ c h, h]

theorem textureBind_shape (σ : GLState K) (τ : GLState Unit) (c : Cmd K)
    (h : σ.shape = τ.shape) :
    textureBind (σ, c) = textureBind (τ, c.shape) := by
  simp only [GLState.shape, Shape.mk.injEq] at h
  obtain ⟨-, -, -, h4, -⟩ := h
  cases c <;> simp only [textureBind, Cmd.shape, h4]

end ShapeFacts

section FrameShapes

variable {K : Type} [LinearOrderedField K]

/-! ## The erased frame with its integer arguments -/

theorem renderScene_shape (ops : FloatOps K) (ps : ProgramState K) (sh : Shader) :
    (renderScene ops ps sh).map Cmd.shape
      = (renderScene ratOps defaultState sh).map Cmd.shape := by
  simp only [renderScene, List.map_cons, List.map_nil, Cmd.shape]

theorem uploadShadowMatrices_shape (ops : FloatOps K) (L : Vec3 K) (L2 : Vec3 ℚ) :
    (uploadShadowMatrices (shadowTransforms ops L)).map Cmd.shape
      = (uploadShadowMatrices (shadowTransforms ratOps L2)).map Cmd.shape := by
  simp only [uploadShadowMatrices, shadowTransforms, shadowViews, shadowLookAtArgs, List.map_cons,
    List.map_nil, List.range_succ, List.range_zero, List.filterMap_cons, List.filterMap_nil,
    List.nil_append, List.cons_append, List.get?, Option.map, Cmd.shape]

theorem depthPass1_shape (ops : FloatOps K) (ps : ProgramState K) (ps2 : ProgramState ℚ) :
    (depthPass1 ops ps).map Cmd.shape = (depthPass1 ratOps ps2).map Cmd.shape := by
  simp only [depthPass1, List.map_append, renderScene_shape ops, renderScene_shape ratOps ps2,
    shadowTransforms1, uploadShadowMatrices_shape ops _ (lightPos 0)]
  rfl

theorem depthPass2_shape (ops : FloatOps K) (ps : ProgramState K) (ps2 : ProgramState ℚ) :
    (depthPass2 ops ps).map Cmd.shape = (depthPass2 ratOps ps2).map Cmd.shape := by
  simp only [depthPass2, List.map_append, renderScene_shape ops, renderScene_shape ratOps ps2,
    shadowTransforms2, uploadShadowMatrices_shape ops _ (lightPos 1)]
  rfl

theorem litPass_shape (ops : FloatOps K) (ps : ProgramState K) (sw : Bool)
    (ps2 : ProgramState ℚ) (h : ps2.shadows = ps.shadows) :
    (litPass ops ps sw).map Cmd.shape = (litPass ratOps ps2 sw).map Cmd.shape := by
  simp only [litPass, List.map_append, renderScene_shape ops, renderScene_shape ratOps ps2,
    List.map_cons, List.map_nil, Cmd.shape, h]

theorem terrainPass_shape (ops : FloatOps K) :
    (terrainPass ops).map Cmd.shape = (terrainPass ratOps).map Cmd.shape := by
  simp only [terrainPass, List.map_cons, List.map_nil, Cmd.shape]

theorem skyboxPass_shape (ops : FloatOps K) (ps : ProgramState K) (ps2 : ProgramState ℚ) :
    (skyboxPass ops ps).map Cmd.shape = (skyboxPass ratOps ps2).map Cmd.shape := by
  simp only [skyboxPass, List.map_cons, List.map_nil, Cmd.shape]

theorem renderFrame_shape_congr (ops : FloatOps K) (ps : ProgramState K) (sw : Bool)
    (ps2 : ProgramState ℚ) (h1 : ps2.shadows = ps.shadows)
    (h2 : ps2.ImGuiEnabled = ps.ImGuiEnabled) :
    (renderFrame ops ps sw).map Cmd.shape = (renderFrame ratOps ps2 sw).map Cmd.shape := by
  simp only [renderFrame, List.map_append, depthPass1_shape ops ps ps2,
    depthPass2_shape ops ps ps2, litPass_shape ops ps sw ps2 h1, terrainPass_shape ops,
    skyboxPass_shape ops ps ps2, h2]
  cases ps.ImGuiEnabled <;> rfl

theorem renderFrame_shape (ops : FloatOps K) (ps : ProgramState K) (sw : Bool) :
    (renderFrame ops ps sw).map Cmd.shape = frameShapes ps.ImGuiEnabled ps.shadows sw :=
  renderFrame_shape_congr ops ps sw _ rfl rfl

/-! ## The frame from the shapes a loop iteration starts in -/

/-- The shape a frame leaves, from each shape a loop iteration starts in. -/
theorem frameShapes_run (ui b sw : Bool) :
    (run entryShape.toState (frameShapes ui b sw)).shape = frameEndShape b
    ∧ (run (frameEndShape false).toState (frameShapes ui b sw)).shape = frameEndShape b
    ∧ (run (frameEndShape true).toState (frameShapes ui b sw)).shape = frameEndShape b := by
  cases ui <;> cases b <;> cases sw <;> decide!

/-- What the draws of the erased frame draw and into which framebuffer. -/
theorem frameShapes_drawn (s : Shape)
    (hs : s = entryShape ∨ s = frameEndShape false ∨ s = frameEndShape true)
    (ui b sw : Bool) :
    (trace s.toState (frameShapes ui b sw)).filterMap drawn
      = [ (Framebuffer.depthMap1FBO, some Shader.depthShader, Drawn.model Model.AE86),
          (Framebuffer.depthMap1FBO, some Shader.depthShader, Drawn.model Model.lamps),
          (Framebuffer.depthMap1FBO, some Shader.depthShader, Drawn.model Model.dumpster),
          (Framebuffer.depthMap1FBO, some Shader.depthShader, Drawn.model Model.dumpster),
          (Framebuffer.depthMap1FBO, some Shader.depthShader, Drawn.model Model.dumpster),
          (Framebuffer.depthMap2FBO, some Shader.depthShader, Drawn.model Model.AE86),
          (Framebuffer.depthMap2FBO, some Shader.depthShader, Drawn.model Model.lamps),
          (Framebuffer.depthMap2FBO, some Shader.depthShader, Drawn.model Model.dumpster),
          (Framebuffer.depthMap2FBO, some Shader.depthShader, Drawn.model Model.dumpster),
          (Framebuffer.depthMap2FBO, some Shader.depthShader, Drawn.model Model.dumpster),
          (Framebuffer.default, some Shader.ourShader, Drawn.model Model.AE86),
          (Framebuffer.default, some Shader.ourShader, Drawn.model Model.lamps),
          (Framebuffer.default, some Shader.ourShader, Drawn.model Model.dumpster),
          (Framebuffer.default, some Shader.ourShader, Drawn.model Model.dumpster),
          (Framebuffer.default, some Shader.ourShader, Drawn.model Model.dumpster),
          (Framebuffer.default, some Shader.ourShader, Drawn.array VertexArray.VAO 0 6),
          (Framebuffer.default, some Shader.skyboxShader,
            Drawn.array VertexArray.skyboxVAO 0 36) ] := by
  rcases hs with h | h | h <;> subst h <;> cases ui <;> cases b <;> cases sw <;> decide!

/-- The bindings at the draws of the erased frame. -/
theorem frameShapes_bindings (s : Shape)
    (hs : s = entryShape ∨ s = frameEndShape false ∨ s = frameEndShape true)
    (ui b sw : Bool) :
    ∀ x ∈ (trace s.toState (frameShapes ui b sw)).filterMap drawShape,
      drawBindingsOk b x = true := by
  rcases hs with h | h | h <;> subst h <;> cases ui <;> cases b <;> cases sw <;> decide!

/-- The texture bindings of the erased frame. -/
theorem frameShapes_textureBinds (s : Shape)
    (hs : s = entryShape ∨ s = frameEndShape false ∨ s = frameEndShape true)
    (ui b sw : Bool) :
    (trace s.toState (frameShapes ui b sw)).filterMap textureBind
      = [ (0, TexTarget.GL_TEXTURE_2D, Texture.roadTex),
          (1, TexTarget.GL_TEXTURE_CUBE_MAP, Texture.depthCubemap1),
          (2, TexTarget.GL_TEXTURE_CUBE_MAP, Texture.depthCubemap2),
          (0, TexTarget.GL_TEXTURE_2D, Texture.roadTex),
          (0, TexTarget.GL_TEXTURE_2D, Texture.zero),
          (0, TexTarget.GL_TEXTURE_CUBE_MAP, Texture.cubemapTexture) ] := by
  rcases hs with h | h | h <;> subst h <;> cases ui <;> cases b <;> cases sw <;> decide!

end FrameShapes

section LoopShapes

variable {K : Type} [LinearOrderedField K]

/-! ## The shape of the context over the render loop -/

theorem renderFrame_run_shape (ops : FloatOps K) (ps : ProgramState K) (sw : Bool)
    (σ : GLState K) (hσ : AtFrameStart σ) :
    (run σ (renderFrame ops ps sw)).shape = frameEndShape ps.shadows := by
  have h := shape_run (toState_shape σ.shape).symm (renderFrame ops ps sw)
  rw [h, renderFrame_shape]
  have hr := frameShapes_run ps.ImGuiEnabled ps.shadows sw
  rcases hσ with hs | hs | hs <;> rw [hs]
  · exact hr.1
  · exact hr.2.1
  · exact hr.2.2

omit [LinearOrderedField K] in
/-- The framebuffer-size callbacks leave the shape of the context unchanged. -/
theorem resizes_shape (σ : GLState K) (rs : List (Nat × Nat)) :
    (run σ (rs.flatMap fun wh => framebuffer_size_callback wh.1 wh.2)).shape = σ.shape := by
  induction rs generalizing σ with
  | nil => rfl
  | cons r rs ih => exact ih (exec σ (Cmd.viewport 0 0 r.1 r.2))

theorem loopIteration_atFrameStart (ops : FloatOps K) (inp : FrameInput K) (σ : GLState K)
    (hσ : AtFrameStart σ) : AtFrameStart (run σ (loopIteration ops inp)) := by
  have h : (run σ (loopIteration ops inp)).shape = frameEndShape inp.ps.shadows := by
    rw [loopIteration, run_append, resizes_shape, renderFrame_run_shape ops _ _ σ hσ]
  unfold AtFrameStart
  rw [h]
  cases inp.ps.shadows
  · exact Or.inr (Or.inl rfl)
  · exact Or.inr (Or.inr rfl)

theorem loopEntry_shape : (loopEntry K).shape = entryShape := by
  have h0 : (glInitial K SCR_WIDTH SCR_HEIGHT).shape
      = (glInitial Unit SCR_WIDTH SCR_HEIGHT).shape := rfl
  have h := shape_run h0 (setup (K := K))
  have he : (setup (K := K)).map Cmd.shape = setupShapes := rfl
  rw [loopEntry, h, he]
  decide!

/-- Every iteration of the render loop starts in a context whose shape is the
one at loop entry or the one a frame leaves. -/
theorem renderLoop_atFrameStart (ops : FloatOps K) (inputs : List (FrameInput K)) :
    AtFrameStart (run (loopEntry K) (renderLoop ops inputs)) := by
  have key : ∀ (σ : GLState K), AtFrameStart σ → AtFrameStart (run σ (renderLoop ops inputs)) := by
    induction inputs with
    | nil => intro σ hσ; exact hσ
    | cons inp rest ih =>
      intro σ hσ
      rw [renderLoop, List.flatMap_cons, run_append]
      exact ih _ (loopIteration_atFrameStart ops inp σ hσ)
  exact key _ (Or.inl loopEntry_shape)

/-- What the draws of a frame draw, and into which framebuffer with which
program. -/
theorem renderFrame_drawn (ops : FloatOps K) (ps : ProgramState K) (sw : Bool)
    (σ : GLState K) (hσ : AtFrameStart σ) :
    (trace σ (renderFrame ops ps sw)).filterMap drawn
      = [ (Framebuffer.depthMap1FBO, some Shader.depthShader, Drawn.model Model.AE86),
          (Framebuffer.depthMap1FBO, some Shader.depthShader, Drawn.model Model.lamps),
          (Framebuffer.depthMap1FBO, some Shader.depthShader, Drawn.model Model.dumpster),
          (Framebuffer.depthMap1FBO, some Shader.depthShader, Drawn.model Model.dumpster),
          (Framebuffer.depthMap1FBO, some Shader.depthShader, Drawn.model Model.dumpster),
          (Framebuffer.depthMap2FBO, some Shader.depthShader, Drawn.model Model.AE86),
          (Framebuffer.depthMap2FBO, some Shader.depthShader, Drawn.model Model.lamps),
          (Framebuffer.depthMap2FBO, some Shader.depthShader, Drawn.model Model.dumpster),
          (Framebuffer.depthMap2FBO, some Shader.depthShader, Drawn.model Model.dumpster),
          (Framebuffer.depthMap2FBO, some Shader.depthShader, Drawn.model Model.dumpster),
          (Framebuffer.default, some Shader.ourShader, Drawn.model Model.AE86),
          (Framebuffer.default, some Shader.ourShader, Drawn.model Model.lamps),
          (Framebuffer.default, some Shader.ourShader, Drawn.model Model.dumpster),
          (Framebuffer.default, some Shader.ourShader, Drawn.model Model.dumpster),
          (Framebuffer.default, some Shader.ourShader, Drawn.model Model.dumpster),
          (Framebuffer.default, some Shader.ourShader, Drawn.array VertexArray.VAO 0 6),
          (Framebuffer.default, some Shader.skyboxShader,
            Drawn.array VertexArray.skyboxVAO 0 36) ] := by
  rw [filterMap_trace_shape drawn drawn drawn_shape _ σ _ (toState_shape σ.shape).symm,
    renderFrame_shape]
  exact frameShapes_drawn σ.shape hσ _ _ _

/-- The bindings at the draws of a frame. -/
theorem renderFrame_bindings (ops : FloatOps K) (ps : ProgramState K) (sw : Bool)
    (σ : GLState K) (hσ : AtFrameStart σ) :
    ∀ e ∈ trace σ (renderFrame ops ps sw), e.2.isDraw = true →
      drawBindingsOk ps.shadows (phaseOf e, e.1.shape) = true := by
  intro e he hd
  have hmem : (phaseOf e, e.1.shape) ∈ (trace σ (renderFrame ops ps sw)).filterMap drawShape :=
    List.mem_filterMap.2 ⟨e, he, by simp only [drawShape, hd, if_true]⟩
  rw [filterMap_trace_shape drawShape drawShape drawShape_shape _ σ _
    (toState_shape σ.shape).symm, renderFrame_shape] at hmem
  exact frameShapes_bindings σ.shape hσ _ _ _ _ hmem

/-- The texture bindings of a frame. -/
theorem renderFrame_textureBinds (ops : FloatOps K) (ps : ProgramState K) (sw : Bool)
    (σ : GLState K) (hσ : AtFrameStart σ) :
    (trace σ (renderFrame ops ps sw)).filterMap textureBind
      = [ (0, TexTarget.GL_TEXTURE_2D, Texture.roadTex),
          (1, TexTarget.GL_TEXTURE_CUBE_MAP, Texture.depthCubemap1),
          (2, TexTarget.GL_TEXTURE_CUBE_MAP, Texture.depthCubemap2),
          (0, TexTarget.GL_TEXTURE_2D, Texture.roadTex),
          (0, TexTarget.GL_TEXTURE_2D, Texture.zero),
          (0, TexTarget.GL_TEXTURE_CUBE_MAP, Texture.cubemapTexture) ] := by
  rw [filterMap_trace_shape textureBind textureBind textureBind_shape _ σ _
    (toState_shape σ.shape).symm, renderFrame_shape]
  exact frameShapes_textureBinds σ.shape hσ _ _ _

omit [LinearOrderedField K] in
/-- A lit-pass or depth-pass command is a draw. -/
theorem isDraw_of_phaseOf (e : GLState K × Cmd K) (p : Phase) (h : phaseOf e = some p)
    (hp : p ≠ Phase.uiOverlay ∧ p ≠ Phase.present) : e.2.isDraw = true := by
  obtain ⟨σ, c⟩ := e
  cases c <;> simp_all [phaseOf, Cmd.isDraw]

end LoopShapes

section SceneClaims

variable {K : Type} [LinearOrderedField K]

/-! ## What is drawn where, and the bindings of the lit pass -/

/-- C11 (as stated, refuted): in the first frame of the program started without
a settings file, the ground quad (the six vertices of `VAO`) is drawn into
neither depth framebuffer; it is drawn into the default framebuffer with
`ourShader`, so for each light the objects drawn into its cube map are not the
objects drawn in the lit pass. -/
theorem C11_ground_not_in_depth_passes :
    (∀ i : Fin 2, ∀ p : Option Shader,
      (depthMapFBO i, p, Drawn.array VertexArray.VAO 0 6)
        ∉ (trace (loopEntry ℚ) (renderFrame ratOps defaultState false)).filterMap drawn)
    ∧ (Framebuffer.default, some Shader.ourShader, Drawn.array VertexArray.VAO 0 6)
        ∈ (trace (loopEntry ℚ) (renderFrame ratOps defaultState false)).filterMap drawn
    ∧ (∀ i : Fin 2,
        (((trace (loopEntry ℚ) (renderFrame ratOps defaultState false)).filterMap
            drawn).filter fun d => decide (d.1 = depthMapFBO i)).map (fun d => d.2.2)
        ≠ (((trace (loopEntry ℚ) (renderFrame ratOps defaultState false)).filterMap
            drawn).filter fun d =>
              decide (d.1 = Framebuffer.default ∧ d.2.1 = some Shader.ourShader)).map
            (fun d => d.2.2)) := by
  rw [renderFrame_drawn ratOps defaultState false (loopEntry ℚ) (Or.inl loopEntry_shape)]
  refine ⟨?_, by decide, by decide⟩
  intro i p
  rcases p with _ | sh
  · revert i; decide
  · cases sh <;> revert i <;> decide

/-- C11 (amended): `renderScene`, used by both depth passes and by the lit pass,
issues the draw calls of the car, the lamps and the three dumpsters, and not of
the ground.  In every frame of the render loop the objects drawn into each
light's depth cube map are these five models, the same for both lights; the lit
pass draws the same five models with `ourShader` and then the ground quad, which
`main` draws itself (lines 545-556): the ground is drawn once per frame, into
the default framebuffer, and in no depth pass. -/
theorem C11_scene_draws (ops : FloatOps K) (inputs : List (FrameInput K))
    (ps : ProgramState K) (spotSwitch : Bool) :
    (∀ sh : Shader, (renderScene ops ps sh).filter Cmd.isDraw
        = [ Cmd.drawModel Model.AE86 sh, Cmd.drawModel Model.lamps sh,
            Cmd.drawModel Model.dumpster sh, Cmd.drawModel Model.dumpster sh,
            Cmd.drawModel Model.dumpster sh ])
    ∧ (terrainPass ops).filter Cmd.isDraw = [Cmd.drawArrays 0 6]
    ∧ (trace (run (loopEntry K) (renderLoop ops inputs))
          (renderFrame ops ps spotSwitch)).filterMap drawn
        = [ (Framebuffer.depthMap1FBO, some Shader.depthShader, Drawn.model Model.AE86),
            (Framebuffer.depthMap1FBO, some Shader.depthShader, Drawn.model Model.lamps),
            (Framebuffer.depthMap1FBO, some Shader.depthShader, Drawn.model Model.dumpster),
            (Framebuffer.depthMap1FBO, some Shader.depthShader, Drawn.model Model.dumpster),
            (Framebuffer.depthMap1FBO, some Shader.depthShader, Drawn.model Model.dumpster),
            (Framebuffer.depthMap2FBO, some Shader.depthShader, Drawn.model Model.AE86),
            (Framebuffer.depthMap2FBO, some Shader.depthShader, Drawn.model Model.lamps),
            (Framebuffer.depthMap2FBO, some Shader.depthShader, Drawn.model Model.dumpster),
            (Framebuffer.depthMap2FBO, some Shader.depthShader, Drawn.model Model.dumpster),
            (Framebuffer.depthMap2FBO, some Shader.depthShader, Drawn.model Model.dumpster),
            (Framebuffer.default, some Shader.ourShader, Drawn.model Model.AE86),
            (Framebuffer.default, some Shader.ourShader, Drawn.model Model.lamps),
            (Framebuffer.default, some Shader.ourShader, Drawn.model Model.dumpster),
            (Framebuffer.default, some Shader.ourShader, Drawn.model Model.dumpster),
            (Framebuffer.default, some Shader.ourShader, Drawn.model Model.dumpster),
            (Framebuffer.default, some Shader.ourShader, Drawn.array VertexArray.VAO 0 6),
            (Framebuffer.default, some Shader.skyboxShader,
              Drawn.array VertexArray.skyboxVAO 0 36) ]
    ∧ (∀ i : Fin 2,
        (((trace (run (loopEntry K) (renderLoop ops inputs))
            (renderFrame ops ps spotSwitch)).filterMap drawn).filter
              fun d => decide (d.1 = depthMapFBO i)).map (fun d => d.2.2)
          = [ Drawn.model Model.AE86, Drawn.model Model.lamps, Drawn.model Model.dumpster,
              Drawn.model Model.dumpster, Drawn.model Model.dumpster ])
    ∧ (((trace (run (loopEntry K) (renderLoop ops inputs))
            (renderFrame ops ps spotSwitch)).filterMap drawn).filter
              fun d => decide (d.1 = Framebuffer.default ∧ d.2.1 = some Shader.ourShader)).map
            (fun d => d.2.2)
          = [ Drawn.model Model.AE86, Drawn.model Model.lamps, Drawn.model Model.dumpster,
              Drawn.model Model.dumpster, Drawn.model Model.dumpster,
              Drawn.array VertexArray.VAO 0 6 ] := by
  have h := renderFrame_drawn ops ps spotSwitch _ (renderLoop_atFrameStart ops inputs)
  refine ⟨fun sh => ?_, ?_, h, ?_, ?_⟩
  · simp only [renderScene, List.filter_cons, Cmd.isDraw, List.filter_nil, if_true,
      Bool.false_eq_true, if_false]
  · simp only [terrainPass, List.filter_cons, Cmd.isDraw, List.filter_nil, if_true,
      Bool.false_eq_true, if_false]
  · intro i
    rw [h]
    revert i
    decide
  · rw [h]
    decide

/-- C13: in every frame of the render loop, the lit pass binds `depthCubemap1` on
texture unit 1 and `depthCubemap2` on unit 2, while the diffuse texture `roadTex`
is bound on unit 0; at every draw of the lit pass the samplers `depthMap1` and
`depthMap2` of `ourShader` hold `1` and `2`, and the cube maps bound on the units
1 and 2 are `depthCubemap1` and `depthCubemap2`; the shader configuration of
`main` sets the sampler `material.texture_diffuse1` to `0`, `depthMap1` to `1`
and `depthMap2` to `2`.  The cube map of sampler `i` is the one
written by the depth pass of light `i`: at every draw of that pass the bound
framebuffer is that light's and its depth attachment is that cube map, the
commands issued while it is bound upload `lightPos[i]` as `lightPos`, and the
lit pass uploads the same `lightPos[i]` as `pointLight[i].position`. -/
theorem C13_shadow_maps_on_own_units (ops : FloatOps K) (inputs : List (FrameInput K))
    (ps : ProgramState K) (spotSwitch : Bool) :
    (trace (run (loopEntry K) (renderLoop ops inputs))
        (renderFrame ops ps spotSwitch)).filterMap textureBind
      = [ (0, TexTarget.GL_TEXTURE_2D, Texture.roadTex),
          (1, TexTarget.GL_TEXTURE_CUBE_MAP, Texture.depthCubemap1),
          (2, TexTarget.GL_TEXTURE_CUBE_MAP, Texture.depthCubemap2),
          (0, TexTarget.GL_TEXTURE_2D, Texture.roadTex),
          (0, TexTarget.GL_TEXTURE_2D, Texture.zero),
          (0, TexTarget.GL_TEXTURE_CUBE_MAP, Texture.cubemapTexture) ]
    ∧ (∀ c ∈ [ Cmd.setInt Shader.ourShader "material.texture_diffuse1" 0,
          Cmd.setInt Shader.ourShader "depthMap1" 1,
          Cmd.setInt Shader.ourShader "depthMap2" 2 ], c ∈ setup (K := K))
    ∧ (∀ e ∈ trace (run (loopEntry K) (renderLoop ops inputs)) (renderFrame ops ps spotSwitch),
        phaseOf e = some Phase.lightingPass →
          e.1.int Shader.ourShader "depthMap1" = some 1
          ∧ e.1.int Shader.ourShader "depthMap2" = some 2
          ∧ e.1.textureCubeMap 1 = Texture.depthCubemap1
          ∧ e.1.textureCubeMap 2 = Texture.depthCubemap2
          ∧ e.1.depthAttachment (depthMapFBO 0) = some (e.1.textureCubeMap 1)
          ∧ e.1.depthAttachment (depthMapFBO 1) = some (e.1.textureCubeMap 2))
    ∧ (∀ e ∈ trace (run (loopEntry K) (renderLoop ops inputs)) (renderFrame ops ps spotSwitch),
        (phaseOf e = some Phase.depthPass0 →
          e.1.framebuffer = depthMapFBO 0
          ∧ e.1.depthAttachment e.1.framebuffer = some Texture.depthCubemap1)
        ∧ (phaseOf e = some Phase.depthPass1 →
          e.1.framebuffer = depthMapFBO 1
          ∧ e.1.depthAttachment e.1.framebuffer = some Texture.depthCubemap2))
    ∧ (∀ i : Fin 2,
        Cmd.setVec3 Shader.depthShader "lightPos" (lightPos i)
          ∈ issuedInto (depthMapFBO i)
              (trace (run (loopEntry K) (renderLoop ops inputs))
                (renderFrame ops ps spotSwitch)))
    ∧ Cmd.setVec3 Shader.ourShader "pointLight[0].position" (lightPos 0)
        ∈ litPass ops ps spotSwitch
    ∧ Cmd.setVec3 Shader.ourShader "pointLight[1].position" (lightPos 1)
        ∈ litPass ops ps spotSwitch := by
  have hσ := renderLoop_atFrameStart ops inputs
  have hb := renderFrame_bindings ops ps spotSwitch _ hσ
  have hfb : (run (loopEntry K) (renderLoop ops inputs)).framebuffer = Framebuffer.default := by
    have : (run (loopEntry K) (renderLoop ops inputs)).shape.framebuffer
        = Framebuffer.default := by
      rcases hσ with h | h | h <;> rw [h] <;> rfl
    exact this
  refine ⟨renderFrame_textureBinds ops ps spotSwitch _ hσ, ?_, ?_, ?_, ?_, ?_, ?_⟩
  · intro c hc
    simp only [List.mem_cons, List.mem_singleton, List.not_mem_nil, or_false] at hc
    rcases hc with rfl | rfl | rfl <;>
      simp only [setup, List.mem_append, List.mem_cons, true_or, or_true]
  · intro e he hp
    have h := hb e he (isDraw_of_phaseOf e _ hp ⟨by decide, by decide⟩)
    simp only [drawBindingsOk, hp, decide_eq_true_eq] at h
    obtain ⟨h1, h2, h3, h4, h5, h6, -⟩ := h
    have h3' : e.1.textureCubeMap 1 = Texture.depthCubemap1 := h3
    have h4' : e.1.textureCubeMap 2 = Texture.depthCubemap2 := h4
    refine ⟨h1, h2, h3', h4', ?_, ?_⟩
    · rw [h3']; exact h5
    · rw [h4']; exact h6
  · intro e he
    constructor
    · intro hp
      have h := hb e he (isDraw_of_phaseOf e _ hp ⟨by decide, by decide⟩)
      simp only [drawBindingsOk, hp, decide_eq_true_eq] at h
      obtain ⟨h1, h2⟩ := h
      have h1' : e.1.framebuffer = Framebuffer.depthMap1FBO := h1
      refine ⟨h1', ?_⟩
      rw [h1']; exact h2
    · intro hp
      have h := hb e he (isDraw_of_phaseOf e _ hp ⟨by decide, by decide⟩)
      simp only [drawBindingsOk, hp, decide_eq_true_eq] at h
      obtain ⟨h1, h2⟩ := h
      have h1' : e.1.framebuffer = Framebuffer.depthMap2FBO := h1
      refine ⟨h1', ?_⟩
      rw [h1']; exact h2
  · intro i
    rw [issuedInto_trace, hfb, issuedWhileBound_renderFrame]
    simp only [List.mem_append, List.mem_cons, List.mem_singleton, true_or, or_true]
  · simp only [litPass, List.mem_append, List.mem_cons, true_or, or_true]
  · simp only [litPass, List.mem_append, List.mem_cons, true_or, or_true]

/-- C15: if the integer parameter `shadows` of the lit stage is `0`, the
occlusion test is skipped and yields "unoccluded" for every fragment, whatever
the cube maps hold, so the result of the lit stage is the one with no occluder
in the shadow test; in every frame of the render loop the host sets the
parameter `shadows` of `ourShader` to the current value of the flag, `0` when it
is false and `1` when it is true, before the draws of the lit pass: at each of
them the uniform holds that value. -/
theorem C15_shadows_flag (ops : FloatOps K) (inputs : List (FrameInput K))
    (ps : ProgramState K) (spotSwitch : Bool) :
    (∀ distance sampled fp bias : K, occluded 0 distance sampled fp bias = false)
    ∧ (∀ (α : Type) (shade : Bool → Bool → α) (fp bias : K) (distance sampled : Fin 2 → K),
        litFragment shade 0 fp bias distance sampled = shade false false)
    ∧ boolToInt false = 0 ∧ boolToInt true = 1
    ∧ Cmd.setInt Shader.ourShader "shadows" (boolToInt ps.shadows) ∈ litPass ops ps spotSwitch
    ∧ (∀ e ∈ trace (run (loopEntry K) (renderLoop ops inputs)) (renderFrame ops ps spotSwitch),
        phaseOf e = some Phase.lightingPass →
          e.1.int Shader.ourShader "shadows" = some (boolToInt ps.shadows))
    ∧ (ps.shadows = false →
        ∀ e ∈ trace (run (loopEntry K) (renderLoop ops inputs)) (renderFrame ops ps spotSwitch),
          phaseOf e = some Phase.lightingPass →
            ∃ flag : Int, e.1.int Shader.ourShader "shadows" = some flag
              ∧ ∀ (α : Type) (shade : Bool → Bool → α) (fp bias : K)
                  (distance sampled : Fin 2 → K),
                  litFragment shade flag fp bias distance sampled = shade false false) := by
  have hσ := renderLoop_atFrameStart ops inputs
  have hb := renderFrame_bindings ops ps spotSwitch _ hσ
  have hocc : ∀ distance sampled fp bias : K, occluded 0 distance sampled fp bias = false := by
    intro d s fp bias
    simp only [occluded, if_true]
  have hlit : ∀ (α : Type) (shade : Bool → Bool → α) (fp bias : K)
      (distance sampled : Fin 2 → K),
      litFragment shade 0 fp bias distance sampled = shade false false := by
    intro α shade fp bias d s
    simp only [litFragment, hocc]
  have hflag : ∀ e ∈ trace (run (loopEntry K) (renderLoop ops inputs))
      (renderFrame ops ps spotSwitch), phaseOf e = some Phase.lightingPass →
        e.1.int Shader.ourShader "shadows" = some (boolToInt ps.shadows) := by
    intro e he hp
    have h := hb e he (isDraw_of_phaseOf e _ hp ⟨by decide, by decide⟩)
    simp only [drawBindingsOk, hp, decide_eq_true_eq] at h
    exact h.2.2.2.2.2.2
  refine ⟨hocc, hlit, rfl, rfl, ?_, hflag, ?_⟩
  · simp only [litPass, List.mem_append, List.mem_cons, true_or, or_true]
  · intro hs e he hp
    refine ⟨0, ?_, hlit⟩
    rw [hflag e he hp, hs]
    rfl

end SceneClaims

section Viewport

variable {K : Type}

/-! ## The viewport at the draws -/

theorem exec_viewport (σ : GLState K) (c : Cmd K) :
    (exec σ c).viewport = c.newViewport.getD σ.viewport := by
  cases c with
  | bindTexture target t => cases target <;> rfl
  | setMat4 sh name m => simp only [exec]; split <;> rfl
  | setVec3 sh name m => simp only [exec]; split <;> rfl
  | setFloat sh name m => simp only [exec]; split <;> rfl
  | setInt sh name m => simp only [exec]; split <;> rfl
  | setBool sh name m => simp only [exec]; split <;> rfl
  | _ => rfl

theorem newViewport_erase (c : Cmd K) : c.erase.newViewport = c.newViewport := by
  cases c <;> rfl

theorem viewEq_step {σ : GLState K} {τ : GLState Unit} (h : ViewEq σ τ) (c : Cmd K) :
    ViewEq (exec σ c) (exec τ c.erase) := by
  refine ⟨h.1.exec c, ?_⟩
  rw [exec_viewport, exec_viewport, newViewport_erase, h.2]

/-- A projection of the trace that reads only framebuffer, program, depth
function, viewport and the erased command can be computed on the erased
commands. -/
theorem filterMap_trace_view {α : Type} (f : GLState K × Cmd K → Option α)
    (g : GLState Unit × Cmd Unit → Option α)
    (hfg : ∀ (σ : GLState K) (τ : GLState Unit) (c : Cmd K), ViewEq σ τ →
      f (σ, c) = g (τ, c.erase))
    (cmds : List (Cmd K)) (σ : GLState K) (τ : GLState Unit) (h : ViewEq σ τ) :
    (trace σ cmds).filterMap f = (trace τ (cmds.map Cmd.erase)).filterMap g := by
  induction cmds generalizing σ τ with
  | nil => rfl
  | cons c cs ih =>
    simp only [trace, List.map_cons, List.filterMap_cons, hfg σ τ c h,
      ih _ _ (viewEq_step h c)]

theorem viewportAt_erase (σ : GLState K) (τ : GLState Unit) (c : Cmd K) (h : ViewEq σ τ) :
    viewportAt (σ, c) = viewportAt (τ, c.erase) := by
  simp only [viewportAt, isDraw_erase, phaseOf_erase σ τ c h.1, h.2]

/-- The viewport at the draws of the erased frame after its first three
commands, the third of which sets the viewport of the depth passes. -/
theorem frameSkeleton_viewports (fb : Framebuffer) (prog : Option Shader) (df : DepthFunc)
    (ui : Bool) :
    (trace (viewState fb prog df (0, 0, SHADOW_WIDTH, SHADOW_HEIGHT))
        ((frameSkeleton ui).drop 3)).filterMap viewportAt
      = List.replicate 5 (some Phase.depthPass0, (0, 0, SHADOW_WIDTH, SHADOW_HEIGHT))
        ++ List.replicate 5 (some Phase.depthPass1, (0, 0, SHADOW_WIDTH, SHADOW_HEIGHT))
        ++ List.replicate 6 (some Phase.lightingPass, (0, 0, SCR_WIDTH, SCR_HEIGHT))
        ++ [(some Phase.skyboxPass, (0, 0, SCR_WIDTH, SCR_HEIGHT))] := by
  rcases prog with _ | sh
  · cases fb <;> cases df <;> cases ui <;> decide!
  · cases sh <;> cases fb <;> cases df <;> cases ui <;> decide!

end Viewport

section ViewportLoop

variable {K : Type} [LinearOrderedField K]

/-- A frame starts with `glClearColor`, `glClear` and the `glViewport` of the
depth passes. -/
theorem renderFrame_head (ops : FloatOps K) (ps : ProgramState K) (sw : Bool) :
    renderFrame ops ps sw
      = [ Cmd.clearColor 0.1 0.1 0.1 1.0, Cmd.clear true true,
          Cmd.viewport 0 0 SHADOW_WIDTH SHADOW_HEIGHT ]
        ++ (renderFrame ops ps sw).drop 3 := by
  simp only [renderFrame, depthPass1, List.cons_append, List.nil_append, List.append_assoc,
    List.drop_succ_cons, List.drop_zero]

/-- The viewport at the draws of a frame, whatever the context it starts in. -/
theorem renderFrame_viewports (ops : FloatOps K) (ps : ProgramState K) (sw : Bool)
    (σ : GLState K) :
    (trace σ (renderFrame ops ps sw)).filterMap viewportAt
      = List.replicate 5 (some Phase.depthPass0, (0, 0, SHADOW_WIDTH, SHADOW_HEIGHT))
        ++ List.replicate 5 (some Phase.depthPass1, (0, 0, SHADOW_WIDTH, SHADOW_HEIGHT))
        ++ List.replicate 6 (some Phase.lightingPass, (0, 0, SCR_WIDTH, SCR_HEIGHT))
        ++ [(some Phase.skyboxPass, (0, 0, SCR_WIDTH, SCR_HEIGHT))] := by
  have hdrop : ((renderFrame ops ps sw).drop 3).map Cmd.erase
      = (frameSkeleton ps.ImGuiEnabled).drop 3 := by
    rw [← renderFrame_erase ops ps sw, List.map_drop]
  have hview : ViewEq
      (run σ [ Cmd.clearColor 0.1 0.1 0.1 1.0, Cmd.clear true true,
        Cmd.viewport 0 0 SHADOW_WIDTH SHADOW_HEIGHT ])
      (viewState σ.framebuffer σ.program σ.depthFunc (0, 0, SHADOW_WIDTH, SHADOW_HEIGHT)) :=
    ⟨⟨rfl, rfl, rfl⟩, rfl⟩
  rw [renderFrame_head, trace_append, List.filterMap_append,
    filterMap_trace_view viewportAt viewportAt viewportAt_erase _ _ _ hview, hdrop,
    frameSkeleton_viewports]
  rfl

omit [LinearOrderedField K] in
/-- The framebuffer-size callbacks issue no draw. -/
theorem resizes_viewportAt (σ : GLState K) (rs : List (Nat × Nat)) :
    (trace σ (rs.flatMap fun wh => framebuffer_size_callback (K := K) wh.1 wh.2)).filterMap
      viewportAt = [] := by
  induction rs generalizing σ with
  | nil => rfl
  | cons r rs ih => exact ih (exec σ (Cmd.viewport 0 0 r.1 r.2))

/-- The viewport at every draw of the render loop. -/
theorem renderLoop_viewports (ops : FloatOps K) (inputs : List (FrameInput K)) (σ : GLState K) :
    ∀ x ∈ (trace σ (renderLoop ops inputs)).filterMap viewportAt,
      x ∈ [ (some Phase.depthPass0, (0, 0, SHADOW_WIDTH, SHADOW_HEIGHT)),
            (some Phase.depthPass1, (0, 0, SHADOW_WIDTH, SHADOW_HEIGHT)),
            (some Phase.lightingPass, (0, 0, SCR_WIDTH, SCR_HEIGHT)),
            (some Phase.skyboxPass, (0, 0, SCR_WIDTH, SCR_HEIGHT)) ] := by
  induction inputs generalizing σ with
  | nil => intro x hx; cases hx
  | cons inp rest ih =>
    intro x hx
    rw [renderLoop, List.flatMap_cons, trace_append, List.filterMap_append,
      List.mem_append] at hx
    rcases hx with hx | hx
    · rw [loopIteration, trace_append, List.filterMap_append, resizes_viewportAt,
        List.append_nil, renderFrame_viewports] at hx
      simp only [List.replicate, List.cons_append, List.nil_append, List.mem_cons,
        List.mem_singleton, List.not_mem_nil, or_false] at hx ⊢
      tauto
    · exact ih _ x hx

/-- C12: in every frame, whatever the context it starts in - in particular
whatever viewport a framebuffer-size callback has set between frames - the
viewport in effect at each of the five draws of the depth pass of light 0 and
of light 1 is `(0, 0, 1024, 1024)`, and at each draw of the lit pass and at the
skybox draw it is `(0, 0, 800, 600)`; so it is at every draw of the render loop,
for all framebuffer-size events delivered between the frames. -/
theorem C12_viewport_per_pass (ops : FloatOps K) (inputs : List (FrameInput K)) :
    (∀ (σ : GLState K) (ps : ProgramState K) (spotSwitch : Bool),
      (trace σ (renderFrame ops ps spotSwitch)).filterMap viewportAt
        = List.replicate 5 (some Phase.depthPass0, (0, 0, 1024, 1024))
          ++ List.replicate 5 (some Phase.depthPass1, (0, 0, 1024, 1024))
          ++ List.replicate 6 (some Phase.lightingPass, (0, 0, 800, 600))
          ++ [(some Phase.skyboxPass, (0, 0, 800, 600))])
    ∧ (∀ e ∈ trace (loopEntry K) (renderLoop ops inputs), e.2.isDraw = true →
        ((phaseOf e = some Phase.depthPass0 ∨ phaseOf e = some Phase.depthPass1) →
          e.1.viewport = (0, 0, 1024, 1024))
        ∧ ((phaseOf e = some Phase.lightingPass ∨ phaseOf e = some Phase.skyboxPass) →
          e.1.viewport = (0, 0, 800, 600))
        ∧ (phaseOf e = some Phase.depthPass0 ∨ phaseOf e = some Phase.depthPass1
            ∨ phaseOf e = some Phase.lightingPass ∨ phaseOf e = some Phase.skyboxPass))
    ∧ (∀ (σ : GLState K) (w h : Nat),
        (run σ (framebuffer_size_callback w h)).viewport = (0, 0, w, h)) := by
  refine ⟨fun σ ps sw => renderFrame_viewports ops ps sw σ, ?_, fun σ w h => rfl⟩
  intro e he hd
  have hmem : (phaseOf e, e.1.viewport)
      ∈ (trace (loopEntry K) (renderLoop ops inputs)).filterMap viewportAt :=
    List.mem_filterMap.2 ⟨e, he, by simp only [viewportAt, hd, if_true]⟩
  have h := renderLoop_viewports ops inputs _ _ hmem
  simp only [List.mem_cons, List.mem_singleton, List.not_mem_nil, or_false, Prod.mk.injEq,
    SHADOW_WIDTH, SHADOW_HEIGHT, SCR_WIDTH, SCR_HEIGHT] at h
  rcases h with ⟨hp, hv⟩ | ⟨hp, hv⟩ | ⟨hp, hv⟩ | ⟨hp, hv⟩
  all_goals
    rw [hp, hv]
    simp
end ViewportLoop

section Keys

variable {K : Type}

/-- C16: the key toggles are edge-triggered.  `key_callback` flips `spotSwitch`
exactly when `key = GLFW_KEY_Y` and `action = GLFW_PRESS`, and flips
`ImGuiEnabled` exactly when `key = GLFW_KEY_F1` and `action = GLFW_PRESS`; for
every other pair, in particular for `GLFW_REPEAT` and `GLFW_RELEASE`, both flags
are unchanged; two consecutive `GLFW_PRESS` events of one key return both flags
to their original values. -/
theorem C16_key_toggles_edge_triggered (s : InputState K) (key scancode action mods : Int)
    (scancode2 mods2 : Int) :
    ((key_callback s key scancode action mods).spotSwitch
        = (if key = GLFW_KEY_Y ∧ action = GLFW_PRESS then !s.spotSwitch else s.spotSwitch))
    ∧ ((key_callback s key scancode action mods).ps.ImGuiEnabled
        = (if key = GLFW_KEY_F1 ∧ action = GLFW_PRESS then !s.ps.ImGuiEnabled
            else s.ps.ImGuiEnabled))
    ∧ ((key_callback s key scancode action mods).spotSwitch ≠ s.spotSwitch
        ↔ key = GLFW_KEY_Y ∧ action = GLFW_PRESS)
    ∧ ((key_callback s key scancode action mods).ps.ImGuiEnabled ≠ s.ps.ImGuiEnabled
        ↔ key = GLFW_KEY_F1 ∧ action = GLFW_PRESS)
    ∧ (key_callback s key scancode GLFW_REPEAT mods).spotSwitch = s.spotSwitch
    ∧ (key_callback s key scancode GLFW_REPEAT mods).ps.ImGuiEnabled = s.ps.ImGuiEnabled
    ∧ (key_callback s key scancode GLFW_RELEASE mods).spotSwitch = s.spotSwitch
    ∧ (key_callback s key scancode GLFW_RELEASE mods).ps.ImGuiEnabled = s.ps.ImGuiEnabled
    ∧ (key_callback (key_callback s key scancode GLFW_PRESS mods) key scancode2 GLFW_PRESS
        mods2).spotSwitch = s.spotSwitch
    ∧ (key_callback (key_callback s key scancode GLFW_PRESS mods) key scancode2 GLFW_PRESS
        mods2).ps.ImGuiEnabled = s.ps.ImGuiEnabled := by
  have hne : GLFW_KEY_F1 ≠ GLFW_KEY_Y := by decide
  have hrep : GLFW_REPEAT ≠ GLFW_PRESS := by decide
  have hrel : GLFW_RELEASE ≠ GLFW_PRESS := by decide
  have hspot : ∀ (t : InputState K) (k sc a m : Int),
      (key_callback t k sc a m).spotSwitch
        = (if k = GLFW_KEY_Y ∧ a = GLFW_PRESS then !t.spotSwitch else t.spotSwitch) := by
    intro t k sc a m
    unfold key_callback
    by_cases hY : k = GLFW_KEY_Y ∧ a = GLFW_PRESS
    · have hF : ¬ (k = GLFW_KEY_F1 ∧ a = GLFW_PRESS) := fun h => hne (h.1.symm.trans hY.1)
      simp only [if_pos hY, if_neg hF]
    · simp only [if_neg hY]
      split
      · split <;> rfl
      · rfl
  have hui : ∀ (t : InputState K) (k sc a m : Int),
      (key_callback t k sc a m).ps.ImGuiEnabled
        = (if k = GLFW_KEY_F1 ∧ a = GLFW_PRESS then !t.ps.ImGuiEnabled
            else t.ps.ImGuiEnabled) := by
    intro t k sc a m
    unfold key_callback
    by_cases hF : k = GLFW_KEY_F1 ∧ a = GLFW_PRESS
    · have hY : ¬ (k = GLFW_KEY_Y ∧ a = GLFW_PRESS) := fun h => hne (hF.1.symm.trans h.1)
      simp only [if_pos hF, if_neg hY]
      cases t.ps.ImGuiEnabled <;> rfl
    · by_cases hY : k = GLFW_KEY_Y ∧ a = GLFW_PRESS
      · simp only [if_neg hF, if_pos hY]
      · simp only [if_neg hF, if_neg hY]
  refine ⟨hspot _ _ _ _ _, hui _ _ _ _ _, ?_, ?_, ?_, ?_, ?_, ?_, ?_, ?_⟩
  · rw [hspot]
    by_cases hY : key = GLFW_KEY_Y ∧ action = GLFW_PRESS
    · simp only [hY, and_self, if_true, iff_true]
      cases s.spotSwitch <;> decide
    · simp only [hY, if_false, ne_eq, not_true_eq_false]
  · rw [hui]
    by_cases hF : key = GLFW_KEY_F1 ∧ action = GLFW_PRESS
    · simp only [hF, and_self, if_true, iff_true]
      cases s.ps.ImGuiEnabled <;> decide
    · simp only [hF, if_false, ne_eq, not_true_eq_false]
  · rw [hspot]; simp only [hrep, and_false, if_false]
  · rw [hui]; simp only [hrep, and_false, if_false]
  · rw [hspot]; simp only [hrel, and_false, if_false]
  · rw [hui]; simp only [hrel, and_false, if_false]
  · rw [hspot, hspot]
    by_cases hY : key = GLFW_KEY_Y
    · simp only [hY, and_self, if_true, Bool.not_not]
    · simp only [hY, false_and, if_false]
  · rw [hui, hui]
    by_cases hF : key = GLFW_KEY_F1
    · simp only [hF, and_self, if_true, Bool.not_not]
    · simp only [hF, false_and, if_false]

end Keys

section Shutdown

/-- C14 (as stated, refuted): the statements after the render loop release none
of the two shadow framebuffers, the two depth cube-map textures, the skybox and
ground vertex arrays and their buffers, and the resources they do release are
not released in the reverse of the order of acquisition: `programState` is
acquired before the three parts of ImGui and released before them. -/
theorem C14_no_release_of_gpu_objects :
    (∀ r ∈ gpuObjects, r ∈ acquired mainPath ∧ Stmt.release r ∉ mainPath)
    ∧ released shutdown
        ≠ ((acquired startup).reverse.filter fun r => decide (r ∈ released shutdown)) := by
  decide

/-- C14 (amended): on the path through the render loop, the statements after the
loop are `SaveToFile`, `delete programState`, `ImGui_ImplOpenGL3_Shutdown`,
`ImGui_ImplGlfw_Shutdown`, `ImGui::DestroyContext`, `glfwTerminate`, each
exactly once and in this order, after every acquisition and after the loop.
The settings are saved first; the three parts of ImGui are released in the
reverse of the order in which they were initialised; `programState`, acquired
before them, is released before them; no statement releases a shadow
framebuffer, a depth cube-map texture, a vertex array or a buffer: they exist
until `glfwTerminate`, the last statement, destroys the window and its
context. -/
theorem C14_shutdown_sequence :
    mainPath = startup ++ [Stmt.renderLoop] ++ shutdown
    ∧ shutdown
        = [ Stmt.SaveToFile, Stmt.release Resource.programState,
            Stmt.release Resource.imguiOpenGL3, Stmt.release Resource.imguiGlfw,
            Stmt.release Resource.imguiContext, Stmt.glfwTerminate ]
    ∧ shutdown.Nodup
    ∧ (∀ s ∈ shutdown, mainPath.count s = 1)
    ∧ (∀ s ∈ startup, ∀ r, s ≠ Stmt.release r ∧ s ≠ Stmt.SaveToFile ∧ s ≠ Stmt.glfwTerminate)
    ∧ released mainPath
        = [ Resource.programState, Resource.imguiOpenGL3, Resource.imguiGlfw,
            Resource.imguiContext ]
    ∧ (released mainPath).Nodup
    ∧ (∀ r ∈ released mainPath, r ∈ acquired startup)
    ∧ ((released mainPath).filter fun r => decide (r ≠ Resource.programState))
        = ((acquired startup).reverse.filter fun r =>
            decide (r ∈ released mainPath ∧ r ≠ Resource.programState))
    ∧ (∀ r ∈ gpuObjects, Stmt.release r ∉ mainPath)
    ∧ shutdown.getLast? = some Stmt.glfwTerminate := by
  refine ⟨rfl, rfl, by decide, by decide, ?_, by decide, by decide, by decide, by decide,
    by decide, by decide⟩
  intro s hs r
  simp only [startup, List.mem_cons, List.mem_singleton, List.not_mem_nil, or_false] at hs
  rcases hs with h | h | h | h | h | h | h | h | h | h | h | h | h | h | h | h | h | h | h | h
    | h | h | h <;> subst h <;> exact ⟨by simp, by simp, by simp⟩

end Shutdown

section Dumpsters

variable {K : Type} [LinearOrderedField K]

/-! ## The dumpster model matrices -/

/-- The function `glm::translate(m, v)` is the product `m * T(v)`. -/
theorem translate_eq_mul (m : Mat4 K) (v : Vec3 K) :
    translate m v = m.mul (translate Mat4.identity v) := by
  obtain ⟨c0, c1, c2, c3⟩ := m
  obtain ⟨x0, y0, z0, w0⟩ := c0
  obtain ⟨x1, y1, z1, w1⟩ := c1
  obtain ⟨x2, y2, z2, w2⟩ := c2
  obtain ⟨x3, y3, z3, w3⟩ := c3
  simp only [translate, Mat4.mul, Mat4.mulVec, Mat4.identity, Mat4.diag, Vec4.smul, Vec4.add,
    Mat4.mk.injEq, Vec4.mk.injEq]
  constructorm* _ ∧ _ <;> ring

/-- The function `glm::scale(m, v)` is the product `m * S(v)`. -/
theorem scale_eq_mul (m : Mat4 K) (v : Vec3 K) :
    scale m v = m.mul (scale Mat4.identity v) := by
  obtain ⟨c0, c1, c2, c3⟩ := m
  obtain ⟨x0, y0, z0, w0⟩ := c0
  obtain ⟨x1, y1, z1, w1⟩ := c1
  obtain ⟨x2, y2, z2, w2⟩ := c2
  obtain ⟨x3, y3, z3, w3⟩ := c3
  simp only [scale, Mat4.mul, Mat4.mulVec, Mat4.identity, Mat4.diag, Vec4.smul, Vec4.add,
    Mat4.mk.injEq, Vec4.mk.injEq]
  constructorm* _ ∧ _ <;> ring

/-- The function `glm::rotate(m, angle, v)` is the product `m * R(angle, v)`. -/
theorem rotate_eq_mul (ops : FloatOps K) (m : Mat4 K) (angle : K) (v : Vec3 K) :
    rotate ops m angle v = m.mul (rotate ops Mat4.identity angle v) := by
  obtain ⟨c0, c1, c2, c3⟩ := m
  obtain ⟨x0, y0, z0, w0⟩ := c0
  obtain ⟨x1, y1, z1, w1⟩ := c1
  obtain ⟨x2, y2, z2, w2⟩ := c2
  obtain ⟨x3, y3, z3, w3⟩ := c3
  simp only [rotate, Mat4.mul, Mat4.mulVec, Mat4.identity, Mat4.diag, Vec4.smul, Vec4.add,
    Mat4.mk.injEq, Vec4.mk.injEq]
  constructorm* _ ∧ _ <;> ring

/-- Two translations in a row are the translation by the sum. -/
theorem translate_translate (m : Mat4 K) (a b : Vec3 K) :
    translate (translate m a) b = translate m (a.add b) := by
  obtain ⟨c0, c1, c2, c3⟩ := m
  obtain ⟨x0, y0, z0, w0⟩ := c0
  obtain ⟨x1, y1, z1, w1⟩ := c1
  obtain ⟨x2, y2, z2, w2⟩ := c2
  obtain ⟨x3, y3, z3, w3⟩ := c3
  simp only [translate, Vec3.add, Vec4.smul, Vec4.add, Mat4.mk.injEq, Vec4.mk.injEq, true_and]
  constructorm* _ ∧ _ <;> ring

/-- The image of the local origin is the last column. -/
theorem mulVec_origin (m : Mat4 K) : m.mulVec ⟨0, 0, 0, 1⟩ = m.c3 := by
  obtain ⟨c0, c1, c2, c3⟩ := m
  obtain ⟨x0, y0, z0, w0⟩ := c0
  obtain ⟨x1, y1, z1, w1⟩ := c1
  obtain ⟨x2, y2, z2, w2⟩ := c2
  obtain ⟨x, y, z, w⟩ := c3
  simp only [Mat4.mulVec, Vec4.smul, Vec4.add, Vec4.mk.injEq]
  constructorm* _ ∧ _ <;> ring

/-- A rotation about the axis `(0, 1, 0)`, when `sqrt 1 = 1`: the columns of the
result in terms of the cosine and the sine of the angle. -/
theorem rotate_about_y (ops : FloatOps K) (h1 : ops.sqrt 1 = 1) (m : Mat4 K) (angle : K) :
    rotate ops m angle ⟨0, 1, 0⟩
      = ⟨(m.c0.smul (ops.cos angle)).add (m.c2.smul (-ops.sin angle)), m.c1,
          (m.c0.smul (ops.sin angle)).add (m.c2.smul (ops.cos angle)), m.c3⟩ := by
  have hd : dot (⟨0, 1, 0⟩ : Vec3 K) ⟨0, 1, 0⟩ = 1 := by
    simp only [dot]; norm_num
  obtain ⟨c0, c1, c2, c3⟩ := m
  obtain ⟨x0, y0, z0, w0⟩ := c0
  obtain ⟨x1, y1, z1, w1⟩ := c1
  obtain ⟨x2, y2, z2, w2⟩ := c2
  simp only [rotate, normalize, inversesqrt, hd, h1, Vec3.smul, Vec4.smul, Vec4.add,
    Mat4.mk.injEq, Vec4.mk.injEq]
  norm_num

/-- Rotations about `(0, 1, 0)` by opposite angles cancel. -/
theorem rotate_about_y_cancel (ops : FloatOps K) (h1 : ops.sqrt 1 = 1) (m : Mat4 K) (a b : K)
    (hc : ops.cos a = ops.cos b) (hs : ops.sin a = -ops.sin b)
    (hpyth : ops.cos b ^ 2 + ops.sin b ^ 2 = 1) :
    rotate ops (rotate ops m a ⟨0, 1, 0⟩) b ⟨0, 1, 0⟩ = m := by
  rw [rotate_about_y ops h1, rotate_about_y ops h1, hc, hs]
  obtain ⟨c0, c1, c2, c3⟩ := m
  obtain ⟨x0, y0, z0, w0⟩ := c0
  obtain ⟨x2, y2, z2, w2⟩ := c2
  simp only [Vec4.smul, Vec4.add, Mat4.mk.injEq, Vec4.mk.injEq, true_and, and_true]
  refine ⟨⟨?_, ?_, ?_, ?_⟩, ⟨?_, ?_, ?_, ?_⟩⟩
  · linear_combination x0 * hpyth
  · linear_combination y0 * hpyth
  · linear_combination z0 * hpyth
  · linear_combination w0 * hpyth
  · linear_combination x2 * hpyth
  · linear_combination y2 * hpyth
  · linear_combination z2 * hpyth
  · linear_combination w2 * hpyth

/-- The model matrices in effect at the three dumpster draws of `renderScene`,
as the chained glm calls build them. -/
theorem renderScene_dumpsterMatrices (ops : FloatOps K)
    (ps : ProgramState K) (sh : Shader) (σ : GLState K) :
    (trace (exec σ (Cmd.use sh)) (renderScene ops ps sh)).filterMap
        (modelMatrixAt Model.dumpster)
      = [ scale (rotate ops (translate Mat4.identity ⟨2.6, 0.0, 0.9⟩) (radians ops (-90.0))
            ⟨0.0, 1.0, 0.0⟩) (Vec3.splat 0.25),
          rotate ops (translate (scale (rotate ops (translate Mat4.identity ⟨2.6, 0.0, 0.9⟩)
            (radians ops (-90.0)) ⟨0.0, 1.0, 0.0⟩) (Vec3.splat 0.25)) ⟨-2.1, 0.0, 0.0⟩)
            (radians ops (-10.0)) ⟨0.0, 1.0, 0.0⟩,
          rotate ops (translate (rotate ops (rotate ops (translate (scale (rotate ops
            (translate Mat4.identity ⟨2.6, 0.0, 0.9⟩) (radians ops (-90.0)) ⟨0.0, 1.0, 0.0⟩)
            (Vec3.splat 0.25)) ⟨-2.1, 0.0, 0.0⟩) (radians ops (-10.0)) ⟨0.0, 1.0, 0.0⟩)
            (radians ops 10.0) ⟨0.0, 1.0, 0.0⟩) ⟨-4.5, 0.0, 0.0⟩) (radians ops 10.0)
            ⟨0.0, 1.0, 0.0⟩ ] := by
  simp only [renderScene, trace, exec, List.filterMap_cons, List.filterMap_nil, modelMatrixAt,
    if_true, setUniform, and_self, reduceCtorEq, if_false]

/-- The three dumpster matrices under exact trigonometry: the products of
elementary matrices they are equal to, and where they send the local origin. -/
theorem dumpster_models (ops : FloatOps K) (h1 : ops.sqrt 1 = 1)
    (hc90 : ops.cos (radians ops (-90)) = 0) (hs90 : ops.sin (radians ops (-90)) = -1)
    (hcn : ops.cos (radians ops (-10)) = ops.cos (radians ops 10))
    (hsn : ops.sin (radians ops (-10)) = -ops.sin (radians ops 10))
    (hpyth : ops.cos (radians ops 10) ^ 2 + ops.sin (radians ops 10) ^ 2 = 1)
    (ps : ProgramState K) (sh : Shader) (σ : GLState K) :
    (trace (exec σ (Cmd.use sh)) (renderScene ops ps sh)).filterMap
        (modelMatrixAt Model.dumpster)
      = [ ((translate Mat4.identity ⟨2.6, 0, 0.9⟩).mul
              (rotate ops Mat4.identity (radians ops (-90)) ⟨0, 1, 0⟩)).mul
            (scale Mat4.identity (Vec3.splat 0.25)),
          ((((translate Mat4.identity ⟨2.6, 0, 0.9⟩).mul
              (rotate ops Mat4.identity (radians ops (-90)) ⟨0, 1, 0⟩)).mul
            (scale Mat4.identity (Vec3.splat 0.25))).mul
            (translate Mat4.identity ⟨-2.1, 0, 0⟩)).mul
            (rotate ops Mat4.identity (radians ops (-10)) ⟨0, 1, 0⟩),
          ((((translate Mat4.identity ⟨2.6, 0, 0.9⟩).mul
              (rotate ops Mat4.identity (radians ops (-90)) ⟨0, 1, 0⟩)).mul
            (scale Mat4.identity (Vec3.splat 0.25))).mul
            (translate Mat4.identity ⟨-6.6, 0, 0⟩)).mul
            (rotate ops Mat4.identity (radians ops 10) ⟨0, 1, 0⟩) ]
    ∧ (((translate Mat4.identity ⟨2.6, 0, 0.9⟩).mul
              (rotate ops Mat4.identity (radians ops (-90)) ⟨0, 1, 0⟩)).mul
            (scale Mat4.identity (Vec3.splat 0.25))).mulVec ⟨0, 0, 0, 1⟩ = ⟨2.6, 0, 0.9, 1⟩
    ∧ (((((translate Mat4.identity ⟨2.6, 0, 0.9⟩).mul
              (rotate ops Mat4.identity (radians ops (-90)) ⟨0, 1, 0⟩)).mul
            (scale Mat4.identity (Vec3.splat 0.25))).mul
            (translate Mat4.identity ⟨-2.1, 0, 0⟩)).mul
            (rotate ops Mat4.identity (radians ops (-10)) ⟨0, 1, 0⟩)).mulVec ⟨0, 0, 0, 1⟩
          = ⟨2.6, 0, 0.375, 1⟩
    ∧ (((((translate Mat4.identity ⟨2.6, 0, 0.9⟩).mul
              (rotate ops Mat4.identity (radians ops (-90)) ⟨0, 1, 0⟩)).mul
            (scale Mat4.identity (Vec3.splat 0.25))).mul
            (translate Mat4.identity ⟨-6.6, 0, 0⟩)).mul
            (rotate ops Mat4.identity (radians ops 10) ⟨0, 1, 0⟩)).mulVec ⟨0, 0, 0, 1⟩
          = ⟨2.6, 0, -0.75, 1⟩ := by
  have e0 : (0.0 : K) = 0 := by norm_num
  have e1 : (1.0 : K) = 1 := by norm_num
  have e90 : (90.0 : K) = 90 := by norm_num
  have e10 : (10.0 : K) = 10 := by norm_num
  have hG1 : scale (rotate ops (translate Mat4.identity ⟨2.6, 0, 0.9⟩) (radians ops (-90))
        ⟨0, 1, 0⟩) (Vec3.splat 0.25)
      = (⟨⟨0, 0, 0.25, 0⟩, ⟨0, 0.25, 0, 0⟩, ⟨-0.25, 0, 0, 0⟩, ⟨2.6, 0, 0.9, 1⟩⟩ : Mat4 K) := by
    rw [rotate_about_y ops h1, hc90, hs90]
    simp only [scale, translate, Mat4.identity, Mat4.diag, Vec3.splat, Vec4.smul, Vec4.add,
      Mat4.mk.injEq, Vec4.mk.injEq]
    norm_num
  have hsum : (Vec3.add ⟨-2.1, 0, 0⟩ ⟨-4.5, 0, 0⟩ : Vec3 K) = ⟨-6.6, 0, 0⟩ := by
    simp only [Vec3.add, Vec3.mk.injEq]
    norm_num
  refine ⟨?_, ?_, ?_, ?_⟩
  · rw [renderScene_dumpsterMatrices]
    simp only [e0, e1, e90, e10]
    rw [rotate_about_y_cancel ops h1 _ _ _ hcn hsn hpyth, translate_translate, hsum]
    simp only [← scale_eq_mul, ← rotate_eq_mul, ← translate_eq_mul]
  · simp only [← scale_eq_mul, ← rotate_eq_mul, ← translate_eq_mul]
    rw [hG1, mulVec_origin]
  · simp only [← scale_eq_mul, ← rotate_eq_mul, ← translate_eq_mul]
    rw [hG1, mulVec_origin]
    simp only [rotate, translate, Vec4.smul, Vec4.add, Vec4.mk.injEq]
    norm_num
  · simp only [← scale_eq_mul, ← rotate_eq_mul, ← translate_eq_mul]
    rw [hG1, mulVec_origin]
    simp only [rotate, translate, Vec4.smul, Vec4.add, Vec4.mk.injEq]
    norm_num

end Dumpsters

section DumpstersReal

/-- C17: over exact real arithmetic (`K = ℝ` with the real square root, sine,
cosine and `π`), and for every car placement in `ProgramState`, the model
matrices in effect at the three dumpster draws of `renderScene` are
`T(2.6, 0, 0.9) · R_y(-90°) · S(0.25)`, that matrix times
`T(-2.1, 0, 0) · R_y(-10°)`, and that matrix times `T(-6.6, 0, 0) · R_y(10°)`
(the rotations by `-10°` and `+10°` between the second and the third placement
cancel); they send the local origin to `(2.6, 0, 0.9)`, `(2.6, 0, 0.375)` and
`(2.6, 0, -0.75)`, three points of the plane `y = 0` on the line `x = 2.6`. -/
theorem C17_dumpster_origins (ps : ProgramState ℝ) (sh : Shader) (σ : GLState ℝ) :
    let ops : FloatOps ℝ :=
      { sqrt := Real.sqrt, tan := Real.tan, sin := Real.sin, cos := Real.cos, pi := Real.pi }
    let M1 : Mat4 ℝ :=
      ((translate Mat4.identity ⟨2.6, 0, 0.9⟩).mul
          (rotate ops Mat4.identity (radians ops (-90)) ⟨0, 1, 0⟩)).mul
        (scale Mat4.identity (Vec3.splat 0.25))
    let M2 : Mat4 ℝ :=
      (M1.mul (translate Mat4.identity ⟨-2.1, 0, 0⟩)).mul
        (rotate ops Mat4.identity (radians ops (-10)) ⟨0, 1, 0⟩)
    let M3 : Mat4 ℝ :=
      (M1.mul (translate Mat4.identity ⟨-6.6, 0, 0⟩)).mul
        (rotate ops Mat4.identity (radians ops 10) ⟨0, 1, 0⟩)
    (trace (exec σ (Cmd.use sh)) (renderScene ops ps sh)).filterMap
        (modelMatrixAt Model.dumpster) = [M1, M2, M3]
    ∧ M1.mulVec ⟨0, 0, 0, 1⟩ = ⟨2.6, 0, 0.9, 1⟩
    ∧ M2.mulVec ⟨0, 0, 0, 1⟩ = ⟨2.6, 0, 0.375, 1⟩
    ∧ M3.mulVec ⟨0, 0, 0, 1⟩ = ⟨2.6, 0, -0.75, 1⟩
    ∧ (∀ M ∈ [M1, M2, M3], (M.mulVec ⟨0, 0, 0, 1⟩).x = 2.6 ∧ (M.mulVec ⟨0, 0, 0, 1⟩).y = 0) := by
  intro ops M1 M2 M3
  have h90 : radians ops (-90) = -(Real.pi / 2) := by
    simp only [radians, ops]; ring
  have hm10 : radians ops (-10) = -radians ops 10 := by
    simp only [radians]; ring
  have h := dumpster_models ops Real.sqrt_one
    (by rw [h90]; exact (Real.cos_neg _).trans Real.cos_pi_div_two)
    (by rw [h90]; show Real.sin (-(Real.pi / 2)) = -1; rw [Real.sin_neg, Real.sin_pi_div_two])
    (by rw [hm10]; exact Real.cos_neg _)
    (by rw [hm10]; exact Real.sin_neg _)
    (Real.cos_sq_add_sin_sq _) ps sh σ
  refine ⟨h.1, h.2.1, h.2.2.1, h.2.2.2, ?_⟩
  intro M hM
  simp only [List.mem_cons, List.mem_singleton, List.not_mem_nil, or_false] at hM
  rcases hM with rfl | rfl | rfl
  · rw [h.2.1]; exact ⟨rfl, rfl⟩
  · rw [h.2.2.1]; exact ⟨rfl, rfl⟩
  · rw [h.2.2.2]; exact ⟨rfl, rfl⟩

end DumpstersReal

end RedSuns
